import Mathlib

/-!
# Asynchronous file I/O core and NNTP value objects: a shallow embedding

The development follows the C++ sources.  Every backend (io_uring, IOCP, GCD)
keeps the names of its classes and member functions.  Calls into the operating
system and into the host scheduler are recorded in an effect trace; results that
come back from the operating system are explicit arguments of the functions.

Machine integers are natural numbers or integers with explicit wrap-around:
`std::uint64_t` values are reduced modulo `2^64`, `std::uint32_t` values modulo
`2^32`, `std::int32_t` and `off_t` are the signed readings of those.
`std::size_t` is taken to be 64 bits wide.
-/

namespace nntp

/-! ## Machine integers -/

/-- Signed reading of a 32-bit word: `static_cast<std::int32_t>(res)`. -/
def toInt32 (res : Nat) : Int :=
  if res % 2 ^ 32 < 2 ^ 31 then ((res % 2 ^ 32 : Nat) : Int)
  else ((res % 2 ^ 32 : Nat) : Int) - 2 ^ 32

/-- Unsigned 32-bit word carrying a signed value: conversion to `std::uint32_t`. -/
def toUInt32 (r : Int) : Nat := (r % 2 ^ 32).toNat

/-- Negation in `std::int32_t` arithmetic (wrapping at the one value that has no negative). -/
def negInt32 (r : Int) : Int := toInt32 (toUInt32 (-r))

/-- Conversion of a `std::uint64_t` to the signed 64-bit `off_t`. -/
def toOffT (p : Nat) : Int :=
  if p % 2 ^ 64 < 2 ^ 63 then ((p % 2 ^ 64 : Nat) : Int)
  else ((p % 2 ^ 64 : Nat) : Int) - 2 ^ 64

/-- Conversion of a signed 64-bit `off_t` to an unsigned 64-bit word (`__u64`). -/
def offToU64 (o : Int) : Nat := (o % 2 ^ 64).toNat

/-- Addition in `std::uint64_t` arithmetic, as in `position_ += n`. -/
def addU64 (p n : Nat) : Nat := (p + n) % 2 ^ 64

/-! ## Status values -/

/-- The values of `std::error_code` the sources construct. `success` is the
default-constructed code; `eof` and `canceled` are the two conditions of
`boost::capy`; `system code` is a native error number in the system category. -/
inductive error_code where
  | success
  | eof
  | canceled
  | bad_file_descriptor
  | test_failure
  | system (code : Int)
  deriving DecidableEq, Repr

/-- Modelled from the spec: `boost::corosio::detail::make_err`, which lives in the
host library. It keeps a nonzero native error with its code in the system
category; zero is the default-constructed (success) code. -/
def make_err (code : Int) : error_code :=
  if code = 0 then error_code.success else error_code.system code

/-- The `errno.h` constants the sources name. Their values depend on the platform. -/
structure errno_h where
  ECANCELED : Int
  ENOMEM : Int
  EBADF : Int
  deriving DecidableEq, Repr

/-- The values of `errno.h` on Linux (x86 and ARM). -/
def linux_errno : errno_h := { ECANCELED := 125, ENOMEM := 12, EBADF := 9 }

/-! ## Effects on the operating system and on the scheduler -/

/-- Direction of an operation record. -/
inductive Dir where
  | read
  | write
  deriving DecidableEq, Repr

/-- One call into the scheduler or the operating system, in program order. -/
inductive Effect where
  /-- Scheduler `work_started()`. -/
  | work_started
  /-- Scheduler `work_finished()`. -/
  | work_finished
  /-- Scheduler `post(&op)` of the read or write record. -/
  | post (d : Dir)
  /-- `io_uring_prep_read` / `io_uring_prep_write` on a fresh SQE: descriptor,
  `unsigned nbytes`, `__u64 offset`. -/
  | uring_prep (d : Dir) (fd : Int) (nbytes : Nat) (offset : Nat)
  /-- `io_uring_submit(ring)`. -/
  | uring_submit
  /-- `ReadFile` / `WriteFile` with the record as `OVERLAPPED`: handle, byte count,
  `Offset`, `OffsetHigh`. -/
  | win_io (d : Dir) (handle : Int) (nbytes : Nat) (offset : Nat) (offsetHigh : Nat)
  /-- `dispatch_io_read` / `dispatch_io_write`: `off_t offset`, length. -/
  | dispatch_io (d : Dir) (offset : Int) (length : Nat)
  /-- A `resume()` of the coroutine handle stored in the record: the caller's coroutine
  is resumed. -/
  | resume (d : Dir)
  /-- Native `close(fd)` / `CloseHandle(h)`. -/
  | sys_close (handle : Int)
  /-- `dispatch_io_close` followed by `dispatch_release` of the channel. -/
  | channel_close
  /-- `dispatch_io_create` for the descriptor. -/
  | channel_create (fd : Int)
  /-- POSIX `open(path, flags, mode)`. -/
  | sys_open (path : String) (flags : Nat) (mode : Nat)
  /-- `CreateFileW(path, access, FILE_SHARE_READ, nullptr, creation, ...)`. -/
  | create_file (path : String) (access : Nat) (creation : Nat)
  /-- `CreateIoCompletionPort(h, iocp, key_io, 0)`. -/
  | iocp_associate (handle : Int)
  /-- `fstat(fd)` / `GetFileSizeEx(h)`. -/
  | sys_fstat (handle : Int)
  /-- Scheduler `post(op, result, 0)` of the read or write record together with a
  result, an `ssize_t`. -/
  | post_result (d : Dir) (result : Int)
  /-- `io_uring_cqe_seen(ring, cqe)`. -/
  | cqe_seen
  /-- The call `op->invoke_handler()` into the base class `overlapped_op` of the host
  library; what the handler does there is not part of the sources. -/
  | host_invoke_handler (d : Dir)
  deriving DecidableEq, Repr

/-- Whether an effect hands an operation to the completion backend. -/
def Effect.isSubmission : Effect → Bool
  | .uring_prep _ _ _ _ => true
  | .uring_submit => true
  | .win_io _ _ _ _ _ => true
  | .dispatch_io _ _ _ => true
  | _ => false

/-- Whether an effect posts a record to the scheduler. -/
def Effect.isPost : Effect → Bool
  | .post _ => true
  | .post_result _ _ => true
  | _ => false

/-- A single contiguous byte range (`boost::capy::mutable_buffer`): address and size. -/
structure mutable_buffer where
  data : Nat
  size : Nat
  deriving DecidableEq, Repr

/-- The caller's buffer sequence (`boost::corosio::io_buffer_param`), as the list
of ranges it hands out. -/
abbrev io_buffer_param := List mutable_buffer

/-- The call `buffers.copy_to(bufs, n)`: the first `n` ranges of the sequence; the
returned count is the length of the result. -/
def io_buffer_param.copy_to (buffers : io_buffer_param) (n : Nat) : List mutable_buffer :=
  buffers.take n

/-- What `read_some` / `write_some` return to the awaiter machinery. -/
inductive coroutine_handle where
  /-- `std::noop_coroutine()`: nothing further runs. -/
  | noop
  /-- The cached initiator, which runs `do_read_io` / `do_write_io` next. -/
  | initiator (d : Dir)
  deriving DecidableEq, Repr

/-! ## Linux: io_uring backend -/

namespace uring

/-- The operation record `file_read_op` / `file_write_op` of the io_uring backend,
with the fields of its base class that the sources use. The two out-parameter
pointers are modelled by the cells they point to: `none` is a null pointer,
`some v` a pointer to a caller variable currently holding `v`. -/
structure file_op where
  /-- Buffer address. -/
  buffer_ptr : Nat := 0
  /-- Buffer size, a `std::size_t`. -/
  buffer_size : Nat := 0
  /-- Absolute offset of this operation, an `off_t`. -/
  file_offset : Int := 0
  /-- Whether `internal_ptr` currently owns a reference to the file state. -/
  internal_ptr : Bool := false
  /-- The caller's coroutine handle, when one is stored. -/
  h : Option Nat := none
  /-- The caller's status variable behind `ec_out`. -/
  ec_out : Option error_code := none
  /-- The caller's byte-count variable behind `bytes_out`. -/
  bytes_out : Option Nat := none
  /-- Base-class field `bytes_transferred`. -/
  bytes_transferred : Nat := 0
  /-- Base-class flag `empty_buffer`. -/
  empty_buffer : Bool := false
  /-- The field `handler_` that `file_write_op` declares, the handle its own
  `invoke_handler()` resumes; `none` is a null handle. No function of the sources
  assigns it. -/
  handler_ : Option Nat := none
  deriving DecidableEq, Repr

/-- The call `op.reset()` of the base class: the per-call fields return to their defaults.
The derived-class fields (buffer, offset, owning reference) are not touched. -/
def file_op.reset (op : file_op) : file_op :=
  { op with h := none, ec_out := none, bytes_out := none,
            bytes_transferred := 0, empty_buffer := false }

/-- The file state `uring_file_impl_internal`. -/
structure uring_file_impl_internal where
  /-- Native descriptor, `-1` when closed. -/
  fd_ : Int := -1
  /-- Logical position, a `std::uint64_t`. -/
  position_ : Nat := 0
  /-- Read record. -/
  rd_ : file_op := {}
  /-- Write record. -/
  wr_ : file_op := {}
  deriving DecidableEq, Repr

namespace uring_file_impl_internal

/-- Member `native_handle()`. -/
def native_handle (s : uring_file_impl_internal) : Int := s.fd_

/-- Member `position()`. -/
def position (s : uring_file_impl_internal) : Nat := s.position_

/-- Member `set_position(pos)`; the argument is a `std::uint64_t`. -/
def set_position (s : uring_file_impl_internal) (pos : Nat) : uring_file_impl_internal :=
  { s with position_ := pos % 2 ^ 64 }

/-- Member `is_open()`. -/
def is_open (s : uring_file_impl_internal) : Bool := s.fd_ != -1

/-- Member `set_fd(fd)`. -/
def set_fd (s : uring_file_impl_internal) (fd : Int) : uring_file_impl_internal :=
  { s with fd_ := fd }

/-- Member `close_file()`. -/
def close_file (s : uring_file_impl_internal) : uring_file_impl_internal × List Effect :=
  if s.fd_ != -1 then
    ({ s with fd_ := -1, position_ := 0 }, [Effect.sys_close s.fd_])
  else
    ({ s with position_ := 0 }, [])

/-- Member `read_some(h, ex, buffers, token, ec, bytes_transferred)`. The two pointer
arguments are given as the cells they point to. -/
def read_some (s : uring_file_impl_internal) (h : Nat) (buffers : io_buffer_param)
    (ec : Option error_code) (bytes_transferred : Option Nat) :
    uring_file_impl_internal × List Effect × coroutine_handle :=
  let op : file_op := { s.rd_ with internal_ptr := true }
  let op := op.reset
  let op := { op with h := some h, ec_out := ec, bytes_out := bytes_transferred }
  match io_buffer_param.copy_to buffers 1 with
  | [] =>
    let op := { op with bytes_transferred := 0, empty_buffer := true }
    let op := { op with ec_out := op.ec_out.map (fun _ => error_code.success) }
    let op := { op with bytes_out := op.bytes_out.map (fun _ => 0) }
    ({ s with rd_ := op }, [Effect.post Dir.read], coroutine_handle.noop)
  | b :: _ =>
    let op := { op with buffer_ptr := b.data, buffer_size := b.size,
                        file_offset := toOffT s.position_ }
    ({ s with rd_ := op }, [], coroutine_handle.initiator Dir.read)

/-- Member `do_read_io()`. `sqe` tells whether `io_uring_get_sqe` returned an entry,
`ret` is the value `io_uring_submit` returns. -/
def do_read_io (E : errno_h) (s : uring_file_impl_internal) (sqe : Bool) (ret : Int) :
    uring_file_impl_internal × List Effect :=
  let op := s.rd_
  if !sqe then
    let op := { op with ec_out := op.ec_out.map (fun _ => make_err E.ENOMEM) }
    let op := { op with bytes_out := op.bytes_out.map (fun _ => 0) }
    ({ s with rd_ := op },
      [Effect.work_started, Effect.work_finished, Effect.post Dir.read])
  else
    let prep := Effect.uring_prep Dir.read s.fd_ (op.buffer_size % 2 ^ 32) (offToU64 op.file_offset)
    if ret < 0 then
      let op := { op with ec_out := op.ec_out.map (fun _ => make_err (-ret)) }
      let op := { op with bytes_out := op.bytes_out.map (fun _ => 0) }
      ({ s with rd_ := op },
        [Effect.work_started, prep, Effect.uring_submit, Effect.work_finished,
         Effect.post Dir.read])
    else
      (s, [Effect.work_started, prep, Effect.uring_submit])

/-- Member `write_some(h, ex, buffers, token, ec, bytes_transferred)`. -/
def write_some (s : uring_file_impl_internal) (h : Nat) (buffers : io_buffer_param)
    (ec : Option error_code) (bytes_transferred : Option Nat) :
    uring_file_impl_internal × List Effect × coroutine_handle :=
  let op : file_op := { s.wr_ with internal_ptr := true }
  let op := op.reset
  let op := { op with h := some h, ec_out := ec, bytes_out := bytes_transferred }
  match io_buffer_param.copy_to buffers 1 with
  | [] =>
    let op := { op with bytes_transferred := 0, empty_buffer := true }
    let op := { op with ec_out := op.ec_out.map (fun _ => error_code.success) }
    let op := { op with bytes_out := op.bytes_out.map (fun _ => 0) }
    ({ s with wr_ := op }, [Effect.post Dir.write], coroutine_handle.noop)
  | b :: _ =>
    let op := { op with buffer_ptr := b.data, buffer_size := b.size,
                        file_offset := toOffT s.position_ }
    ({ s with wr_ := op }, [], coroutine_handle.initiator Dir.write)

/-- Member `do_write_io()`. `sqe` tells whether `io_uring_get_sqe` returned an entry,
`ret` is the value `io_uring_submit` returns. -/
def do_write_io (E : errno_h) (s : uring_file_impl_internal) (sqe : Bool) (ret : Int) :
    uring_file_impl_internal × List Effect :=
  let op := s.wr_
  if !sqe then
    let op := { op with ec_out := op.ec_out.map (fun _ => make_err E.ENOMEM) }
    let op := { op with bytes_out := op.bytes_out.map (fun _ => 0) }
    ({ s with wr_ := op },
      [Effect.work_started, Effect.work_finished, Effect.post Dir.write])
  else
    let prep := Effect.uring_prep Dir.write s.fd_ (op.buffer_size % 2 ^ 32) (offToU64 op.file_offset)
    if ret < 0 then
      let op := { op with ec_out := op.ec_out.map (fun _ => make_err (-ret)) }
      let op := { op with bytes_out := op.bytes_out.map (fun _ => 0) }
      ({ s with wr_ := op },
        [Effect.work_started, prep, Effect.uring_submit, Effect.work_finished,
         Effect.post Dir.write])
    else
      (s, [Effect.work_started, prep, Effect.uring_submit])

end uring_file_impl_internal

/-- The call `op->invoke_handler()` on the read record, whose handler is the one of
its base class `io_awaitable_op`: the coroutine stored in `h` is resumed. -/
def file_op.invoke_handler (op : file_op) (d : Dir) : List Effect :=
  match op.h with
  | some _ => [Effect.resume d]
  | none => []

/-- The member `file_write_op::invoke_handler()`, declared by the write record itself:
`if (handler_) handler_.resume();`. -/
def file_write_op.invoke_handler (op : file_op) : List Effect :=
  match op.handler_ with
  | some _ => [Effect.resume Dir.write]
  | none => []

/-- Completion callback `file_read_op::do_complete(owner, base, res, flags)`.
`owner` tells whether the owner pointer is non-null, `res` is the 32-bit word
received from the scheduler. -/
def file_read_op.do_complete (E : errno_h) (owner : Bool) (s : uring_file_impl_internal)
    (res : Nat) : uring_file_impl_internal × List Effect :=
  if !owner then
    ({ s with rd_ := { s.rd_ with internal_ptr := false } }, [])
  else
    let result := toInt32 res
    let op := { s.rd_ with internal_ptr := false }
    if result ≥ 0 then
      let op := { op with bytes_out := op.bytes_out.map (fun _ => result.toNat) }
      let position := if result > 0 then addU64 s.position_ result.toNat else s.position_
      let op :=
        if result = 0 then { op with ec_out := op.ec_out.map (fun _ => error_code.eof) }
        else { op with ec_out := op.ec_out.map (fun _ => error_code.success) }
      ({ s with position_ := position, rd_ := op }, op.invoke_handler Dir.read)
    else
      let op := { op with bytes_out := op.bytes_out.map (fun _ => 0) }
      let op :=
        if negInt32 result = E.ECANCELED then
          { op with ec_out := op.ec_out.map (fun _ => error_code.canceled) }
        else
          { op with ec_out := op.ec_out.map (fun _ => make_err (negInt32 result)) }
      ({ s with rd_ := op }, op.invoke_handler Dir.read)

/-- Completion callback `file_write_op::do_complete(owner, base, res, flags)`. -/
def file_write_op.do_complete (E : errno_h) (owner : Bool) (s : uring_file_impl_internal)
    (res : Nat) : uring_file_impl_internal × List Effect :=
  if !owner then
    ({ s with wr_ := { s.wr_ with internal_ptr := false } }, [])
  else
    let result := toInt32 res
    let op := { s.wr_ with internal_ptr := false }
    if result ≥ 0 then
      let op := { op with bytes_out := op.bytes_out.map (fun _ => result.toNat) }
      let position := if result > 0 then addU64 s.position_ result.toNat else s.position_
      let op := { op with ec_out := op.ec_out.map (fun _ => error_code.success) }
      ({ s with position_ := position, wr_ := op }, file_write_op.invoke_handler op)
    else
      let op := { op with bytes_out := op.bytes_out.map (fun _ => 0) }
      let op :=
        if negInt32 result = E.ECANCELED then
          { op with ec_out := op.ec_out.map (fun _ => error_code.canceled) }
        else
          { op with ec_out := op.ec_out.map (fun _ => make_err (negInt32 result)) }
      ({ s with wr_ := op }, file_write_op.invoke_handler op)

end uring

/-! ## Windows: IOCP backend -/

namespace iocp

/-- The value `INVALID_HANDLE_VALUE`, the handle `(HANDLE)-1`. -/
def INVALID_HANDLE_VALUE : Int := -1

/-- The Windows error `ERROR_IO_PENDING`. -/
def ERROR_IO_PENDING : Nat := 997

/-- The operation record `file_read_op` / `file_write_op` of the IOCP backend. It
derives from `overlapped_op`, so it carries the `OVERLAPPED` offset words and the
completion fields the IOCP dispatcher fills in. -/
structure file_op where
  /-- The `OVERLAPPED::Offset` word, a `DWORD`. -/
  Offset : Nat := 0
  /-- The `OVERLAPPED::OffsetHigh` word, a `DWORD`. -/
  OffsetHigh : Nat := 0
  /-- Native error of the completion, a `DWORD`. -/
  dwError : Nat := 0
  /-- Bytes transferred by the completion, a `DWORD`. -/
  bytes_transferred : Nat := 0
  /-- Base-class flag `empty_buffer`. -/
  empty_buffer : Bool := false
  /-- Base-class flag `is_read_`. -/
  is_read_ : Bool := false
  /-- The caller's coroutine handle, when one is stored. -/
  h : Option Nat := none
  /-- The caller's status variable behind `ec_out`. -/
  ec_out : Option error_code := none
  /-- The caller's byte-count variable behind `bytes_out`. -/
  bytes_out : Option Nat := none
  /-- Buffer address. -/
  buffer_ptr : Nat := 0
  /-- Buffer size, a `DWORD`. -/
  buffer_size : Nat := 0
  /-- Absolute offset of this operation, a `std::uint64_t`. -/
  file_offset : Nat := 0
  /-- Whether `internal_ptr` currently owns a reference to the file state. -/
  internal_ptr : Bool := false
  deriving DecidableEq, Repr

/-- The call `op.reset()` of `overlapped_op`: the `OVERLAPPED` words and the per-call
fields return to their defaults. The derived-class fields are not touched. -/
def file_op.reset (op : file_op) : file_op :=
  { op with Offset := 0, OffsetHigh := 0, dwError := 0, bytes_transferred := 0,
            empty_buffer := false, is_read_ := false,
            h := none, ec_out := none, bytes_out := none }

/-- The file state `win_file_impl_internal`. -/
structure win_file_impl_internal where
  /-- Native handle, `INVALID_HANDLE_VALUE` when closed. -/
  handle_ : Int := INVALID_HANDLE_VALUE
  /-- Logical position, a `std::uint64_t`. -/
  position_ : Nat := 0
  /-- Read record. -/
  rd_ : file_op := {}
  /-- Write record. -/
  wr_ : file_op := {}
  deriving DecidableEq, Repr

namespace win_file_impl_internal

/-- Member `native_handle()`. -/
def native_handle (s : win_file_impl_internal) : Int := s.handle_

/-- Member `position()`. -/
def position (s : win_file_impl_internal) : Nat := s.position_

/-- Member `set_position(pos)`; the argument is a `std::uint64_t`. -/
def set_position (s : win_file_impl_internal) (pos : Nat) : win_file_impl_internal :=
  { s with position_ := pos % 2 ^ 64 }

/-- Member `is_open()`. -/
def is_open (s : win_file_impl_internal) : Bool := s.handle_ != INVALID_HANDLE_VALUE

/-- Member `set_handle(h)`. -/
def set_handle (s : win_file_impl_internal) (h : Int) : win_file_impl_internal :=
  { s with handle_ := h }

/-- Member `close_file()`. -/
def close_file (s : win_file_impl_internal) : win_file_impl_internal × List Effect :=
  if s.handle_ != INVALID_HANDLE_VALUE then
    ({ s with handle_ := INVALID_HANDLE_VALUE, position_ := 0 }, [Effect.sys_close s.handle_])
  else
    ({ s with position_ := 0 }, [])

/-- Member `read_some(h, ex, buffers, token, ec, bytes_transferred)`. -/
def read_some (s : win_file_impl_internal) (h : Nat) (buffers : io_buffer_param)
    (ec : Option error_code) (bytes_transferred : Option Nat) :
    win_file_impl_internal × List Effect × coroutine_handle :=
  let op : file_op := { s.rd_ with internal_ptr := true }
  let op := op.reset
  let op := { op with is_read_ := true, h := some h, ec_out := ec,
                      bytes_out := bytes_transferred }
  match io_buffer_param.copy_to buffers 1 with
  | [] =>
    let op := { op with bytes_transferred := 0, dwError := 0, empty_buffer := true }
    ({ s with rd_ := op }, [Effect.post Dir.read], coroutine_handle.noop)
  | b :: _ =>
    let op := { op with buffer_ptr := b.data, buffer_size := b.size % 2 ^ 32,
                        file_offset := s.position_,
                        Offset := s.position_ % 2 ^ 32,
                        OffsetHigh := (s.position_ / 2 ^ 32) % 2 ^ 32 }
    ({ s with rd_ := op }, [], coroutine_handle.initiator Dir.read)

/-- Member `do_read_io()`. `result` is the value `ReadFile` returns and `error` the
value of `GetLastError()` after it. -/
def do_read_io (s : win_file_impl_internal) (result : Bool) (error : Nat) :
    win_file_impl_internal × List Effect :=
  let op := s.rd_
  let io := Effect.win_io Dir.read s.handle_ op.buffer_size op.Offset op.OffsetHigh
  if result then
    (s, [Effect.work_started, io])
  else if error != ERROR_IO_PENDING then
    ({ s with rd_ := { op with dwError := error } },
      [Effect.work_started, io, Effect.work_finished, Effect.post Dir.read])
  else
    (s, [Effect.work_started, io])

/-- Member `write_some(h, ex, buffers, token, ec, bytes_transferred)`. -/
def write_some (s : win_file_impl_internal) (h : Nat) (buffers : io_buffer_param)
    (ec : Option error_code) (bytes_transferred : Option Nat) :
    win_file_impl_internal × List Effect × coroutine_handle :=
  let op : file_op := { s.wr_ with internal_ptr := true }
  let op := op.reset
  let op := { op with h := some h, ec_out := ec, bytes_out := bytes_transferred }
  match io_buffer_param.copy_to buffers 1 with
  | [] =>
    let op := { op with bytes_transferred := 0, dwError := 0 }
    ({ s with wr_ := op }, [Effect.post Dir.write], coroutine_handle.noop)
  | b :: _ =>
    let op := { op with buffer_ptr := b.data, buffer_size := b.size % 2 ^ 32,
                        file_offset := s.position_,
                        Offset := s.position_ % 2 ^ 32,
                        OffsetHigh := (s.position_ / 2 ^ 32) % 2 ^ 32 }
    ({ s with wr_ := op }, [], coroutine_handle.initiator Dir.write)

/-- Member `do_write_io()`. `result` is the value `WriteFile` returns and `error` the
value of `GetLastError()` after it. -/
def do_write_io (s : win_file_impl_internal) (result : Bool) (error : Nat) :
    win_file_impl_internal × List Effect :=
  let op := s.wr_
  let io := Effect.win_io Dir.write s.handle_ op.buffer_size op.Offset op.OffsetHigh
  if result then
    (s, [Effect.work_started, io])
  else if error != ERROR_IO_PENDING then
    ({ s with wr_ := { op with dwError := error } },
      [Effect.work_started, io, Effect.work_finished, Effect.post Dir.write])
  else
    (s, [Effect.work_started, io])

end win_file_impl_internal

/-- Completion callback `file_read_op::do_complete(owner, base, bytes, error)`. The two
numeric arguments are unnamed in the source and unused: the callback reads the
fields `dwError` and `bytes_transferred` of the record. `invoke_handler` is the
handler of the base class `overlapped_op`, which belongs to the host library; what
it does to the record is an argument here, and the trace records the call. -/
def file_read_op.do_complete (invoke_handler : file_op → file_op) (owner : Bool)
    (s : win_file_impl_internal) (_bytes _error : Nat) :
    win_file_impl_internal × List Effect :=
  if !owner then
    ({ s with rd_ := { s.rd_ with internal_ptr := false } }, [])
  else
    let op := s.rd_
    let position :=
      if op.dwError = 0 ∧ op.bytes_transferred > 0 then
        addU64 s.position_ op.bytes_transferred
      else s.position_
    let op := { op with internal_ptr := false }
    ({ s with position_ := position, rd_ := invoke_handler op },
      [Effect.host_invoke_handler Dir.read])

/-- Completion callback `file_write_op::do_complete(owner, base, bytes, error)`. -/
def file_write_op.do_complete (invoke_handler : file_op → file_op) (owner : Bool)
    (s : win_file_impl_internal) (_bytes _error : Nat) :
    win_file_impl_internal × List Effect :=
  if !owner then
    ({ s with wr_ := { s.wr_ with internal_ptr := false } }, [])
  else
    let op := s.wr_
    let position :=
      if op.dwError = 0 ∧ op.bytes_transferred > 0 then
        addU64 s.position_ op.bytes_transferred
      else s.position_
    let op := { op with internal_ptr := false }
    ({ s with position_ := position, wr_ := invoke_handler op },
      [Effect.host_invoke_handler Dir.write])

end iocp

/-! ## Apple: GCD backend -/

namespace gcd

/-- The operation record `file_read_op` / `file_write_op` of the GCD backend, with
the fields the sources use. -/
structure file_op where
  /-- Buffer address. -/
  buffer_ptr : Nat := 0
  /-- Buffer size, a `std::size_t`. -/
  buffer_size : Nat := 0
  /-- Absolute offset of this operation, an `off_t`. -/
  file_offset : Int := 0
  /-- Whether `internal_ptr` currently owns a reference to the file state. -/
  internal_ptr : Bool := false
  /-- The caller's coroutine handle, when one is stored. -/
  h : Option Nat := none
  /-- The caller's status variable behind `ec_out`. -/
  ec_out : Option error_code := none
  /-- The caller's byte-count variable behind `bytes_out`. -/
  bytes_out : Option Nat := none
  /-- Field `bytes_transferred`. -/
  bytes_transferred : Nat := 0
  /-- Flag `empty_buffer`. -/
  empty_buffer : Bool := false
  /-- The field `handler_` both records declare, the handle their `invoke_handler()`
  resumes; `none` is a null handle. No function of the sources assigns it. -/
  handler_ : Option Nat := none
  deriving DecidableEq, Repr

/-- The call `op.reset()`: the per-call fields return to their defaults. -/
def file_op.reset (op : file_op) : file_op :=
  { op with h := none, ec_out := none, bytes_out := none,
            bytes_transferred := 0, empty_buffer := false }

/-- The file state `gcd_file_impl_internal`. -/
structure gcd_file_impl_internal where
  /-- Native descriptor, `-1` when closed. -/
  fd_ : Int := -1
  /-- Logical position, a `std::uint64_t`. -/
  position_ : Nat := 0
  /-- Whether the `dispatch_io` channel pointer `channel_` is non-null. -/
  channel_ : Bool := false
  /-- Read record. -/
  rd_ : file_op := {}
  /-- Write record. -/
  wr_ : file_op := {}
  deriving DecidableEq, Repr

namespace gcd_file_impl_internal

/-- Member `native_handle()`. -/
def native_handle (s : gcd_file_impl_internal) : Int := s.fd_

/-- Member `position()`. -/
def position (s : gcd_file_impl_internal) : Nat := s.position_

/-- Member `set_position(pos)`; the argument is a `std::uint64_t`. -/
def set_position (s : gcd_file_impl_internal) (pos : Nat) : gcd_file_impl_internal :=
  { s with position_ := pos % 2 ^ 64 }

/-- Member `is_open()`. -/
def is_open (s : gcd_file_impl_internal) : Bool := s.fd_ != -1

/-- Member `set_fd(fd)`. -/
def set_fd (s : gcd_file_impl_internal) (fd : Int) : gcd_file_impl_internal :=
  { s with fd_ := fd }

/-- Member `open_channel()`. `created` tells whether `dispatch_io_create` returned a
channel. -/
def open_channel (s : gcd_file_impl_internal) (created : Bool) :
    gcd_file_impl_internal × List Effect :=
  if s.fd_ == -1 || s.channel_ then (s, [])
  else ({ s with channel_ := created }, [Effect.channel_create s.fd_])

/-- Member `close_channel()`. -/
def close_channel (s : gcd_file_impl_internal) : gcd_file_impl_internal × List Effect :=
  if s.channel_ then ({ s with channel_ := false }, [Effect.channel_close])
  else (s, [])

/-- Member `close_file()`. -/
def close_file (s : gcd_file_impl_internal) : gcd_file_impl_internal × List Effect :=
  let (s1, t1) := s.close_channel
  if s1.fd_ != -1 then
    ({ s1 with fd_ := -1, position_ := 0 }, t1 ++ [Effect.sys_close s1.fd_])
  else
    ({ s1 with position_ := 0 }, t1)

/-- Member `read_some(h, ex, buffers, token, ec, bytes_transferred)`. -/
def read_some (s : gcd_file_impl_internal) (h : Nat) (buffers : io_buffer_param)
    (ec : Option error_code) (bytes_transferred : Option Nat) :
    gcd_file_impl_internal × List Effect × coroutine_handle :=
  let op : file_op := { s.rd_ with internal_ptr := true }
  let op := op.reset
  let op := { op with h := some h, ec_out := ec, bytes_out := bytes_transferred }
  match io_buffer_param.copy_to buffers 1 with
  | [] =>
    let op := { op with bytes_transferred := 0, empty_buffer := true }
    let op := { op with ec_out := op.ec_out.map (fun _ => error_code.success) }
    let op := { op with bytes_out := op.bytes_out.map (fun _ => 0) }
    ({ s with rd_ := op }, [Effect.post Dir.read], coroutine_handle.noop)
  | b :: _ =>
    let op := { op with buffer_ptr := b.data, buffer_size := b.size,
                        file_offset := toOffT s.position_ }
    ({ s with rd_ := op }, [], coroutine_handle.initiator Dir.read)

/-- Member `do_read_io()`, up to the return of `dispatch_io_read`; the completion
block runs later, on the dispatch queue. -/
def do_read_io (E : errno_h) (s : gcd_file_impl_internal) :
    gcd_file_impl_internal × List Effect :=
  let op := s.rd_
  if !s.channel_ then
    let op := { op with ec_out := op.ec_out.map (fun _ => make_err E.EBADF) }
    let op := { op with bytes_out := op.bytes_out.map (fun _ => 0) }
    ({ s with rd_ := op },
      [Effect.work_started, Effect.work_finished, Effect.post Dir.read])
  else
    (s, [Effect.work_started, Effect.dispatch_io Dir.read op.file_offset op.buffer_size])

/-- Member `write_some(h, ex, buffers, token, ec, bytes_transferred)`. -/
def write_some (s : gcd_file_impl_internal) (h : Nat) (buffers : io_buffer_param)
    (ec : Option error_code) (bytes_transferred : Option Nat) :
    gcd_file_impl_internal × List Effect × coroutine_handle :=
  let op : file_op := { s.wr_ with internal_ptr := true }
  let op := op.reset
  let op := { op with h := some h, ec_out := ec, bytes_out := bytes_transferred }
  match io_buffer_param.copy_to buffers 1 with
  | [] =>
    let op := { op with bytes_transferred := 0, empty_buffer := true }
    let op := { op with ec_out := op.ec_out.map (fun _ => error_code.success) }
    let op := { op with bytes_out := op.bytes_out.map (fun _ => 0) }
    ({ s with wr_ := op }, [Effect.post Dir.write], coroutine_handle.noop)
  | b :: _ =>
    let op := { op with buffer_ptr := b.data, buffer_size := b.size,
                        file_offset := toOffT s.position_ }
    ({ s with wr_ := op }, [], coroutine_handle.initiator Dir.write)

/-- Member `do_write_io()`, up to the return of `dispatch_io_write`; the completion
block runs later, on the dispatch queue. -/
def do_write_io (E : errno_h) (s : gcd_file_impl_internal) :
    gcd_file_impl_internal × List Effect :=
  let op := s.wr_
  if !s.channel_ then
    let op := { op with ec_out := op.ec_out.map (fun _ => make_err E.EBADF) }
    let op := { op with bytes_out := op.bytes_out.map (fun _ => 0) }
    ({ s with wr_ := op },
      [Effect.work_started, Effect.work_finished, Effect.post Dir.write])
  else
    (s, [Effect.work_started, Effect.dispatch_io Dir.write op.file_offset op.buffer_size])

end gcd_file_impl_internal

/-- The member `invoke_handler()` the two records declare:
`if (handler_) handler_.resume();`. -/
def file_op.invoke_handler (op : file_op) (d : Dir) : List Effect :=
  match op.handler_ with
  | some _ => [Effect.resume d]
  | none => []

/-- Completion callback `file_read_op::do_complete(owner, base, res, flags)` of the GCD
backend. -/
def file_read_op.do_complete (E : errno_h) (owner : Bool) (s : gcd_file_impl_internal)
    (res : Nat) : gcd_file_impl_internal × List Effect :=
  if !owner then
    ({ s with rd_ := { s.rd_ with internal_ptr := false } }, [])
  else
    let result := toInt32 res
    let op := { s.rd_ with internal_ptr := false }
    if result ≥ 0 then
      let op := { op with bytes_out := op.bytes_out.map (fun _ => result.toNat) }
      let position := if result > 0 then addU64 s.position_ result.toNat else s.position_
      let op :=
        if result = 0 then { op with ec_out := op.ec_out.map (fun _ => error_code.eof) }
        else { op with ec_out := op.ec_out.map (fun _ => error_code.success) }
      ({ s with position_ := position, rd_ := op }, op.invoke_handler Dir.read)
    else
      let op := { op with bytes_out := op.bytes_out.map (fun _ => 0) }
      let op :=
        if negInt32 result = E.ECANCELED then
          { op with ec_out := op.ec_out.map (fun _ => error_code.canceled) }
        else
          { op with ec_out := op.ec_out.map (fun _ => make_err (negInt32 result)) }
      ({ s with rd_ := op }, op.invoke_handler Dir.read)

/-- Completion callback `file_write_op::do_complete(owner, base, res, flags)` of the GCD
backend. -/
def file_write_op.do_complete (E : errno_h) (owner : Bool) (s : gcd_file_impl_internal)
    (res : Nat) : gcd_file_impl_internal × List Effect :=
  if !owner then
    ({ s with wr_ := { s.wr_ with internal_ptr := false } }, [])
  else
    let result := toInt32 res
    let op := { s.wr_ with internal_ptr := false }
    if result ≥ 0 then
      let op := { op with bytes_out := op.bytes_out.map (fun _ => result.toNat) }
      let position := if result > 0 then addU64 s.position_ result.toNat else s.position_
      let op := { op with ec_out := op.ec_out.map (fun _ => error_code.success) }
      ({ s with position_ := position, wr_ := op }, op.invoke_handler Dir.write)
    else
      let op := { op with bytes_out := op.bytes_out.map (fun _ => 0) }
      let op :=
        if negInt32 result = E.ECANCELED then
          { op with ec_out := op.ec_out.map (fun _ => error_code.canceled) }
        else
          { op with ec_out := op.ec_out.map (fun _ => make_err (negInt32 result)) }
      ({ s with wr_ := op }, op.invoke_handler Dir.write)

end gcd

/-! ## The public facade `file_stream` -/

/-- The enumeration `file_stream::access_mode`. -/
inductive access_mode where
  | read_only
  | write_only
  | read_write
  deriving DecidableEq, Repr

/-- Enumerator values of `access_mode`: `read_only = 1`, `write_only = 2`, `read_write = 3`. -/
def access_mode.val : access_mode → Nat
  | .read_only => 1
  | .write_only => 2
  | .read_write => 3

/-- The enumeration `file_stream::creation_mode`. -/
inductive creation_mode where
  | open_existing
  | create_new
  | create_always
  | open_always
  deriving DecidableEq, Repr

/-- The `fcntl.h` open flags the sources name. Their values depend on the platform. -/
structure fcntl_h where
  O_RDONLY : Nat
  O_WRONLY : Nat
  O_RDWR : Nat
  O_CREAT : Nat
  O_EXCL : Nat
  O_TRUNC : Nat
  deriving DecidableEq, Repr

/-- The values of `fcntl.h` on Linux (x86 and ARM). -/
def linux_fcntl : fcntl_h :=
  { O_RDONLY := 0, O_WRONLY := 1, O_RDWR := 2, O_CREAT := 64, O_EXCL := 128, O_TRUNC := 512 }

/-- The values of `fcntl.h` on macOS. -/
def apple_fcntl : fcntl_h :=
  { O_RDONLY := 0, O_WRONLY := 1, O_RDWR := 2, O_CREAT := 512, O_EXCL := 2048,
    O_TRUNC := 1024 }

/-- The constructor `std::error_code(value, std::system_category())`; value zero is the
default-constructed code. -/
def system_error_code (value : Int) : error_code :=
  if value = 0 then error_code.success else error_code.system value

/-- The POSIX branch of `file_stream::open`, identical on Linux and Apple: the flags
computed from the access and creation modes. -/
def posix_open_flags (F : fcntl_h) (access : access_mode) (creation : creation_mode) : Nat :=
  let flags : Nat := 0
  let flags :=
    if access.val = access_mode.read_only.val then F.O_RDONLY
    else if access.val = access_mode.write_only.val then F.O_WRONLY
    else if access.val = (access_mode.read_only.val ||| access_mode.write_only.val) then F.O_RDWR
    else flags
  match creation with
  | .open_existing => flags
  | .create_new => flags ||| (F.O_CREAT ||| F.O_EXCL)
  | .create_always => flags ||| (F.O_CREAT ||| F.O_TRUNC)
  | .open_always => flags ||| F.O_CREAT

namespace uring

/-- Service member `uring_file_service::open_file(impl, path, flags, mode)`. `fd` is the
value the native `open` returns and `errno` the error number it leaves behind. -/
def uring_file_service.open_file (impl : uring_file_impl_internal) (path : String)
    (flags mode : Nat) (fd errno : Int) :
    uring_file_impl_internal × error_code × List Effect :=
  let (impl, t) := impl.close_file
  let t := t ++ [Effect.sys_open path flags mode]
  if fd == -1 then
    (impl, make_err errno, t)
  else
    ((impl.set_fd fd).set_position 0, error_code.success, t)

/-- The facade `file_stream` on Linux. `impl_` is the wrapper pointer, given as the
file state it leads to; `none` is a null pointer. -/
structure file_stream where
  impl_ : Option uring_file_impl_internal
  deriving DecidableEq, Repr

namespace file_stream

/-- Member `open(path, access, creation)`. -/
def «open» (F : fcntl_h) (fs : file_stream) (path : String) (access : access_mode)
    (creation : creation_mode) (fd errno : Int) : file_stream × error_code × List Effect :=
  match fs.impl_ with
  | none => (fs, error_code.bad_file_descriptor, [])
  | some impl =>
    let flags := posix_open_flags F access creation
    let (impl, ec, t) := uring_file_service.open_file impl path flags 0o644 fd errno
    ({ impl_ := some impl }, ec, t)

/-- Member `is_open()`. -/
def is_open (fs : file_stream) : Bool :=
  match fs.impl_ with
  | none => false
  | some impl => impl.is_open

/-- Member `close()`. -/
def close (fs : file_stream) : file_stream × List Effect :=
  match fs.impl_ with
  | none => (fs, [])
  | some impl =>
    let (impl, t) := impl.close_file
    ({ impl_ := some impl }, t)

/-- Member `tell()`. -/
def tell (fs : file_stream) : Nat :=
  match fs.impl_ with
  | none => 0
  | some impl => impl.position

/-- Member `seek(offset)`. -/
def seek (fs : file_stream) (offset : Nat) : file_stream :=
  match fs.impl_ with
  | none => fs
  | some impl => { impl_ := some (impl.set_position offset) }

/-- Member `size(ec)`: the returned size and the value left in `ec`. `st` is the
outcome of `fstat`: `none` when it returns `-1`, otherwise the signed `st_size`;
`errno` is the error number it leaves behind. -/
def size (fs : file_stream) (st : Option Int) (errno : Int) : Nat × error_code × List Effect :=
  match fs.impl_ with
  | none => (0, error_code.bad_file_descriptor, [])
  | some impl =>
    if !impl.is_open then (0, error_code.bad_file_descriptor, [])
    else
      match st with
      | none => (0, system_error_code errno, [Effect.sys_fstat impl.native_handle])
      | some sz => (offToU64 sz, error_code.success, [Effect.sys_fstat impl.native_handle])

end file_stream

end uring

namespace gcd

/-- Service member `gcd_file_service::open_file(impl, path, flags, mode)`. `fd` is the
value the native `open` returns, `errno` the error number it leaves behind and
`created` whether `dispatch_io_create` returns a channel. -/
def gcd_file_service.open_file (impl : gcd_file_impl_internal) (path : String)
    (flags mode : Nat) (fd errno : Int) (created : Bool) :
    gcd_file_impl_internal × error_code × List Effect :=
  let (impl, t) := impl.close_file
  let t := t ++ [Effect.sys_open path flags mode]
  if fd == -1 then
    (impl, make_err errno, t)
  else
    let impl := (impl.set_fd fd).set_position 0
    let (impl, t2) := impl.open_channel created
    (impl, error_code.success, t ++ t2)

/-- The facade `file_stream` on Apple. -/
structure file_stream where
  impl_ : Option gcd_file_impl_internal
  deriving DecidableEq, Repr

namespace file_stream

/-- Member `open(path, access, creation)`. -/
def «open» (F : fcntl_h) (fs : file_stream) (path : String) (access : access_mode)
    (creation : creation_mode) (fd errno : Int) (created : Bool) :
    file_stream × error_code × List Effect :=
  match fs.impl_ with
  | none => (fs, error_code.bad_file_descriptor, [])
  | some impl =>
    let flags := posix_open_flags F access creation
    let (impl, ec, t) := gcd_file_service.open_file impl path flags 0o644 fd errno created
    ({ impl_ := some impl }, ec, t)

/-- Member `is_open()`. -/
def is_open (fs : file_stream) : Bool :=
  match fs.impl_ with
  | none => false
  | some impl => impl.is_open

/-- Member `close()`. -/
def close (fs : file_stream) : file_stream × List Effect :=
  match fs.impl_ with
  | none => (fs, [])
  | some impl =>
    let (impl, t) := impl.close_file
    ({ impl_ := some impl }, t)

/-- Member `tell()`. -/
def tell (fs : file_stream) : Nat :=
  match fs.impl_ with
  | none => 0
  | some impl => impl.position

/-- Member `seek(offset)`. -/
def seek (fs : file_stream) (offset : Nat) : file_stream :=
  match fs.impl_ with
  | none => fs
  | some impl => { impl_ := some (impl.set_position offset) }

/-- Member `size(ec)`: the returned size and the value left in `ec`. -/
def size (fs : file_stream) (st : Option Int) (errno : Int) : Nat × error_code × List Effect :=
  match fs.impl_ with
  | none => (0, error_code.bad_file_descriptor, [])
  | some impl =>
    if !impl.is_open then (0, error_code.bad_file_descriptor, [])
    else
      match st with
      | none => (0, system_error_code errno, [Effect.sys_fstat impl.native_handle])
      | some sz => (offToU64 sz, error_code.success, [Effect.sys_fstat impl.native_handle])

end file_stream

end gcd

namespace iocp

/-- The Windows access right `GENERIC_READ`. -/
def GENERIC_READ : Nat := 0x80000000

/-- The Windows access right `GENERIC_WRITE`. -/
def GENERIC_WRITE : Nat := 0x40000000

/-- The creation disposition `CREATE_NEW`. -/
def CREATE_NEW : Nat := 1

/-- The creation disposition `CREATE_ALWAYS`. -/
def CREATE_ALWAYS : Nat := 2

/-- The creation disposition `OPEN_EXISTING`. -/
def OPEN_EXISTING : Nat := 3

/-- The creation disposition `OPEN_ALWAYS`. -/
def OPEN_ALWAYS : Nat := 4

/-- Service member `win_file_service::open_file(impl, path, access, creation)`. `h` is
the handle `CreateFileW` returns, `associated` whether `CreateIoCompletionPort`
returns a non-null handle, and `error` the value of `GetLastError()` after the
call that failed. -/
def win_file_service.open_file (impl : win_file_impl_internal) (path : String)
    (access creation : Nat) (h : Int) (associated : Bool) (error : Nat) :
    win_file_impl_internal × error_code × List Effect :=
  let (impl, t) := impl.close_file
  let t := t ++ [Effect.create_file path access creation]
  if h == INVALID_HANDLE_VALUE then
    (impl, make_err error, t)
  else if !associated then
    (impl, make_err error, t ++ [Effect.iocp_associate h, Effect.sys_close h])
  else
    ((impl.set_handle h).set_position 0, error_code.success, t ++ [Effect.iocp_associate h])

/-- The facade `file_stream` on Windows. -/
structure file_stream where
  impl_ : Option win_file_impl_internal
  deriving DecidableEq, Repr

namespace file_stream

/-- Member `open(path, access, creation)`. -/
def «open» (fs : file_stream) (path : String) (access : access_mode)
    (creation : creation_mode) (h : Int) (associated : Bool) (error : Nat) :
    file_stream × error_code × List Effect :=
  match fs.impl_ with
  | none => (fs, error_code.bad_file_descriptor, [])
  | some impl =>
    let desired_access : Nat := 0
    let desired_access :=
      if access.val &&& access_mode.read_only.val ≠ 0 then desired_access ||| GENERIC_READ
      else desired_access
    let desired_access :=
      if access.val &&& access_mode.write_only.val ≠ 0 then desired_access ||| GENERIC_WRITE
      else desired_access
    let creation_disposition : Nat :=
      match creation with
      | .open_existing => OPEN_EXISTING
      | .create_new => CREATE_NEW
      | .create_always => CREATE_ALWAYS
      | .open_always => OPEN_ALWAYS
    let (impl, ec, t) :=
      win_file_service.open_file impl path desired_access creation_disposition h associated error
    ({ impl_ := some impl }, ec, t)

/-- Member `is_open()`. -/
def is_open (fs : file_stream) : Bool :=
  match fs.impl_ with
  | none => false
  | some impl => impl.is_open

/-- Member `close()`. -/
def close (fs : file_stream) : file_stream × List Effect :=
  match fs.impl_ with
  | none => (fs, [])
  | some impl =>
    let (impl, t) := impl.close_file
    ({ impl_ := some impl }, t)

/-- Member `tell()`. -/
def tell (fs : file_stream) : Nat :=
  match fs.impl_ with
  | none => 0
  | some impl => impl.position

/-- Member `seek(offset)`. -/
def seek (fs : file_stream) (offset : Nat) : file_stream :=
  match fs.impl_ with
  | none => fs
  | some impl => { impl_ := some (impl.set_position offset) }

/-- Member `size(ec)`: the returned size and the value left in `ec`. `sz` is the
outcome of `GetFileSizeEx`: `none` when it fails, otherwise the signed `QuadPart`;
`error` is the value of `GetLastError()` after a failure. -/
def size (fs : file_stream) (sz : Option Int) (error : Nat) : Nat × error_code × List Effect :=
  match fs.impl_ with
  | none => (0, error_code.bad_file_descriptor, [])
  | some impl =>
    if !impl.is_open then (0, error_code.bad_file_descriptor, [])
    else
      match sz with
      | none => (0, system_error_code error, [Effect.sys_fstat impl.native_handle])
      | some q => (offToU64 q, error_code.success, [Effect.sys_fstat impl.native_handle])

end file_stream

end iocp

/-! ## The test mock `mock_file_stream` -/

namespace test

/-- The class `mock_file_stream`. The fuse is a collaborator outside the class; the
count of `fuse_->fail()` calls made so far stands for it. -/
structure mock_file_stream where
  /-- Bytes staged for reads. -/
  provide_ : List UInt8 := []
  /-- Bytes expected from writes. -/
  expect_ : List UInt8 := []
  /-- Number of `fuse_->fail()` calls made through `fuse_`. -/
  fuse_ : Nat := 0
  /-- Logical position, a `std::size_t`. -/
  position_ : Nat := 0
  /-- Simulated file size. -/
  file_size_ : Nat := 0
  /-- Largest read, a `std::size_t`. -/
  max_read_size_ : Nat := 2 ^ 64 - 1
  /-- Largest write, a `std::size_t`. -/
  max_write_size_ : Nat := 2 ^ 64 - 1
  /-- Open flag. -/
  is_open_ : Bool := false
  deriving DecidableEq, Repr

namespace mock_file_stream

/-- Member `is_open()`. -/
def is_open (m : mock_file_stream) : Bool := m.is_open_

/-- Member `tell()`. -/
def tell (m : mock_file_stream) : Nat := m.position_

/-- Member `seek(offset)`; the argument is a `std::uint64_t`. -/
def seek (m : mock_file_stream) (offset : Nat) : mock_file_stream :=
  { m with position_ := offset % 2 ^ 64 }

end mock_file_stream

end test

/-! ## One complete call: `read_some` / `write_some` followed by the initiator

The cached initiator returned by `read_some` / `write_some` runs `do_read_io` /
`do_write_io` as soon as the caller is suspended; `std::noop_coroutine()` runs
nothing. -/

namespace uring

/-- A `read_some` call together with the initiator it hands control to. -/
def run_read_some (E : errno_h) (s : uring_file_impl_internal) (h : Nat)
    (buffers : io_buffer_param) (ec : Option error_code) (bytes_transferred : Option Nat)
    (sqe : Bool) (ret : Int) : uring_file_impl_internal × List Effect :=
  match s.read_some h buffers ec bytes_transferred with
  | (s1, t1, coroutine_handle.initiator _) =>
    let (s2, t2) := s1.do_read_io E sqe ret
    (s2, t1 ++ t2)
  | (s1, t1, coroutine_handle.noop) => (s1, t1)

/-- A `write_some` call together with the initiator it hands control to. -/
def run_write_some (E : errno_h) (s : uring_file_impl_internal) (h : Nat)
    (buffers : io_buffer_param) (ec : Option error_code) (bytes_transferred : Option Nat)
    (sqe : Bool) (ret : Int) : uring_file_impl_internal × List Effect :=
  match s.write_some h buffers ec bytes_transferred with
  | (s1, t1, coroutine_handle.initiator _) =>
    let (s2, t2) := s1.do_write_io E sqe ret
    (s2, t1 ++ t2)
  | (s1, t1, coroutine_handle.noop) => (s1, t1)

end uring

namespace iocp

/-- A `read_some` call together with the initiator it hands control to. -/
def run_read_some (s : win_file_impl_internal) (h : Nat)
    (buffers : io_buffer_param) (ec : Option error_code) (bytes_transferred : Option Nat)
    (result : Bool) (error : Nat) : win_file_impl_internal × List Effect :=
  match s.read_some h buffers ec bytes_transferred with
  | (s1, t1, coroutine_handle.initiator _) =>
    let (s2, t2) := s1.do_read_io result error
    (s2, t1 ++ t2)
  | (s1, t1, coroutine_handle.noop) => (s1, t1)

/-- A `write_some` call together with the initiator it hands control to. -/
def run_write_some (s : win_file_impl_internal) (h : Nat)
    (buffers : io_buffer_param) (ec : Option error_code) (bytes_transferred : Option Nat)
    (result : Bool) (error : Nat) : win_file_impl_internal × List Effect :=
  match s.write_some h buffers ec bytes_transferred with
  | (s1, t1, coroutine_handle.initiator _) =>
    let (s2, t2) := s1.do_write_io result error
    (s2, t1 ++ t2)
  | (s1, t1, coroutine_handle.noop) => (s1, t1)

end iocp

namespace gcd

/-- A `read_some` call together with the initiator it hands control to. -/
def run_read_some (E : errno_h) (s : gcd_file_impl_internal) (h : Nat)
    (buffers : io_buffer_param) (ec : Option error_code) (bytes_transferred : Option Nat) :
    gcd_file_impl_internal × List Effect :=
  match s.read_some h buffers ec bytes_transferred with
  | (s1, t1, coroutine_handle.initiator _) =>
    let (s2, t2) := s1.do_read_io E
    (s2, t1 ++ t2)
  | (s1, t1, coroutine_handle.noop) => (s1, t1)

/-- A `write_some` call together with the initiator it hands control to. -/
def run_write_some (E : errno_h) (s : gcd_file_impl_internal) (h : Nat)
    (buffers : io_buffer_param) (ec : Option error_code) (bytes_transferred : Option Nat) :
    gcd_file_impl_internal × List Effect :=
  match s.write_some h buffers ec bytes_transferred with
  | (s1, t1, coroutine_handle.initiator _) =>
    let (s2, t2) := s1.do_write_io E
    (s2, t1 ++ t2)
  | (s1, t1, coroutine_handle.noop) => (s1, t1)

end gcd

/-- The absolute file offset an effect hands to the completion backend, when the
effect is a read or write submission: the `__u64 offset` of `io_uring_prep_*`,
the offset encoded by the two `OVERLAPPED` words, the `off_t` of `dispatch_io_*`. -/
def Effect.handedOffset : Effect → Option Int
  | .uring_prep _ _ _ offset => some (offset : Int)
  | .win_io _ _ _ offset offsetHigh => some ((offsetHigh * 2 ^ 32 + offset : Nat) : Int)
  | .dispatch_io _ offset _ => some offset
  | _ => none

/-- The offsets handed to the completion backend along a trace, in order. -/
def handedOffsets (t : List Effect) : List Int := t.filterMap Effect.handedOffset

/-- The access flag the specification names for an access mode: `O_RDONLY`,
`O_WRONLY`, `O_RDWR`. -/
def spec_access_flag (F : fcntl_h) : access_mode → Nat
  | .read_only => F.O_RDONLY
  | .write_only => F.O_WRONLY
  | .read_write => F.O_RDWR

/-- The creation flags the specification names for a creation mode: nothing,
`O_CREAT|O_EXCL`, `O_CREAT|O_TRUNC`, `O_CREAT`. -/
def spec_creation_flags (F : fcntl_h) : creation_mode → Nat
  | .open_existing => 0
  | .create_new => F.O_CREAT ||| F.O_EXCL
  | .create_always => F.O_CREAT ||| F.O_TRUNC
  | .open_always => F.O_CREAT

/-! ## Value objects -/

/-- The exceptions the value objects throw: `std::invalid_argument` with its message,
and `std::bad_variant_access`. -/
inductive exception where
  | invalid_argument (what : String)
  | bad_variant_access
  deriving DecidableEq, Repr

/-- The class `MessageId`: the stored string `m_value`, a sequence of bytes. -/
structure MessageId where
  m_value : List UInt8
  deriving DecidableEq, Repr

namespace MessageId

/-- The loop of the constructor over the content: each byte must lie in
`0x21..0x7E` and differ from `0x3E`; the first offending byte throws. -/
def validate_content : List UInt8 → Except exception Unit
  | [] => Except.ok ()
  | uc :: rest =>
    if uc < 0x21 ∨ uc > 0x7E then
      Except.error (exception.invalid_argument "MessageId contains invalid character")
    else if uc = 0x3E then
      Except.error (exception.invalid_argument "MessageId content cannot contain \x27>\x27")
    else validate_content rest

/-- The constructor `MessageId::MessageId(value)`. -/
def ctor (value : List UInt8) : Except exception MessageId :=
  let m_value := value
  if m_value.isEmpty then
    Except.error (exception.invalid_argument "MessageId cannot be empty")
  else if m_value.length < 3 then
    Except.error (exception.invalid_argument "MessageId must have at least 3 characters")
  else if m_value.head? ≠ some 0x3C ∨ m_value.getLast? ≠ some 0x3E then
    Except.error (exception.invalid_argument "MessageId must be enclosed in angle brackets")
  else
    let content := (m_value.drop 1).take (m_value.length - 2)
    if content.length > 248 then
      Except.error (exception.invalid_argument
        "MessageId content exceeds maximum length of 248 characters")
    else
      match validate_content content with
      | Except.error e => Except.error e
      | Except.ok _ => Except.ok { m_value := m_value }

/-- Member `value()`. -/
def value (m : MessageId) : List UInt8 := m.m_value

end MessageId

/-- The condition the specification gives for a well-formed message id: at least 3
bytes, first byte `<`, last byte `>`, and between them 1 to 248 bytes, each in
`0x21..0x7E` and different from `>`. -/
def spec_MessageId_valid (s : List UInt8) : Prop :=
  3 ≤ s.length ∧ s.head? = some 0x3C ∧ s.getLast? = some 0x3E ∧
  1 ≤ s.tail.dropLast.length ∧ s.tail.dropLast.length ≤ 248 ∧
  ∀ b ∈ s.tail.dropLast, 0x21 ≤ b ∧ b ≤ 0x7E ∧ b ≠ 0x3E

/-! ## Strings of the standard library -/

namespace basic_string

/-- The function `std::char_traits<char>::compare(a, b, n)`, also `std::memcmp`: the
first `n` bytes compared as `unsigned char`; negative, zero or positive. -/
def traits_compare : List UInt8 → List UInt8 → Nat → Int
  | a :: as, b :: bs, n + 1 =>
    if a < b then -1 else if b < a then 1 else traits_compare as bs n
  | _, _, _ => 0

/-- Member `compare(str)` of `std::string`: the common prefix compared by the traits,
then the lengths. -/
def compare (lhs rhs : List UInt8) : Int :=
  let rlen := min lhs.length rhs.length
  let r := traits_compare lhs rhs rlen
  if r ≠ 0 then r
  else if lhs.length < rhs.length then -1
  else if lhs.length = rhs.length then 0
  else 1

/-- The operator `==` of `std::string`. -/
def op_eq (lhs rhs : List UInt8) : Bool := compare lhs rhs == 0

/-- The operator `!=` of `std::string`. -/
def op_ne (lhs rhs : List UInt8) : Bool := !(op_eq lhs rhs)

/-- The operator `<` of `std::string`. -/
def op_lt (lhs rhs : List UInt8) : Bool := decide (compare lhs rhs < 0)

/-- The operator `<=` of `std::string`. -/
def op_le (lhs rhs : List UInt8) : Bool := decide (compare lhs rhs ≤ 0)

/-- The operator `>` of `std::string`. -/
def op_gt (lhs rhs : List UInt8) : Bool := decide (compare lhs rhs > 0)

/-- The operator `>=` of `std::string`. -/
def op_ge (lhs rhs : List UInt8) : Bool := decide (compare lhs rhs ≥ 0)

end basic_string

/-- The loop of `std::to_string` for an unsigned value: decimal digits are produced
from the least significant one and put in front of the digits already produced.
The first argument bounds the number of digits. -/
def to_string_digits : Nat → Nat → List UInt8 → List UInt8
  | 0, _, acc => acc
  | fuel + 1, v, acc =>
    let d : UInt8 := UInt8.ofNat (48 + v % 10)
    if v / 10 = 0 then d :: acc else to_string_digits fuel (v / 10) (d :: acc)

/-- The function `std::to_string` on a `std::uint64_t`: at most 20 decimal digits. -/
def to_string (v : Nat) : List UInt8 := to_string_digits 20 (v % 2 ^ 64) []

namespace MessageId

/-- The operator `==` of `MessageId`. -/
def op_eq (lhs rhs : MessageId) : Bool := basic_string.op_eq lhs.m_value rhs.m_value

/-- The operator `!=` of `MessageId`. -/
def op_ne (lhs rhs : MessageId) : Bool := basic_string.op_ne lhs.m_value rhs.m_value

/-- The operator `<` of `MessageId`. -/
def op_lt (lhs rhs : MessageId) : Bool := basic_string.op_lt lhs.m_value rhs.m_value

/-- The operator `<=` of `MessageId`. -/
def op_le (lhs rhs : MessageId) : Bool := basic_string.op_le lhs.m_value rhs.m_value

/-- The operator `>` of `MessageId`. -/
def op_gt (lhs rhs : MessageId) : Bool := basic_string.op_gt lhs.m_value rhs.m_value

/-- The operator `>=` of `MessageId`. -/
def op_ge (lhs rhs : MessageId) : Bool := basic_string.op_ge lhs.m_value rhs.m_value

end MessageId

/-- The class `Article`: the stored number `m_value`, a `std::uint64_t`. -/
structure Article where
  m_value : Nat
  deriving DecidableEq, Repr

namespace Article

/-- The default constructor `Article()`. -/
def default_ctor : Article := { m_value := 1 }

/-- The constructor `Article(value)`; the argument is a `std::uint64_t`. -/
def ctor (value : Nat) : Except exception Article :=
  let m_value := value % 2 ^ 64
  if m_value < 1 then
    Except.error (exception.invalid_argument "Article must be positive and non-zero.")
  else
    Except.ok { m_value := m_value }

/-- Member `value()`. -/
def value (a : Article) : Nat := a.m_value

/-- The operator `==` of `Article`. -/
def op_eq (lhs rhs : Article) : Bool := lhs.m_value == rhs.m_value

/-- The operator `!=` of `Article`. -/
def op_ne (lhs rhs : Article) : Bool := lhs.m_value != rhs.m_value

/-- The operator `<` of `Article`. -/
def op_lt (lhs rhs : Article) : Bool := decide (lhs.m_value < rhs.m_value)

/-- The operator `<=` of `Article`. -/
def op_le (lhs rhs : Article) : Bool := decide (lhs.m_value ≤ rhs.m_value)

/-- The operator `>` of `Article`. -/
def op_gt (lhs rhs : Article) : Bool := decide (lhs.m_value > rhs.m_value)

/-- The operator `>=` of `Article`. -/
def op_ge (lhs rhs : Article) : Bool := decide (lhs.m_value ≥ rhs.m_value)

end Article

/-- The type `std::variant<Article, MessageId>` holding a value. -/
inductive variant where
  /-- Alternative 0. -/
  | article (a : Article)
  /-- Alternative 1. -/
  | message_id (m : MessageId)
  deriving DecidableEq, Repr

namespace variant

/-- Member `index()`. -/
def index : variant → Nat
  | .article _ => 0
  | .message_id _ => 1

/-- The call `std::holds_alternative<Article>(v)`. -/
def holds_article : variant → Bool
  | .article _ => true
  | .message_id _ => false

/-- The call `std::holds_alternative<MessageId>(v)`. -/
def holds_message_id : variant → Bool
  | .article _ => false
  | .message_id _ => true

/-- The call `std::get<Article>(v)`. -/
def get_article : variant → Except exception Article
  | .article a => Except.ok a
  | .message_id _ => Except.error exception.bad_variant_access

/-- The call `std::get<MessageId>(v)`. -/
def get_message_id : variant → Except exception MessageId
  | .article _ => Except.error exception.bad_variant_access
  | .message_id m => Except.ok m

/-- The operator `==` of `std::variant`: same index and equal alternatives. -/
def op_eq : variant → variant → Bool
  | .article a, .article b => Article.op_eq a b
  | .message_id a, .message_id b => MessageId.op_eq a b
  | _, _ => false

/-- The operator `!=` of `std::variant`: different index or unequal alternatives. -/
def op_ne : variant → variant → Bool
  | .article a, .article b => Article.op_ne a b
  | .message_id a, .message_id b => MessageId.op_ne a b
  | _, _ => true

/-- The operator `<` of `std::variant`: by index, then by the alternatives. -/
def op_lt : variant → variant → Bool
  | .article a, .article b => Article.op_lt a b
  | .message_id a, .message_id b => MessageId.op_lt a b
  | v, w => decide (v.index < w.index)

/-- The operator `>` of `std::variant`: by index, then by the alternatives. -/
def op_gt : variant → variant → Bool
  | .article a, .article b => Article.op_gt a b
  | .message_id a, .message_id b => MessageId.op_gt a b
  | v, w => decide (v.index > w.index)

/-- The operator `<=` of `std::variant`: by index, then by the alternatives. -/
def op_le : variant → variant → Bool
  | .article a, .article b => Article.op_le a b
  | .message_id a, .message_id b => MessageId.op_le a b
  | v, w => decide (v.index < w.index)

/-- The operator `>=` of `std::variant`: by index, then by the alternatives. -/
def op_ge : variant → variant → Bool
  | .article a, .article b => Article.op_ge a b
  | .message_id a, .message_id b => MessageId.op_ge a b
  | v, w => decide (v.index > w.index)

end variant

/-- The class `ArticleSpec`: the stored variant `m_value`. -/
structure ArticleSpec where
  m_value : variant
  deriving DecidableEq, Repr

namespace ArticleSpec

/-- The constructor `ArticleSpec(Article)`. -/
def of_article (article : Article) : ArticleSpec := { m_value := variant.article article }

/-- The constructor `ArticleSpec(MessageId)`. -/
def of_message_id (message_id : MessageId) : ArticleSpec :=
  { m_value := variant.message_id message_id }

/-- Member `is_article()`. -/
def is_article (s : ArticleSpec) : Bool := s.m_value.holds_article

/-- Member `is_message_id()`. -/
def is_message_id (s : ArticleSpec) : Bool := s.m_value.holds_message_id

/-- Member `as_article()`. -/
def as_article (s : ArticleSpec) : Except exception Article := s.m_value.get_article

/-- Member `as_message_id()`. -/
def as_message_id (s : ArticleSpec) : Except exception MessageId := s.m_value.get_message_id

/-- Member `value()`. -/
def value (s : ArticleSpec) : Except exception (List UInt8) :=
  if s.is_article then
    match s.m_value.get_article with
    | Except.ok a => Except.ok (to_string a.value)
    | Except.error e => Except.error e
  else
    match s.m_value.get_message_id with
    | Except.ok m => Except.ok m.value
    | Except.error e => Except.error e

/-- The operator `==` of `ArticleSpec`. -/
def op_eq (lhs rhs : ArticleSpec) : Bool := variant.op_eq lhs.m_value rhs.m_value

/-- The operator `!=` of `ArticleSpec`. -/
def op_ne (lhs rhs : ArticleSpec) : Bool := variant.op_ne lhs.m_value rhs.m_value

/-- The operator `<` of `ArticleSpec`. -/
def op_lt (lhs rhs : ArticleSpec) : Bool := variant.op_lt lhs.m_value rhs.m_value

/-- The operator `<=` of `ArticleSpec`. -/
def op_le (lhs rhs : ArticleSpec) : Bool := variant.op_le lhs.m_value rhs.m_value

/-- The operator `>` of `ArticleSpec`. -/
def op_gt (lhs rhs : ArticleSpec) : Bool := variant.op_gt lhs.m_value rhs.m_value

/-- The operator `>=` of `ArticleSpec`. -/
def op_ge (lhs rhs : ArticleSpec) : Bool := variant.op_ge lhs.m_value rhs.m_value

end ArticleSpec

/-- Bytewise lexicographic order on strings, as the specification words it: `a` is a
proper prefix of `b`, or the two agree up to a position where the byte of `a` is
the smaller one (bytes compared as unsigned values). -/
def spec_bytewise_lt (a b : List UInt8) : Prop :=
  (∃ c rest, b = a ++ c :: rest) ∨
  (∃ p x y ra rb, a = p ++ x :: ra ∧ b = p ++ y :: rb ∧ x < y)

/-- The number a string of decimal digits denotes, most significant digit first. -/
def spec_decimal_value (s : List UInt8) : Nat :=
  s.foldl (fun n c => 10 * n + (c.toNat - 48)) 0

/-- The base-10 representation of a number, as the specification words it: a
non-empty string of the digits `0`..`9`, with no sign and no leading zero (the
number zero being the single digit `0`), that denotes the number. -/
def spec_is_base10 (s : List UInt8) (v : Nat) : Prop :=
  s ≠ [] ∧ (∀ c ∈ s, 48 ≤ c.toNat ∧ c.toNat ≤ 57) ∧
  (s.head? = some 48 → s = [48]) ∧ spec_decimal_value s = v

/-! ## The test mock: staging, reads, writes, close -/

/-- The call `boost::capy::buffer_copy(dest, src, at_most)` of the host library: the
first `n = min(|dest|, |src|, at_most)` bytes of `src` overwrite the first `n`
bytes of `dest`; the call returns `n`. The result is the new content of `dest`
and `n`. -/
def buffer_copy (dest src : List UInt8) (at_most : Nat) : List UInt8 × Nat :=
  let n := min (min dest.length src.length) at_most
  (src.take n ++ dest.drop n, n)

namespace test

namespace mock_file_stream

/-- Member `provide(data)`. -/
def provide (m : mock_file_stream) (data : List UInt8) : mock_file_stream :=
  { m with provide_ := m.provide_ ++ data }

/-- Member `expect(data)`. -/
def expect (m : mock_file_stream) (data : List UInt8) : mock_file_stream :=
  { m with expect_ := m.expect_ ++ data }

/-- Member `set_file_size(size)`. -/
def set_file_size (m : mock_file_stream) (size : Nat) : mock_file_stream :=
  { m with file_size_ := size % 2 ^ 64 }

/-- Member `open(path, access, creation)`. -/
def «open» (m : mock_file_stream) : mock_file_stream × error_code :=
  ({ m with is_open_ := true }, error_code.success)

/-- Member `close()`. -/
def close (m : mock_file_stream) : mock_file_stream × error_code :=
  if !m.is_open_ then (m, error_code.success)
  else
    let m := { m with is_open_ := false }
    if !m.expect_.isEmpty then
      ({ m with fuse_ := m.fuse_ + 1 }, error_code.test_failure)
    else if !m.provide_.isEmpty then
      ({ m with fuse_ := m.fuse_ + 1 }, error_code.test_failure)
    else
      (m, error_code.success)

/-- Member `size(ec)`: the returned size and the value left in `ec`. -/
def size (m : mock_file_stream) : Nat × error_code := (m.file_size_, error_code.success)

/-- The destructor `~mock_file_stream()`: the fuse count it leaves behind. -/
def destructor (m : mock_file_stream) : Nat :=
  if m.is_open_ && (!m.expect_.isEmpty || !m.provide_.isEmpty) then m.fuse_ + 1
  else m.fuse_

/-- Member `consume_provide(buffers)`: the new state, the new content of the
destination and the returned count. `buffers` is the content of the destination,
its length the capacity. -/
def consume_provide (m : mock_file_stream) (buffers : List UInt8) :
    mock_file_stream × List UInt8 × Nat :=
  let (dest, n) := buffer_copy buffers m.provide_ m.max_read_size_
  ({ m with provide_ := m.provide_.drop n }, dest, n)

/-- Member `validate_expect(buffers, bytes_written)`: the new state, the returned flag
and the value left in `bytes_written`. `buffers` is the data to write. -/
def validate_expect (m : mock_file_stream) (buffers : List UInt8) (bytes_written : Nat) :
    mock_file_stream × Bool × Nat :=
  if m.expect_.isEmpty then (m, true, bytes_written)
  else
    let total := buffers.length
    let total := if total > m.max_write_size_ then m.max_write_size_ else total
    let written : List UInt8 := List.replicate total 0
    let written := (buffer_copy written buffers m.max_write_size_).1
    let match_size := min written.length m.expect_.length
    if basic_string.traits_compare written m.expect_ match_size ≠ 0 then
      ({ m with fuse_ := m.fuse_ + 1 }, false, 0)
    else
      ({ m with expect_ := m.expect_.drop match_size }, true, written.length)

/-- The awaitable of `read_some(buffers)`, `await_ready` followed by `await_resume`:
the new state, the new content of the destination, the status and the count. The
status `eof` stands for `boost::capy::error::eof`. -/
def read_some (m : mock_file_stream) (buffers : List UInt8) :
    mock_file_stream × List UInt8 × error_code × Nat :=
  if !m.provide_.isEmpty then
    let (m1, dest, n) := m.consume_provide buffers
    ({ m1 with position_ := (m1.position_ + n) % 2 ^ 64 }, dest, error_code.success, n)
  else
    (m, buffers, error_code.eof, 0)

/-- The awaitable of `write_some(buffers)`, `await_ready` followed by `await_resume`:
the new state, the status and the count. -/
def write_some (m : mock_file_stream) (buffers : List UInt8) :
    mock_file_stream × error_code × Nat :=
  let (m1, ok, n) := m.validate_expect buffers 0
  if !ok then
    (m1, error_code.test_failure, 0)
  else
    ({ m1 with position_ := (m1.position_ + n) % 2 ^ 64 }, error_code.success, n)

end mock_file_stream

end test

/-! ## The test mock: construction and the read loop of the tests -/

namespace test

namespace mock_file_stream

/-- The constructor `mock_file_stream(f, max_read_size, max_write_size)`: nothing is
staged, the position is 0, the mock is not open, and the fuse `f` has recorded no
failure. The two limits are `std::size_t`. -/
def ctor (max_read_size max_write_size : Nat) : mock_file_stream :=
  { max_read_size_ := max_read_size % 2 ^ 64, max_write_size_ := max_write_size % 2 ^ 64 }

/-- The loop of the test `ChunkedReads`: `read_some` into one and the same destination
until the status is eof; after every other read the bytes `buffer[0, n)` are
collected. `fuel` bounds the number of iterations; the result is the final state
and the collected reads in order, `none` when the fuel runs out first. -/
def read_until_eof : Nat → mock_file_stream → List UInt8 →
    Option (mock_file_stream × List (List UInt8))
  | 0, _, _ => none
  | fuel + 1, m, buffer =>
    match m.read_some buffer with
    | (m1, dest, ec, n) =>
      if ec = error_code.eof then some (m1, [])
      else
        match read_until_eof fuel m1 dest with
        | none => none
        | some (m2, reads) => some (m2, dest.take n :: reads)

end mock_file_stream

end test

/-! ## Article selectors built by the constructors -/

/-- The `ArticleSpec` objects the public constructors produce: an `Article` made by
`Article()` or `Article(value)`, or a `MessageId` made by `MessageId(value)`, wrapped
by the converting constructor of `ArticleSpec`. -/
def ArticleSpec.constructed (s : ArticleSpec) : Prop :=
  match s.m_value with
  | .article a => a = Article.default_ctor ∨ ∃ v, Article.ctor v = Except.ok a
  | .message_id m => ∃ str, MessageId.ctor str = Except.ok m

/-! ## Completions: the io_uring completion queue and the GCD handler blocks -/

/-- Conversion of a `std::size_t` to the signed 64-bit `ssize_t`. -/
def toSSizeT (n : Nat) : Int :=
  if n % 2 ^ 64 < 2 ^ 63 then ((n % 2 ^ 64 : Nat) : Int)
  else ((n % 2 ^ 64 : Nat) : Int) - 2 ^ 64

namespace uring

/-- One entry of the completion queue, `io_uring_cqe`: `user_data` as the record it
points to (`none` is a null pointer) and `res`. -/
structure io_uring_cqe where
  /-- The record behind `io_uring_cqe_get_data(cqe)`, `none` for a null pointer. -/
  user_data : Option Dir
  /-- The field `res`: bytes transferred, or a negated errno. -/
  res : Int
  deriving DecidableEq, Repr

namespace uring_file_service

/-- The loop of `poll_completions()` over the entries `io_uring_peek_cqe` hands out,
oldest first. -/
def poll_loop : List io_uring_cqe → List Effect
  | [] => []
  | cqe :: rest =>
    match cqe.user_data with
    | some d => Effect.cqe_seen :: Effect.post d :: poll_loop rest
    | none => Effect.cqe_seen :: poll_loop rest

/-- Member `poll_completions()`. `cq` is the content of the completion queue, oldest
entry first. -/
def poll_completions (uring_initialized_ : Bool) (cq : List io_uring_cqe) : List Effect :=
  if !uring_initialized_ then [] else poll_loop cq

end uring_file_service

/-- One read from `do_read_io` to the point where its record has been posted: the
initiator runs `do_read_io`; when the kernel accepted the submission it later
queues one entry for the record, with `res` in it, which `poll_completions`
drains. -/
def read_delivery (E : errno_h) (s : uring_file_impl_internal) (sqe : Bool) (ret : Int)
    (res : Int) : uring_file_impl_internal × List Effect :=
  let (s1, t1) := s.do_read_io E sqe ret
  if sqe && decide (0 ≤ ret) then
    (s1, t1 ++ uring_file_service.poll_completions true
      [{ user_data := some Dir.read, res := res }])
  else (s1, t1)

/-- One write from `do_write_io` to the point where its record has been posted. -/
def write_delivery (E : errno_h) (s : uring_file_impl_internal) (sqe : Bool) (ret : Int)
    (res : Int) : uring_file_impl_internal × List Effect :=
  let (s1, t1) := s.do_write_io E sqe ret
  if sqe && decide (0 ≤ ret) then
    (s1, t1 ++ uring_file_service.poll_completions true
      [{ user_data := some Dir.write, res := res }])
  else (s1, t1)

end uring

namespace gcd

/-- The arguments of one invocation of the handler block of `dispatch_io_read` /
`dispatch_io_write`: the flag `done`, the `dispatch_data_t` (`none` is a null
object, otherwise the contiguous regions `dispatch_data_apply` visits, in order)
and `error`. -/
structure io_handler_args where
  /-- The flag `done`. -/
  done : Bool
  /-- The data object, as its regions. -/
  data : Option (List (List UInt8))
  /-- The argument `error`, an `int`. -/
  error : Int
  deriving DecidableEq, Repr

/-- The call `dispatch_data_get_size(data)`. -/
def dispatch_data_get_size (regions : List (List UInt8)) : Nat :=
  (regions.map List.length).sum

/-- The call `memcpy(buffer + offset, region_buffer, region_size)` on the content of
the caller's buffer. -/
def memcpy_at (buffer : List UInt8) (offset : Nat) (region : List UInt8) : List UInt8 :=
  buffer.take offset ++ region ++ buffer.drop (offset + region.length)

/-- The call `dispatch_data_apply(data, applier)` with the applier of `do_read_io`: every
region is copied to `buffer + offset` and `offset` advances by its size. The
result is the content of the buffer and the final `offset`. -/
def dispatch_data_apply (buffer : List UInt8) (regions : List (List UInt8)) :
    List UInt8 × Nat :=
  regions.foldl
    (fun acc region => (memcpy_at acc.1 acc.2 region, acc.2 + region.length))
    (buffer, 0)

/-- The handler block `^(bool done, dispatch_data_t data, int error)` of `do_read_io`,
run once: the content of the caller's buffer afterwards and the effects. -/
def read_handler (buffer : List UInt8) (a : io_handler_args) : List UInt8 × List Effect :=
  if a.done then
    if a.error ≠ 0 then
      (buffer, [Effect.work_finished, Effect.post_result Dir.read (-a.error)])
    else
      match a.data with
      | some regions =>
        let data_size := dispatch_data_get_size regions
        let buffer := (dispatch_data_apply buffer regions).1
        (buffer, [Effect.work_finished, Effect.post_result Dir.read (toSSizeT data_size)])
      | none =>
        (buffer, [Effect.work_finished, Effect.post_result Dir.read 0])
  else
    (buffer, [])

/-- The handler block `^(bool done, dispatch_data_t remaining_data, int error)` of
`do_write_io`, run once; `buffer_size` is the field of the record. -/
def write_handler (buffer_size : Nat) (a : io_handler_args) : List Effect :=
  if a.done then
    if a.error ≠ 0 then
      [Effect.work_finished, Effect.post_result Dir.write (-a.error)]
    else
      let bytes_written :=
        match a.data with
        | some regions => (buffer_size + 2 ^ 64 - dispatch_data_get_size regions % 2 ^ 64) % 2 ^ 64
        | none => buffer_size
      [Effect.work_finished, Effect.post_result Dir.write (toSSizeT bytes_written)]
  else
    []

/-- The read handler block over the invocations the dispatch queue makes for one
read, in order. -/
def read_handler_seq (buffer : List UInt8) : List io_handler_args → List UInt8 × List Effect
  | [] => (buffer, [])
  | a :: rest =>
    let (b1, t1) := read_handler buffer a
    let (b2, t2) := read_handler_seq b1 rest
    (b2, t1 ++ t2)

/-- The write handler block over the invocations the dispatch queue makes for one
write, in order. -/
def write_handler_seq (buffer_size : Nat) : List io_handler_args → List Effect
  | [] => []
  | a :: rest => write_handler buffer_size a ++ write_handler_seq buffer_size rest

/-- The scheduler running the completion callbacks of the records posted with a
result along a trace, in order: `post(op, result, 0)` makes it call
`do_complete(owner, op, result, 0)` with a non-null owner, the result narrowed to
the 32-bit parameter. -/
def run_posted (E : errno_h) : gcd_file_impl_internal → List Effect →
    gcd_file_impl_internal × List Effect
  | s, [] => (s, [])
  | s, e :: rest =>
    match e with
    | Effect.post_result Dir.read r =>
      let (s1, t1) := file_read_op.do_complete E true s (toUInt32 r)
      let (s2, t2) := run_posted E s1 rest
      (s2, t1 ++ t2)
    | Effect.post_result Dir.write r =>
      let (s1, t1) := file_write_op.do_complete E true s (toUInt32 r)
      let (s2, t2) := run_posted E s1 rest
      (s2, t1 ++ t2)
    | _ => run_posted E s rest

/-- One read from `do_read_io` to the point where its record has been posted: the
initiator runs `do_read_io`; when the channel took the read, the dispatch queue
invokes the handler block with `calls`, in order. The result is the state, the
content of the caller's buffer and the trace. -/
def read_delivery (E : errno_h) (s : gcd_file_impl_internal) (buffer : List UInt8)
    (calls : List io_handler_args) : gcd_file_impl_internal × List UInt8 × List Effect :=
  let (s1, t1) := s.do_read_io E
  if s.channel_ then
    let (b, t2) := read_handler_seq buffer calls
    (s1, b, t1 ++ t2)
  else (s1, buffer, t1)

/-- One write from `do_write_io` to the point where its record has been posted. -/
def write_delivery (E : errno_h) (s : gcd_file_impl_internal)
    (calls : List io_handler_args) : gcd_file_impl_internal × List Effect :=
  let (s1, t1) := s.do_write_io E
  if s.channel_ then (s1, t1 ++ write_handler_seq s1.wr_.buffer_size calls)
  else (s1, t1)

end gcd

/-- The number of `work_started()` calls in a trace. -/
def spec_work_started (t : List Effect) : Nat := t.count Effect.work_started

/-- The number of `work_finished()` calls in a trace. -/
def spec_work_finished (t : List Effect) : Nat := t.count Effect.work_finished

theorem addU64_of_lt {p n : Nat} (h : p + n < 2 ^ 64) : addU64 p n = p + n := by
  unfold addU64
  exact Nat.mod_eq_of_lt h

/-! ## Position tracking in the completion callbacks -/

/-- Claim C1, as amended. For the io_uring and IOCP read and write completion
callbacks invoked with a non-null owner on a file state whose position is `p`:
when the completion reports success with `n > 0` bytes, the position afterwards is
`p + n` reduced modulo `2^64`, hence exactly `p + n` whenever `p + n < 2^64`; when it
reports EOF (0 bytes), cancellation or any other error, the position is still `p`. -/
theorem C1_position_after_completion (E : errno_h)
    (su : uring.uring_file_impl_internal) (sw : iocp.win_file_impl_internal)
    (handler : iocp.file_op → iocp.file_op) (res bytes error : Nat) :
    (0 < toInt32 res →
      (uring.file_read_op.do_complete E true su res).1.position_
          = (su.position_ + (toInt32 res).toNat) % 2 ^ 64 ∧
      (uring.file_write_op.do_complete E true su res).1.position_
          = (su.position_ + (toInt32 res).toNat) % 2 ^ 64) ∧
    (0 < toInt32 res → su.position_ + (toInt32 res).toNat < 2 ^ 64 →
      (uring.file_read_op.do_complete E true su res).1.position_
          = su.position_ + (toInt32 res).toNat ∧
      (uring.file_write_op.do_complete E true su res).1.position_
          = su.position_ + (toInt32 res).toNat) ∧
    (toInt32 res ≤ 0 →
      (uring.file_read_op.do_complete E true su res).1.position_ = su.position_ ∧
      (uring.file_write_op.do_complete E true su res).1.position_ = su.position_) ∧
    (sw.rd_.dwError = 0 → 0 < sw.rd_.bytes_transferred →
      (iocp.file_read_op.do_complete handler true sw bytes error).1.position_
          = (sw.position_ + sw.rd_.bytes_transferred) % 2 ^ 64 ∧
      (sw.position_ + sw.rd_.bytes_transferred < 2 ^ 64 →
        (iocp.file_read_op.do_complete handler true sw bytes error).1.position_
          = sw.position_ + sw.rd_.bytes_transferred)) ∧
    (sw.wr_.dwError = 0 → 0 < sw.wr_.bytes_transferred →
      (iocp.file_write_op.do_complete handler true sw bytes error).1.position_
          = (sw.position_ + sw.wr_.bytes_transferred) % 2 ^ 64 ∧
      (sw.position_ + sw.wr_.bytes_transferred < 2 ^ 64 →
        (iocp.file_write_op.do_complete handler true sw bytes error).1.position_
          = sw.position_ + sw.wr_.bytes_transferred)) ∧
    (sw.rd_.dwError ≠ 0 ∨ sw.rd_.bytes_transferred = 0 →
      (iocp.file_read_op.do_complete handler true sw bytes error).1.position_
          = sw.position_) ∧
    (sw.wr_.dwError ≠ 0 ∨ sw.wr_.bytes_transferred = 0 →
      (iocp.file_write_op.do_complete handler true sw bytes error).1.position_
          = sw.position_) := by
  refine ⟨?_, ?_, ?_, ?_, ?_, ?_, ?_⟩
  · intro h
    have h0 : toInt32 res ≥ 0 := le_of_lt h
    simp [uring.file_read_op.do_complete, uring.file_write_op.do_complete, h, h0, addU64]
  · intro h hlt
    have h0 : toInt32 res ≥ 0 := le_of_lt h
    simp [uring.file_read_op.do_complete, uring.file_write_op.do_complete, h, h0,
      addU64_of_lt hlt]
  · intro h
    have hn : ¬ (0 < toInt32 res) := not_lt.mpr h
    unfold uring.file_read_op.do_complete uring.file_write_op.do_complete
    constructor
    · by_cases h0 : toInt32 res ≥ 0
      · simp only [Bool.not_true, Bool.false_eq_true, if_false, if_pos h0, gt_iff_lt, if_neg hn]
      · simp only [Bool.not_true, Bool.false_eq_true, if_false, if_neg h0]
    · by_cases h0 : toInt32 res ≥ 0
      · simp only [Bool.not_true, Bool.false_eq_true, if_false, if_pos h0, gt_iff_lt, if_neg hn]
      · simp only [Bool.not_true, Bool.false_eq_true, if_false, if_neg h0]
  · intro he hb
    have hc : sw.rd_.dwError = 0 ∧ sw.rd_.bytes_transferred > 0 := ⟨he, hb⟩
    refine ⟨?_, ?_⟩
    · simp [iocp.file_read_op.do_complete, hc, addU64]
    · intro hlt
      simp [iocp.file_read_op.do_complete, hc, addU64_of_lt hlt]
  · intro he hb
    have hc : sw.wr_.dwError = 0 ∧ sw.wr_.bytes_transferred > 0 := ⟨he, hb⟩
    refine ⟨?_, ?_⟩
    · simp [iocp.file_write_op.do_complete, hc, addU64]
    · intro hlt
      simp [iocp.file_write_op.do_complete, hc, addU64_of_lt hlt]
  · intro h
    have hc : ¬ (sw.rd_.dwError = 0 ∧ sw.rd_.bytes_transferred > 0) := by
      rintro ⟨h1, h2⟩
      rcases h with h | h
      · exact h h1
      · omega
    simp only [iocp.file_read_op.do_complete, Bool.not_true, Bool.false_eq_true, if_false,
      if_neg hc]
  · intro h
    have hc : ¬ (sw.wr_.dwError = 0 ∧ sw.wr_.bytes_transferred > 0) := by
      rintro ⟨h1, h2⟩
      rcases h with h | h
      · exact h h1
      · omega
    simp only [iocp.file_write_op.do_complete, Bool.not_true, Bool.false_eq_true, if_false,
      if_neg hc]

/-- Witness for C1: a state at position 8 completing with 4 bytes ends at position 12
on both backends, and a zero-byte or failed completion leaves it at 8. -/
theorem C1_position_after_completion_witness :
    (uring.file_read_op.do_complete linux_errno true { position_ := 8 } 4).1.position_ = 12 ∧
    (uring.file_write_op.do_complete linux_errno true { position_ := 8 } 4).1.position_ = 12 ∧
    (uring.file_read_op.do_complete linux_errno true { position_ := 8 } 0).1.position_ = 8 ∧
    (iocp.file_read_op.do_complete id true
        { position_ := 8, rd_ := { bytes_transferred := 4 } } 0 0).1.position_ = 12 ∧
    (iocp.file_write_op.do_complete id true
        { position_ := 8, wr_ := { dwError := 995, bytes_transferred := 4 } } 0 0).1.position_
        = 8 :=
  ⟨((C1_position_after_completion linux_errno { position_ := 8 } {} id 4 0 0).2.1
      (by decide) (by decide)).1,
   ((C1_position_after_completion linux_errno { position_ := 8 } {} id 4 0 0).2.1
      (by decide) (by decide)).2,
   ((C1_position_after_completion linux_errno { position_ := 8 } {} id 0 0 0).2.2.1
      (by decide)).1,
   ((C1_position_after_completion linux_errno {}
      { position_ := 8, rd_ := { bytes_transferred := 4 } } id 0 0 0).2.2.2.1
      rfl (by decide)).2 (by decide),
   (C1_position_after_completion linux_errno {}
      { position_ := 8, wr_ := { dwError := 995, bytes_transferred := 4 } } id 0 0 0).2.2.2.2.2.2
      (Or.inl (by decide))⟩

/-- Counterexample to C1 as stated: at position `p = 2^64 - 1` a read completion that
reports success with `n = 1` byte leaves the position at 0, which is not
`p + n = 2^64`. -/
theorem C1_counterexample :
    (uring.file_read_op.do_complete linux_errno true
        { fd_ := 3, position_ := 2 ^ 64 - 1,
          rd_ := { ec_out := some error_code.eof, bytes_out := some 0 } } 1).1.rd_.ec_out
        = some error_code.success ∧
    (uring.file_read_op.do_complete linux_errno true
        { fd_ := 3, position_ := 2 ^ 64 - 1,
          rd_ := { ec_out := some error_code.eof, bytes_out := some 0 } } 1).1.rd_.bytes_out
        = some 1 ∧
    (uring.file_read_op.do_complete linux_errno true
        { fd_ := 3, position_ := 2 ^ 64 - 1,
          rd_ := { ec_out := some error_code.eof, bytes_out := some 0 } } 1).1.position_
        = 0 ∧
    (uring.file_read_op.do_complete linux_errno true
        { fd_ := 3, position_ := 2 ^ 64 - 1,
          rd_ := { ec_out := some error_code.eof, bytes_out := some 0 } } 1).1.position_
        ≠ (2 ^ 64 - 1) + 1 := by
  decide

/-! ## Offsets captured at the call -/

theorem offToU64_toOffT {p : Nat} (h : p < 2 ^ 64) : offToU64 (toOffT p) = p := by
  unfold offToU64 toOffT
  have h1 : p % 2 ^ 64 = p := Nat.mod_eq_of_lt h
  rw [h1]
  split <;> omega

theorem toOffT_of_lt {p : Nat} (h : p < 2 ^ 63) : toOffT p = (p : Int) := by
  unfold toOffT
  have h1 : p % 2 ^ 64 = p := Nat.mod_eq_of_lt (by omega)
  rw [h1, if_pos h]

theorem uring_read_offsets (E : errno_h) (s : uring.uring_file_impl_internal) (h : Nat)
    (b : mutable_buffer) (bs : List mutable_buffer) (ec : Option error_code)
    (bt : Option Nat) (ret : Int) (hp : s.position_ < 2 ^ 64) :
    (s.read_some h (b :: bs) ec bt).1.rd_.file_offset = toOffT s.position_ ∧
    handedOffsets (uring.run_read_some E s h (b :: bs) ec bt true ret).2
      = [(s.position_ : Int)] := by
  refine ⟨rfl, ?_⟩
  simp only [uring.run_read_some, uring.uring_file_impl_internal.read_some,
    io_buffer_param.copy_to, List.take_succ_cons, List.take_zero,
    uring.uring_file_impl_internal.do_read_io, offToU64_toOffT hp]
  by_cases hr : ret < 0 <;> simp [hr, handedOffsets, Effect.handedOffset]

theorem uring_write_offsets (E : errno_h) (s : uring.uring_file_impl_internal) (h : Nat)
    (b : mutable_buffer) (bs : List mutable_buffer) (ec : Option error_code)
    (bt : Option Nat) (ret : Int) (hp : s.position_ < 2 ^ 64) :
    (s.write_some h (b :: bs) ec bt).1.wr_.file_offset = toOffT s.position_ ∧
    handedOffsets (uring.run_write_some E s h (b :: bs) ec bt true ret).2
      = [(s.position_ : Int)] := by
  refine ⟨rfl, ?_⟩
  simp only [uring.run_write_some, uring.uring_file_impl_internal.write_some,
    io_buffer_param.copy_to, List.take_succ_cons, List.take_zero,
    uring.uring_file_impl_internal.do_write_io, offToU64_toOffT hp]
  by_cases hr : ret < 0 <;> simp [hr, handedOffsets, Effect.handedOffset]

theorem overlapped_words {p : Nat} (hp : p < 2 ^ 64) :
    (p / 2 ^ 32) % 2 ^ 32 * 2 ^ 32 + p % 2 ^ 32 = p := by
  have h1 : p / 2 ^ 32 < 2 ^ 32 := by omega
  rw [Nat.mod_eq_of_lt h1]
  omega

theorem iocp_read_offsets (s : iocp.win_file_impl_internal) (h : Nat)
    (b : mutable_buffer) (bs : List mutable_buffer) (ec : Option error_code)
    (bt : Option Nat) (result : Bool) (error : Nat) (hp : s.position_ < 2 ^ 64) :
    (s.read_some h (b :: bs) ec bt).1.rd_.file_offset = s.position_ ∧
    handedOffsets (iocp.run_read_some s h (b :: bs) ec bt result error).2
      = [(s.position_ : Int)] := by
  refine ⟨rfl, ?_⟩
  simp only [iocp.run_read_some, iocp.win_file_impl_internal.read_some,
    io_buffer_param.copy_to, List.take_succ_cons, List.take_zero,
    iocp.win_file_impl_internal.do_read_io]
  cases result <;> by_cases he : error = iocp.ERROR_IO_PENDING <;>
    simp only [he, handedOffsets, Effect.handedOffset, overlapped_words hp, List.nil_append,
      List.filterMap_cons, List.filterMap_nil, bne_self_eq_false, Bool.false_eq_true,
      if_false, if_true, bne_iff_ne, ne_eq, not_false_eq_true, not_true_eq_false]

theorem iocp_write_offsets (s : iocp.win_file_impl_internal) (h : Nat)
    (b : mutable_buffer) (bs : List mutable_buffer) (ec : Option error_code)
    (bt : Option Nat) (result : Bool) (error : Nat) (hp : s.position_ < 2 ^ 64) :
    (s.write_some h (b :: bs) ec bt).1.wr_.file_offset = s.position_ ∧
    handedOffsets (iocp.run_write_some s h (b :: bs) ec bt result error).2
      = [(s.position_ : Int)] := by
  refine ⟨rfl, ?_⟩
  simp only [iocp.run_write_some, iocp.win_file_impl_internal.write_some,
    io_buffer_param.copy_to, List.take_succ_cons, List.take_zero,
    iocp.win_file_impl_internal.do_write_io]
  cases result <;> by_cases he : error = iocp.ERROR_IO_PENDING <;>
    simp only [he, handedOffsets, Effect.handedOffset, overlapped_words hp, List.nil_append,
      List.filterMap_cons, List.filterMap_nil, bne_self_eq_false, Bool.false_eq_true,
      if_false, if_true, bne_iff_ne, ne_eq, not_false_eq_true, not_true_eq_false]

theorem gcd_read_offsets (E : errno_h) (s : gcd.gcd_file_impl_internal) (h : Nat)
    (b : mutable_buffer) (bs : List mutable_buffer) (ec : Option error_code)
    (bt : Option Nat) (hc : s.channel_ = true) :
    (s.read_some h (b :: bs) ec bt).1.rd_.file_offset = toOffT s.position_ ∧
    handedOffsets (gcd.run_read_some E s h (b :: bs) ec bt).2 = [toOffT s.position_] := by
  refine ⟨rfl, ?_⟩
  simp [gcd.run_read_some, gcd.gcd_file_impl_internal.read_some,
    io_buffer_param.copy_to, gcd.gcd_file_impl_internal.do_read_io, hc, handedOffsets,
    Effect.handedOffset]

theorem gcd_write_offsets (E : errno_h) (s : gcd.gcd_file_impl_internal) (h : Nat)
    (b : mutable_buffer) (bs : List mutable_buffer) (ec : Option error_code)
    (bt : Option Nat) (hc : s.channel_ = true) :
    (s.write_some h (b :: bs) ec bt).1.wr_.file_offset = toOffT s.position_ ∧
    handedOffsets (gcd.run_write_some E s h (b :: bs) ec bt).2 = [toOffT s.position_] := by
  refine ⟨rfl, ?_⟩
  simp [gcd.run_write_some, gcd.gcd_file_impl_internal.write_some,
    io_buffer_param.copy_to, gcd.gcd_file_impl_internal.do_write_io, hc, handedOffsets,
    Effect.handedOffset]

/-- Claim C2, as amended. For every `read_some` or `write_some` call with a non-empty
buffer on a state whose position (the value of `tell()`) is `p`: on io_uring the
offset handed to the submission is `p` and the record stores `p` converted to the
signed 64-bit `off_t`; on IOCP the record offset is `p` and the `OVERLAPPED` words
handed to `ReadFile` / `WriteFile` encode `p`; on GCD the record and the
`dispatch_io` call both carry `p` converted to `off_t`. Whenever `p < 2^63` the
`off_t` value is `p` itself, so the stored and the handed offset equal `tell()` on
every backend. After `seek(k)` the next read or write is submitted at offset `k`
on io_uring and IOCP, and on GCD when `k < 2^63`, whatever the state was before. -/
theorem C2_offset_handed_is_tell (E : errno_h)
    (su : uring.uring_file_impl_internal) (sw : iocp.win_file_impl_internal)
    (sg : gcd.gcd_file_impl_internal) (h : Nat)
    (b : mutable_buffer) (bs : List mutable_buffer) (ec : Option error_code)
    (bt : Option Nat) (ret : Int) (result : Bool) (error k : Nat)
    (hu : su.position_ < 2 ^ 64) (hw : sw.position_ < 2 ^ 64)
    (hc : sg.channel_ = true) (hk : k < 2 ^ 64) :
    (handedOffsets (uring.run_read_some E su h (b :: bs) ec bt true ret).2
        = [(su.position : Int)] ∧
     handedOffsets (uring.run_write_some E su h (b :: bs) ec bt true ret).2
        = [(su.position : Int)] ∧
     (su.read_some h (b :: bs) ec bt).1.rd_.file_offset = toOffT su.position ∧
     (su.write_some h (b :: bs) ec bt).1.wr_.file_offset = toOffT su.position ∧
     (su.position < 2 ^ 63 →
        (su.read_some h (b :: bs) ec bt).1.rd_.file_offset = (su.position : Int) ∧
        (su.write_some h (b :: bs) ec bt).1.wr_.file_offset = (su.position : Int))) ∧
    (handedOffsets (iocp.run_read_some sw h (b :: bs) ec bt result error).2
        = [(sw.position : Int)] ∧
     handedOffsets (iocp.run_write_some sw h (b :: bs) ec bt result error).2
        = [(sw.position : Int)] ∧
     (sw.read_some h (b :: bs) ec bt).1.rd_.file_offset = sw.position ∧
     (sw.write_some h (b :: bs) ec bt).1.wr_.file_offset = sw.position) ∧
    (handedOffsets (gcd.run_read_some E sg h (b :: bs) ec bt).2 = [toOffT sg.position] ∧
     handedOffsets (gcd.run_write_some E sg h (b :: bs) ec bt).2 = [toOffT sg.position] ∧
     (sg.read_some h (b :: bs) ec bt).1.rd_.file_offset = toOffT sg.position ∧
     (sg.write_some h (b :: bs) ec bt).1.wr_.file_offset = toOffT sg.position ∧
     (sg.position < 2 ^ 63 →
        handedOffsets (gcd.run_read_some E sg h (b :: bs) ec bt).2 = [(sg.position : Int)] ∧
        handedOffsets (gcd.run_write_some E sg h (b :: bs) ec bt).2 = [(sg.position : Int)] ∧
        (sg.read_some h (b :: bs) ec bt).1.rd_.file_offset = (sg.position : Int) ∧
        (sg.write_some h (b :: bs) ec bt).1.wr_.file_offset = (sg.position : Int))) ∧
    (handedOffsets (uring.run_read_some E (su.set_position k) h (b :: bs) ec bt true ret).2
        = [(k : Int)] ∧
     handedOffsets (uring.run_write_some E (su.set_position k) h (b :: bs) ec bt true ret).2
        = [(k : Int)] ∧
     handedOffsets (iocp.run_read_some (sw.set_position k) h (b :: bs) ec bt result error).2
        = [(k : Int)] ∧
     handedOffsets (iocp.run_write_some (sw.set_position k) h (b :: bs) ec bt result error).2
        = [(k : Int)] ∧
     (k < 2 ^ 63 →
        handedOffsets (gcd.run_read_some E (sg.set_position k) h (b :: bs) ec bt).2
          = [(k : Int)] ∧
        handedOffsets (gcd.run_write_some E (sg.set_position k) h (b :: bs) ec bt).2
          = [(k : Int)])) := by
  have hkm : k % 2 ^ 64 = k := Nat.mod_eq_of_lt hk
  have hsu : (su.set_position k).position_ = k := hkm
  have hsw : (sw.set_position k).position_ = k := hkm
  have hsg : (sg.set_position k).position_ = k := hkm
  have hsgc : (sg.set_position k).channel_ = true := hc
  have gr := gcd_read_offsets E sg h b bs ec bt hc
  have gw := gcd_write_offsets E sg h b bs ec bt hc
  refine ⟨⟨?_, ?_, ?_, ?_, ?_⟩, ⟨?_, ?_, ?_, ?_⟩, ⟨gr.2, gw.2, gr.1, gw.1, ?_⟩,
    ⟨?_, ?_, ?_, ?_, ?_⟩⟩
  · exact (uring_read_offsets E su h b bs ec bt ret hu).2
  · exact (uring_write_offsets E su h b bs ec bt ret hu).2
  · exact (uring_read_offsets E su h b bs ec bt ret hu).1
  · exact (uring_write_offsets E su h b bs ec bt ret hu).1
  · intro hlt
    have e : toOffT su.position_ = (su.position_ : Int) := toOffT_of_lt hlt
    exact ⟨(uring_read_offsets E su h b bs ec bt ret hu).1.trans e,
      (uring_write_offsets E su h b bs ec bt ret hu).1.trans e⟩
  · exact (iocp_read_offsets sw h b bs ec bt result error hw).2
  · exact (iocp_write_offsets sw h b bs ec bt result error hw).2
  · exact (iocp_read_offsets sw h b bs ec bt result error hw).1
  · exact (iocp_write_offsets sw h b bs ec bt result error hw).1
  · intro hlt
    have e : toOffT sg.position_ = (sg.position_ : Int) := toOffT_of_lt hlt
    refine ⟨?_, ?_, gr.1.trans e, gw.1.trans e⟩
    · rw [gr.2, e]
      rfl
    · rw [gw.2, e]
      rfl
  · have := (uring_read_offsets E (su.set_position k) h b bs ec bt ret (by rw [hsu]; exact hk)).2
    rw [hsu] at this
    exact this
  · have := (uring_write_offsets E (su.set_position k) h b bs ec bt ret (by rw [hsu]; exact hk)).2
    rw [hsu] at this
    exact this
  · have := (iocp_read_offsets (sw.set_position k) h b bs ec bt result error
      (by rw [hsw]; exact hk)).2
    rw [hsw] at this
    exact this
  · have := (iocp_write_offsets (sw.set_position k) h b bs ec bt result error
      (by rw [hsw]; exact hk)).2
    rw [hsw] at this
    exact this
  · intro hlt
    have e : toOffT k = (k : Int) := toOffT_of_lt hlt
    have r1 := (gcd_read_offsets E (sg.set_position k) h b bs ec bt hsgc).2
    have r2 := (gcd_write_offsets E (sg.set_position k) h b bs ec bt hsgc).2
    rw [hsg, e] at r1 r2
    exact ⟨r1, r2⟩

/-- Witness for C2: after `seek(5)` on states left at position 8, a read into a
3-byte buffer is submitted at offset 5 on io_uring and IOCP. -/
theorem C2_offset_handed_is_tell_witness :
    handedOffsets (uring.run_read_some linux_errno
        (uring.uring_file_impl_internal.set_position { fd_ := 3, position_ := 8 } 5)
        0 [{ data := 0, size := 3 }] none none true 1).2 = [5] ∧
    handedOffsets (iocp.run_read_some
        (iocp.win_file_impl_internal.set_position { handle_ := 3, position_ := 8 } 5)
        0 [{ data := 0, size := 3 }] none none false 997).2 = [5] :=
  ⟨(C2_offset_handed_is_tell linux_errno { fd_ := 3, position_ := 8 }
      { handle_ := 3, position_ := 8 } { fd_ := 3, channel_ := true } 0
      { data := 0, size := 3 } [] none none 1 false 997 5
      (by decide) (by decide) rfl (by decide)).2.2.2.1,
   (C2_offset_handed_is_tell linux_errno { fd_ := 3, position_ := 8 }
      { handle_ := 3, position_ := 8 } { fd_ := 3, channel_ := true } 0
      { data := 0, size := 3 } [] none none 1 false 997 5
      (by decide) (by decide) rfl (by decide)).2.2.2.2.2.1⟩

/-- Counterexample to C2 as stated: at position `2^63` the io_uring read record stores
the offset `-2^63`, which is not the value `2^63` of `tell()`. -/
theorem C2_counterexample :
    uring.file_stream.tell { impl_ := some { fd_ := 3, position_ := 2 ^ 63 } } = 2 ^ 63 ∧
    (uring.uring_file_impl_internal.read_some { fd_ := 3, position_ := 2 ^ 63 } 0
        [{ data := 0, size := 3 }] none none).1.rd_.file_offset = -(2 ^ 63) ∧
    (uring.uring_file_impl_internal.read_some { fd_ := 3, position_ := 2 ^ 63 } 0
        [{ data := 0, size := 3 }] none none).1.rd_.file_offset
      ≠ ((uring.file_stream.tell { impl_ := some { fd_ := 3, position_ := 2 ^ 63 } } : Nat) : Int) := by
  decide

/-! ## Result mapping in the io_uring completion callbacks -/

theorem toInt32_toUInt32 {r : Int} (h1 : -(2 ^ 31) ≤ r) (h2 : r < 2 ^ 31) :
    toInt32 (toUInt32 r) = r := by
  unfold toInt32 toUInt32
  have hm : (0 : Int) ≤ r % 2 ^ 32 := Int.emod_nonneg _ (by norm_num)
  have hlt : r % 2 ^ 32 < 2 ^ 32 := Int.emod_lt_of_pos _ (by norm_num)
  have hn : ((r % 2 ^ 32).toNat : Int) = r % 2 ^ 32 := Int.toNat_of_nonneg hm
  have hnn : (r % 2 ^ 32).toNat % 2 ^ 32 = (r % 2 ^ 32).toNat := by
    apply Nat.mod_eq_of_lt
    omega
  rw [hnn]
  split <;> omega

theorem negInt32_of_gt {r : Int} (h1 : -(2 ^ 31) < r) (h2 : r < 2 ^ 31) :
    negInt32 r = -r := by
  unfold negInt32
  exact toInt32_toUInt32 (by omega) (by omega)

/-- Claim C3, as amended. For the io_uring read and write completion callbacks
invoked with a non-null owner and a signed 32-bit result `r > -2^31`: when `r > 0`
the caller's status becomes success and the byte count `r`; when `r = 0` a read gets
eof and a write gets success, both with byte count 0; when `r = -ECANCELED` the
status is canceled with byte count 0; for every other negative `r` the status is the
system error with code `-r` and the byte count is 0. In all cases the byte count
reported is `max(r, 0)`, so it is never larger than `r` when `r >= 0`. -/
theorem C3_uring_result_mapping (E : errno_h) (s : uring.uring_file_impl_internal)
    (r : Int) (hlo : -(2 ^ 31) < r) (hhi : r < 2 ^ 31) (hE : 0 < E.ECANCELED) :
    (0 < r →
      (uring.file_read_op.do_complete E true s (toUInt32 r)).1.rd_.ec_out
          = s.rd_.ec_out.map (fun _ => error_code.success) ∧
      (uring.file_write_op.do_complete E true s (toUInt32 r)).1.wr_.ec_out
          = s.wr_.ec_out.map (fun _ => error_code.success)) ∧
    (r = 0 →
      (uring.file_read_op.do_complete E true s (toUInt32 r)).1.rd_.ec_out
          = s.rd_.ec_out.map (fun _ => error_code.eof) ∧
      (uring.file_write_op.do_complete E true s (toUInt32 r)).1.wr_.ec_out
          = s.wr_.ec_out.map (fun _ => error_code.success)) ∧
    (r = -E.ECANCELED →
      (uring.file_read_op.do_complete E true s (toUInt32 r)).1.rd_.ec_out
          = s.rd_.ec_out.map (fun _ => error_code.canceled) ∧
      (uring.file_write_op.do_complete E true s (toUInt32 r)).1.wr_.ec_out
          = s.wr_.ec_out.map (fun _ => error_code.canceled)) ∧
    (r < 0 → r ≠ -E.ECANCELED →
      (uring.file_read_op.do_complete E true s (toUInt32 r)).1.rd_.ec_out
          = s.rd_.ec_out.map (fun _ => error_code.system (-r)) ∧
      (uring.file_write_op.do_complete E true s (toUInt32 r)).1.wr_.ec_out
          = s.wr_.ec_out.map (fun _ => error_code.system (-r))) ∧
    ((uring.file_read_op.do_complete E true s (toUInt32 r)).1.rd_.bytes_out
        = s.rd_.bytes_out.map (fun _ => r.toNat) ∧
     (uring.file_write_op.do_complete E true s (toUInt32 r)).1.wr_.bytes_out
        = s.wr_.bytes_out.map (fun _ => r.toNat)) ∧
    (0 ≤ r → ((r.toNat : Nat) : Int) = r) ∧
    (r < 0 → r.toNat = 0) := by
  have hres : toInt32 (toUInt32 r) = r := toInt32_toUInt32 (le_of_lt hlo) hhi
  have hneg : negInt32 r = -r := negInt32_of_gt hlo hhi
  refine ⟨?_, ?_, ?_, ?_, ?_, ?_, ?_⟩
  · intro h
    have h0 : r ≥ 0 := le_of_lt h
    have hne : ¬ r = 0 := ne_of_gt h
    simp [uring.file_read_op.do_complete, uring.file_write_op.do_complete, hres, h0, hne]
  · intro h
    subst h
    simp [uring.file_read_op.do_complete, uring.file_write_op.do_complete, hres]
  · intro h
    have h0 : ¬ r ≥ 0 := by omega
    have hc : -r = E.ECANCELED := by omega
    simp [uring.file_read_op.do_complete, uring.file_write_op.do_complete, hres, h0, hneg, hc]
  · intro h hne
    have h0 : ¬ r ≥ 0 := by omega
    have hc : ¬ -r = E.ECANCELED := by omega
    have hz : ¬ -r = 0 := by omega
    have hz2 : ¬ r = 0 := by omega
    simp [uring.file_read_op.do_complete, uring.file_write_op.do_complete, hres, h0, hneg, hc,
      make_err, hz2]
  · by_cases h0 : r ≥ 0
    · simp only [uring.file_read_op.do_complete, uring.file_write_op.do_complete, hres,
        Bool.not_true, Bool.false_eq_true, if_false, if_pos h0, and_true]
      split <;> rfl
    · have hz : r.toNat = 0 := Int.toNat_of_nonpos (by omega)
      simp only [uring.file_read_op.do_complete, uring.file_write_op.do_complete, hres,
        Bool.not_true, Bool.false_eq_true, if_false, if_neg h0, hz]
      constructor <;> split <;> rfl
  · intro h
    exact Int.toNat_of_nonneg h
  · intro h
    exact Int.toNat_of_nonpos (le_of_lt h)

/-- Witness for C3: on Linux a read completion with result 13 leaves the caller with
success and 13 bytes, and one with result `-125` (`-ECANCELED`) with canceled. -/
theorem C3_uring_result_mapping_witness :
    ((uring.file_read_op.do_complete linux_errno true
        { rd_ := { ec_out := some error_code.eof, bytes_out := some 99 } }
        (toUInt32 13)).1.rd_.ec_out = some error_code.success ∧
     (uring.file_read_op.do_complete linux_errno true
        { rd_ := { ec_out := some error_code.eof, bytes_out := some 99 } }
        (toUInt32 13)).1.rd_.bytes_out = some 13) ∧
    (uring.file_read_op.do_complete linux_errno true
        { rd_ := { ec_out := some error_code.eof, bytes_out := some 99 } }
        (toUInt32 (-125))).1.rd_.ec_out = some error_code.canceled :=
  ⟨⟨((C3_uring_result_mapping linux_errno
        { rd_ := { ec_out := some error_code.eof, bytes_out := some 99 } } 13
        (by decide) (by decide) (by decide)).1 (by decide)).1,
    (C3_uring_result_mapping linux_errno
        { rd_ := { ec_out := some error_code.eof, bytes_out := some 99 } } 13
        (by decide) (by decide) (by decide)).2.2.2.2.1.1⟩,
   ((C3_uring_result_mapping linux_errno
        { rd_ := { ec_out := some error_code.eof, bytes_out := some 99 } } (-125)
        (by decide) (by decide) (by decide)).2.2.1 (by decide)).1⟩

/-- Counterexample to C3 as stated: for the result `r = -1` the read callback reports
the byte count 0, which is larger than `r`. -/
theorem C3_counterexample :
    (uring.file_read_op.do_complete linux_errno true
        { rd_ := { ec_out := some error_code.success, bytes_out := some 7 } }
        (toUInt32 (-1))).1.rd_.bytes_out = some 0 ∧
    ¬ ((0 : Int) ≤ -1) := by
  decide

/-! ## The empty-buffer path -/

theorem toInt32_ge (res : Nat) : -(2 ^ 31) ≤ toInt32 res := by
  unfold toInt32
  split <;> omega

theorem negInt32_ne_zero {r : Int} (h1 : -(2 ^ 31) ≤ r) (h2 : r < 0) : negInt32 r ≠ 0 := by
  unfold negInt32 toInt32 toUInt32
  have hm : (0 : Int) ≤ (-r) % 2 ^ 32 := Int.emod_nonneg _ (by norm_num)
  have hlt : (-r) % 2 ^ 32 < 2 ^ 32 := Int.emod_lt_of_pos _ (by norm_num)
  have hn : (((-r) % 2 ^ 32).toNat : Int) = (-r) % 2 ^ 32 := Int.toNat_of_nonneg hm
  have hnn : ((-r) % 2 ^ 32).toNat % 2 ^ 32 = ((-r) % 2 ^ 32).toNat := by
    apply Nat.mod_eq_of_lt
    omega
  rw [hnn]
  split <;> omega

/-- Claim C4, evaluated on the code. A `read_some` or `write_some` call with an empty
buffer sequence submits nothing and posts exactly one completion on every backend,
and `read_some` / `write_some` of io_uring and GCD fill in success and 0 bytes
before posting. The io_uring and GCD write callbacks then leave success, 0 bytes
and the position unchanged. The io_uring and GCD read callbacks, run for the posted
completion with result 0, overwrite the status with eof; and for no result word at
all do they leave success together with 0 bytes. -/
theorem C4_empty_buffer_read_reports_eof (E : errno_h)
    (su : uring.uring_file_impl_internal) (sg : gcd.gcd_file_impl_internal)
    (sw : iocp.win_file_impl_internal) (handler : iocp.file_op → iocp.file_op)
    (h : Nat) (ec0 : error_code) (n0 : Nat) (sqe : Bool) (ret : Int)
    (result : Bool) (error res : Nat) :
    ((uring.run_read_some E su h [] (some ec0) (some n0) sqe ret).2 = [Effect.post Dir.read] ∧
     (uring.run_write_some E su h [] (some ec0) (some n0) sqe ret).2 = [Effect.post Dir.write] ∧
     (gcd.run_read_some E sg h [] (some ec0) (some n0)).2 = [Effect.post Dir.read] ∧
     (gcd.run_write_some E sg h [] (some ec0) (some n0)).2 = [Effect.post Dir.write] ∧
     (iocp.run_read_some sw h [] (some ec0) (some n0) result error).2 = [Effect.post Dir.read] ∧
     (iocp.run_write_some sw h [] (some ec0) (some n0) result error).2
        = [Effect.post Dir.write]) ∧
    ((uring.run_read_some E su h [] (some ec0) (some n0) sqe ret).1.rd_.ec_out
        = some error_code.success ∧
     (uring.run_read_some E su h [] (some ec0) (some n0) sqe ret).1.rd_.bytes_out = some 0 ∧
     (uring.run_read_some E su h [] (some ec0) (some n0) sqe ret).1.rd_.empty_buffer = true) ∧
    ((uring.file_read_op.do_complete E true
        (uring.run_read_some E su h [] (some ec0) (some n0) sqe ret).1 0).1.rd_.ec_out
        = some error_code.eof ∧
     (uring.file_read_op.do_complete E true
        (uring.run_read_some E su h [] (some ec0) (some n0) sqe ret).1 0).1.rd_.bytes_out
        = some 0 ∧
     (uring.file_read_op.do_complete E true
        (uring.run_read_some E su h [] (some ec0) (some n0) sqe ret).1 0).1.position_
        = su.position_ ∧
     (uring.file_read_op.do_complete E true
        (uring.run_read_some E su h [] (some ec0) (some n0) sqe ret).1 0).2
        = [Effect.resume Dir.read]) ∧
    ¬ ((uring.file_read_op.do_complete E true
          (uring.run_read_some E su h [] (some ec0) (some n0) sqe ret).1 res).1.rd_.ec_out
          = some error_code.success ∧
       (uring.file_read_op.do_complete E true
          (uring.run_read_some E su h [] (some ec0) (some n0) sqe ret).1 res).1.rd_.bytes_out
          = some 0) ∧
    ((gcd.file_read_op.do_complete E true
        (gcd.run_read_some E sg h [] (some ec0) (some n0)).1 0).1.rd_.ec_out
        = some error_code.eof ∧
     (gcd.file_read_op.do_complete E true
        (gcd.run_read_some E sg h [] (some ec0) (some n0)).1 0).1.rd_.bytes_out = some 0) ∧
    ((uring.file_write_op.do_complete E true
        (uring.run_write_some E su h [] (some ec0) (some n0) sqe ret).1 0).1.wr_.ec_out
        = some error_code.success ∧
     (uring.file_write_op.do_complete E true
        (uring.run_write_some E su h [] (some ec0) (some n0) sqe ret).1 0).1.wr_.bytes_out
        = some 0 ∧
     (uring.file_write_op.do_complete E true
        (uring.run_write_some E su h [] (some ec0) (some n0) sqe ret).1 0).1.position_
        = su.position_ ∧
     (gcd.file_write_op.do_complete E true
        (gcd.run_write_some E sg h [] (some ec0) (some n0)).1 0).1.wr_.ec_out
        = some error_code.success ∧
     (gcd.file_write_op.do_complete E true
        (gcd.run_write_some E sg h [] (some ec0) (some n0)).1 0).1.wr_.bytes_out = some 0) ∧
    ((iocp.file_read_op.do_complete handler true
        (iocp.run_read_some sw h [] (some ec0) (some n0) result error).1 0 0).1.position_
        = sw.position_ ∧
     (iocp.file_write_op.do_complete handler true
        (iocp.run_write_some sw h [] (some ec0) (some n0) result error).1 0 0).1.position_
        = sw.position_) := by
  refine ⟨⟨rfl, rfl, rfl, rfl, rfl, rfl⟩, ⟨rfl, rfl, rfl⟩, ⟨rfl, rfl, rfl, rfl⟩, ?_,
    ⟨rfl, rfl⟩, ⟨rfl, rfl, rfl, rfl, rfl⟩, ⟨rfl, rfl⟩⟩
  have hge := toInt32_ge res
  simp only [uring.run_read_some, uring.uring_file_impl_internal.read_some,
    io_buffer_param.copy_to, List.take_nil, uring.file_read_op.do_complete, Bool.not_true,
    Bool.false_eq_true, if_false]
  by_cases h0 : toInt32 res ≥ 0
  · by_cases hz : toInt32 res = 0
    · simp [hz]
    · have hpos : 0 < toInt32 res := by omega
      have hn : (toInt32 res).toNat ≠ 0 := by omega
      simp [h0, hz, hn]
  · have hnz := negInt32_ne_zero hge (by omega : toInt32 res < 0)
    by_cases hc : negInt32 (toInt32 res) = E.ECANCELED
    · simp [h0, hc]
    · simp [h0, hc, make_err, hnz]

/-! ## The facade: seek, tell, close, size, open -/

/-- Claim C5. For every stream that has an implementation (on each of the three
backends) and for the mock, and for every 64-bit offset `p`: `seek(p)` followed by
`tell()` returns `p`, and `seek` changes the position only: descriptor or handle,
open state, operation records and the staged mock buffers are as before. -/
theorem C5_seek_then_tell (su : uring.uring_file_impl_internal)
    (sw : iocp.win_file_impl_internal) (sg : gcd.gcd_file_impl_internal)
    (m : test.mock_file_stream) (p : Nat) (hp : p < 2 ^ 64) :
    (uring.file_stream.tell (uring.file_stream.seek { impl_ := some su } p) = p ∧
     uring.file_stream.seek { impl_ := some su } p
        = { impl_ := some { su with position_ := p } } ∧
     uring.file_stream.is_open (uring.file_stream.seek { impl_ := some su } p)
        = uring.file_stream.is_open { impl_ := some su }) ∧
    (iocp.file_stream.tell (iocp.file_stream.seek { impl_ := some sw } p) = p ∧
     iocp.file_stream.seek { impl_ := some sw } p
        = { impl_ := some { sw with position_ := p } } ∧
     iocp.file_stream.is_open (iocp.file_stream.seek { impl_ := some sw } p)
        = iocp.file_stream.is_open { impl_ := some sw }) ∧
    (gcd.file_stream.tell (gcd.file_stream.seek { impl_ := some sg } p) = p ∧
     gcd.file_stream.seek { impl_ := some sg } p
        = { impl_ := some { sg with position_ := p } } ∧
     gcd.file_stream.is_open (gcd.file_stream.seek { impl_ := some sg } p)
        = gcd.file_stream.is_open { impl_ := some sg }) ∧
    ((m.seek p).tell = p ∧
     m.seek p = { m with position_ := p } ∧
     (m.seek p).is_open = m.is_open ∧
     (m.seek p).provide_ = m.provide_ ∧
     (m.seek p).expect_ = m.expect_) := by
  have hm : p % 2 ^ 64 = p := Nat.mod_eq_of_lt hp
  refine ⟨⟨?_, ?_, rfl⟩, ⟨?_, ?_, rfl⟩, ⟨?_, ?_, rfl⟩, ⟨?_, ?_, rfl, rfl, rfl⟩⟩
  · simp only [uring.file_stream.tell, uring.file_stream.seek,
      uring.uring_file_impl_internal.set_position, uring.uring_file_impl_internal.position, hm]
  · simp only [uring.file_stream.seek, uring.uring_file_impl_internal.set_position, hm]
  · simp only [iocp.file_stream.tell, iocp.file_stream.seek,
      iocp.win_file_impl_internal.set_position, iocp.win_file_impl_internal.position, hm]
  · simp only [iocp.file_stream.seek, iocp.win_file_impl_internal.set_position, hm]
  · simp only [gcd.file_stream.tell, gcd.file_stream.seek,
      gcd.gcd_file_impl_internal.set_position, gcd.gcd_file_impl_internal.position, hm]
  · simp only [gcd.file_stream.seek, gcd.gcd_file_impl_internal.set_position, hm]
  · simp only [test.mock_file_stream.tell, test.mock_file_stream.seek, hm]
  · simp only [test.mock_file_stream.seek, hm]

/-- Witness for C5: `seek(2)` on streams left at position 5 makes `tell()` return 2. -/
theorem C5_seek_then_tell_witness :
    uring.file_stream.tell
      (uring.file_stream.seek { impl_ := some { fd_ := 3, position_ := 5 } } 2) = 2 ∧
    test.mock_file_stream.tell
      (test.mock_file_stream.seek { provide_ := [53, 54], position_ := 5 } 2) = 2 :=
  ⟨(C5_seek_then_tell { fd_ := 3, position_ := 5 } {} {}
      { provide_ := [53, 54], position_ := 5 } 2 (by decide)).1.1,
   (C5_seek_then_tell { fd_ := 3, position_ := 5 } {} {}
      { provide_ := [53, 54], position_ := 5 } 2 (by decide)).2.2.2.1⟩

/-- Claim C6. For every `file_stream` state on each backend, `close()` leaves the
stream not open, with the invalid native handle and `tell() = 0`; a second
`close()` makes no native call and leaves the state of the first. -/
theorem C6_close_idempotent (fu : uring.file_stream) (fw : iocp.file_stream)
    (fg : gcd.file_stream) :
    (fu.close.1.is_open = false ∧ fu.close.1.tell = 0 ∧
     (∀ impl, fu.close.1.impl_ = some impl → impl.native_handle = -1) ∧
     fu.close.1.close.1 = fu.close.1 ∧ fu.close.1.close.2 = []) ∧
    (fw.close.1.is_open = false ∧ fw.close.1.tell = 0 ∧
     (∀ impl, fw.close.1.impl_ = some impl →
        impl.native_handle = iocp.INVALID_HANDLE_VALUE) ∧
     fw.close.1.close.1 = fw.close.1 ∧ fw.close.1.close.2 = []) ∧
    (fg.close.1.is_open = false ∧ fg.close.1.tell = 0 ∧
     (∀ impl, fg.close.1.impl_ = some impl →
        impl.native_handle = -1 ∧ impl.channel_ = false) ∧
     fg.close.1.close.1 = fg.close.1 ∧ fg.close.1.close.2 = []) := by
  refine ⟨?_, ?_, ?_⟩
  · rcases fu with ⟨_ | s⟩
    · simp [uring.file_stream.close, uring.file_stream.is_open, uring.file_stream.tell]
    · by_cases h : s.fd_ = -1 <;>
        simp [uring.file_stream.close, uring.file_stream.is_open, uring.file_stream.tell,
          uring.uring_file_impl_internal.close_file, uring.uring_file_impl_internal.is_open,
          uring.uring_file_impl_internal.position,
          uring.uring_file_impl_internal.native_handle, h]
  · rcases fw with ⟨_ | s⟩
    · simp [iocp.file_stream.close, iocp.file_stream.is_open, iocp.file_stream.tell]
    · by_cases h : s.handle_ = iocp.INVALID_HANDLE_VALUE <;>
        simp [iocp.file_stream.close, iocp.file_stream.is_open, iocp.file_stream.tell,
          iocp.win_file_impl_internal.close_file, iocp.win_file_impl_internal.is_open,
          iocp.win_file_impl_internal.position,
          iocp.win_file_impl_internal.native_handle, h]
  · rcases fg with ⟨_ | s⟩
    · simp [gcd.file_stream.close, gcd.file_stream.is_open, gcd.file_stream.tell]
    · by_cases h : s.fd_ = -1 <;> by_cases hc : s.channel_ = true <;>
        simp [gcd.file_stream.close, gcd.file_stream.is_open, gcd.file_stream.tell,
          gcd.gcd_file_impl_internal.close_file, gcd.gcd_file_impl_internal.close_channel,
          gcd.gcd_file_impl_internal.is_open, gcd.gcd_file_impl_internal.position,
          gcd.gcd_file_impl_internal.native_handle, h, hc]

/-- Claim C7. For every `file_stream` that is not open, on each backend, `size(ec)`
returns 0 and leaves `bad_file_descriptor` in `ec`, and it makes no call into the
operating system. The member is `const`: it produces no new state. -/
theorem C7_size_when_closed (fu : uring.file_stream) (fw : iocp.file_stream)
    (fg : gcd.file_stream) (st : Option Int) (errno : Int) (error : Nat)
    (hu : fu.is_open = false) (hw : fw.is_open = false) (hg : fg.is_open = false) :
    fu.size st errno = (0, error_code.bad_file_descriptor, []) ∧
    fw.size st error = (0, error_code.bad_file_descriptor, []) ∧
    fg.size st errno = (0, error_code.bad_file_descriptor, []) := by
  refine ⟨?_, ?_, ?_⟩
  · rcases fu with ⟨_ | s⟩
    · rfl
    · have h : s.is_open = false := hu
      simp [uring.file_stream.size, h]
  · rcases fw with ⟨_ | s⟩
    · rfl
    · have h : s.is_open = false := hw
      simp [iocp.file_stream.size, h]
  · rcases fg with ⟨_ | s⟩
    · rfl
    · have h : s.is_open = false := hg
      simp [gcd.file_stream.size, h]

/-- Witness for C7: a stream that was never opened, and a stream closed after being
open on descriptor 3 at position 10, both answer `size` with 0 and
`bad_file_descriptor`. -/
theorem C7_size_when_closed_witness :
    uring.file_stream.size { impl_ := some {} } (some 1024) 0
      = (0, error_code.bad_file_descriptor, []) ∧
    uring.file_stream.size
      (uring.file_stream.close { impl_ := some { fd_ := 3, position_ := 10 } }).1 (some 1024) 0
      = (0, error_code.bad_file_descriptor, []) :=
  ⟨(C7_size_when_closed { impl_ := some {} } { impl_ := some {} } { impl_ := some {} }
      (some 1024) 0 0 rfl rfl rfl).1,
   (C7_size_when_closed
      (uring.file_stream.close { impl_ := some { fd_ := 3, position_ := 10 } }).1
      { impl_ := some {} } { impl_ := some {} } (some 1024) 0 0 (by decide) rfl rfl).1⟩

/-- Claim C8. For every `file_stream` state and every `open()` call, on each backend:
a previously open file is closed before the native open is attempted; when `open`
returns success the stream is open with `tell() = 0`; when it returns an error the
stream is not open and `tell() = 0`. So `is_open()` holds after the call exactly
when the returned status is success. A failed native call is taken to leave a
nonzero error number. -/
theorem C8_open_outcome (F : fcntl_h) (fu : uring.file_stream) (fw : iocp.file_stream)
    (fg : gcd.file_stream) (path : String) (access : access_mode) (creation : creation_mode)
    (fd errno h : Int) (associated created : Bool) (error : Nat)
    (herrno : fd = -1 → errno ≠ 0)
    (herror : h = iocp.INVALID_HANDLE_VALUE ∨ associated = false → error ≠ 0) :
    ((∀ s, fu.impl_ = some s →
        (fu.open F path access creation fd errno).2.2
          = (if s.is_open then [Effect.sys_close s.native_handle] else [])
            ++ [Effect.sys_open path (posix_open_flags F access creation) 0o644]) ∧
     ((fu.open F path access creation fd errno).1.is_open = true
        ↔ (fu.open F path access creation fd errno).2.1 = error_code.success) ∧
     (fu.open F path access creation fd errno).1.tell = 0) ∧
    ((∀ s, fw.impl_ = some s →
        ∃ acc disp rest, (fw.open path access creation h associated error).2.2
          = (if s.is_open then [Effect.sys_close s.native_handle] else [])
            ++ Effect.create_file path acc disp :: rest) ∧
     ((fw.open path access creation h associated error).1.is_open = true
        ↔ (fw.open path access creation h associated error).2.1 = error_code.success) ∧
     (fw.open path access creation h associated error).1.tell = 0) ∧
    ((∀ s, fg.impl_ = some s →
        ∃ rest, (fg.open F path access creation fd errno created).2.2
          = (if s.channel_ then [Effect.channel_close] else [])
            ++ (if s.is_open then [Effect.sys_close s.native_handle] else [])
            ++ Effect.sys_open path (posix_open_flags F access creation) 0o644 :: rest) ∧
     ((fg.open F path access creation fd errno created).1.is_open = true
        ↔ (fg.open F path access creation fd errno created).2.1 = error_code.success) ∧
     (fg.open F path access creation fd errno created).1.tell = 0) := by
  refine ⟨?_, ?_, ?_⟩
  · rcases fu with ⟨_ | s⟩
    · simp [uring.file_stream.open, uring.file_stream.is_open, uring.file_stream.tell]
    · by_cases hfd : fd = -1
      · have he := herrno hfd
        by_cases hs : s.fd_ = -1 <;>
          simp [uring.file_stream.open, uring.uring_file_service.open_file,
            uring.file_stream.is_open, uring.file_stream.tell,
            uring.uring_file_impl_internal.close_file, uring.uring_file_impl_internal.is_open,
            uring.uring_file_impl_internal.native_handle,
            uring.uring_file_impl_internal.position, make_err, hfd, he, hs]
      · by_cases hs : s.fd_ = -1 <;>
          simp [uring.file_stream.open, uring.uring_file_service.open_file,
            uring.file_stream.is_open, uring.file_stream.tell,
            uring.uring_file_impl_internal.close_file, uring.uring_file_impl_internal.is_open,
            uring.uring_file_impl_internal.native_handle,
            uring.uring_file_impl_internal.position, uring.uring_file_impl_internal.set_fd,
            uring.uring_file_impl_internal.set_position, hfd, hs]
  · rcases fw with ⟨_ | s⟩
    · simp [iocp.file_stream.open, iocp.file_stream.is_open, iocp.file_stream.tell]
    · by_cases hh : h = iocp.INVALID_HANDLE_VALUE
      · have he := herror (Or.inl hh)
        by_cases hs : s.handle_ = iocp.INVALID_HANDLE_VALUE <;>
          simp [iocp.file_stream.open, iocp.win_file_service.open_file,
            iocp.file_stream.is_open, iocp.file_stream.tell,
            iocp.win_file_impl_internal.close_file, iocp.win_file_impl_internal.is_open,
            iocp.win_file_impl_internal.native_handle,
            iocp.win_file_impl_internal.position, make_err, hh, he, hs]
      · cases associated
        · have he := herror (Or.inr rfl)
          by_cases hs : s.handle_ = iocp.INVALID_HANDLE_VALUE <;>
            simp [iocp.file_stream.open, iocp.win_file_service.open_file,
              iocp.file_stream.is_open, iocp.file_stream.tell,
              iocp.win_file_impl_internal.close_file, iocp.win_file_impl_internal.is_open,
            iocp.win_file_impl_internal.native_handle,
              iocp.win_file_impl_internal.position, make_err, hh, he, hs]
        · by_cases hs : s.handle_ = iocp.INVALID_HANDLE_VALUE <;>
            simp [iocp.file_stream.open, iocp.win_file_service.open_file,
              iocp.file_stream.is_open, iocp.file_stream.tell,
              iocp.win_file_impl_internal.close_file, iocp.win_file_impl_internal.is_open,
            iocp.win_file_impl_internal.native_handle,
              iocp.win_file_impl_internal.position, iocp.win_file_impl_internal.set_handle,
              iocp.win_file_impl_internal.set_position, hh, hs]
  · rcases fg with ⟨_ | s⟩
    · simp [gcd.file_stream.open, gcd.file_stream.is_open, gcd.file_stream.tell]
    · by_cases hfd : fd = -1
      · have he := herrno hfd
        by_cases hs : s.fd_ = -1 <;> by_cases hc : s.channel_ = true <;>
          simp [gcd.file_stream.open, gcd.gcd_file_service.open_file,
            gcd.file_stream.is_open, gcd.file_stream.tell,
            gcd.gcd_file_impl_internal.close_file, gcd.gcd_file_impl_internal.close_channel,
            gcd.gcd_file_impl_internal.is_open, gcd.gcd_file_impl_internal.native_handle,
            gcd.gcd_file_impl_internal.position, make_err, hfd, he, hs, hc]
      · by_cases hs : s.fd_ = -1 <;> by_cases hc : s.channel_ = true <;>
          simp [gcd.file_stream.open, gcd.gcd_file_service.open_file,
            gcd.file_stream.is_open, gcd.file_stream.tell,
            gcd.gcd_file_impl_internal.close_file, gcd.gcd_file_impl_internal.close_channel,
            gcd.gcd_file_impl_internal.open_channel,
            gcd.gcd_file_impl_internal.is_open, gcd.gcd_file_impl_internal.native_handle,
            gcd.gcd_file_impl_internal.position, gcd.gcd_file_impl_internal.set_fd,
            gcd.gcd_file_impl_internal.set_position, hfd, hs, hc]

/-- Witness for C8: on Linux a stream open on descriptor 3 at position 10 whose
`open` fails with error number 2 ends not open, and the status is not success. -/
theorem C8_open_outcome_witness :
    ((uring.file_stream.open linux_fcntl { impl_ := some { fd_ := 3, position_ := 10 } }
        "missing.txt" access_mode.read_only creation_mode.open_existing (-1) 2).1.is_open = true
      ↔ (uring.file_stream.open linux_fcntl { impl_ := some { fd_ := 3, position_ := 10 } }
        "missing.txt" access_mode.read_only creation_mode.open_existing (-1) 2).2.1
          = error_code.success) ∧
    (uring.file_stream.open linux_fcntl { impl_ := some { fd_ := 3, position_ := 10 } }
        "missing.txt" access_mode.read_only creation_mode.open_existing (-1) 2).1.tell = 0 :=
  (C8_open_outcome linux_fcntl { impl_ := some { fd_ := 3, position_ := 10 } }
    { impl_ := some {} } { impl_ := some {} } "missing.txt" access_mode.read_only
    creation_mode.open_existing (-1) 2 (-1) false false 5
    (fun _ => by decide) (fun _ => by decide)).1.2

/-- Claim C9. On the POSIX branches (Linux and Apple), for every access mode and every
creation mode, the flags passed to the native `open` are the access flag
(`O_RDONLY`, `O_WRONLY`, `O_RDWR`) or-ed with the creation flags (nothing,
`O_CREAT|O_EXCL`, `O_CREAT|O_TRUNC`, `O_CREAT`), and the permission mode passed is
octal 644 (decimal 420). -/
theorem C9_posix_open_flags (F : fcntl_h) (su : uring.uring_file_impl_internal)
    (sg : gcd.gcd_file_impl_internal) (path : String) (access : access_mode)
    (creation : creation_mode) (fd errno : Int) (created : Bool) :
    posix_open_flags F access creation
      = spec_access_flag F access ||| spec_creation_flags F creation ∧
    (uring.file_stream.open F { impl_ := some su } path access creation fd errno).2.2
      = su.close_file.2 ++
        [Effect.sys_open path (spec_access_flag F access ||| spec_creation_flags F creation)
          420] ∧
    (∃ rest, (gcd.file_stream.open F { impl_ := some sg } path access creation fd errno created).2.2
      = sg.close_file.2 ++
        Effect.sys_open path (spec_access_flag F access ||| spec_creation_flags F creation)
          420 :: rest ∧ ∀ e ∈ rest, ∀ p f m, e ≠ Effect.sys_open p f m) := by
  have hflags : posix_open_flags F access creation
      = spec_access_flag F access ||| spec_creation_flags F creation := by
    cases access <;> cases creation <;>
      simp [posix_open_flags, spec_access_flag, spec_creation_flags, access_mode.val]
  refine ⟨hflags, ?_, ?_⟩
  · rw [← hflags]
    by_cases hfd : fd = -1 <;>
      simp [uring.file_stream.open, uring.uring_file_service.open_file, hfd]
  · rw [← hflags]
    by_cases hfd : fd = -1
    · refine ⟨[], ?_, by simp⟩
      simp [gcd.file_stream.open, gcd.gcd_file_service.open_file, hfd]
    · refine ⟨[Effect.channel_create fd], ?_, by simp⟩
      by_cases hs : sg.fd_ = -1 <;> by_cases hc : sg.channel_ = true <;>
        simp [gcd.file_stream.open, gcd.gcd_file_service.open_file, hfd,
          gcd.gcd_file_impl_internal.close_file, gcd.gcd_file_impl_internal.close_channel,
          gcd.gcd_file_impl_internal.open_channel, gcd.gcd_file_impl_internal.set_fd,
          gcd.gcd_file_impl_internal.set_position, hs, hc]

/-! ## Message identifiers -/

theorem validate_content_ok_iff (l : List UInt8) :
    MessageId.validate_content l = Except.ok () ↔
      ∀ b ∈ l, 0x21 ≤ b ∧ b ≤ 0x7E ∧ b ≠ 0x3E := by
  induction l with
  | nil => simp [MessageId.validate_content]
  | cons c rest ih =>
    unfold MessageId.validate_content
    by_cases h1 : c < 0x21 ∨ c > 0x7E
    · rw [if_pos h1]
      constructor
      · intro h
        cases h
      · intro h
        have hc := h c (List.mem_cons_self c rest)
        rcases h1 with h1 | h1
        · exact absurd h1 (UInt8.not_lt.mpr hc.1)
        · exact absurd h1 (UInt8.not_lt.mpr hc.2.1)
    · rw [if_neg h1]
      by_cases h2 : c = 0x3E
      · rw [if_pos h2]
        constructor
        · intro h
          cases h
        · intro h
          exact absurd h2 (h c (List.mem_cons_self c rest)).2.2
      · rw [if_neg h2, ih]
        have h1a : 0x21 ≤ c := UInt8.not_lt.mp (fun hlt => h1 (Or.inl hlt))
        have h1b : c ≤ 0x7E := UInt8.not_lt.mp (fun hlt => h1 (Or.inr hlt))
        constructor
        · intro h b hb
          rcases List.mem_cons.mp hb with rfl | hb
          · exact ⟨h1a, h1b, h2⟩
          · exact h b hb
        · intro h b hb
          exact h b (List.mem_cons_of_mem c hb)

theorem validate_content_throws (l : List UInt8) :
    MessageId.validate_content l = Except.ok () ∨
      ∃ what, MessageId.validate_content l = Except.error (exception.invalid_argument what) := by
  induction l with
  | nil => exact Or.inl rfl
  | cons c rest ih =>
    unfold MessageId.validate_content
    by_cases h1 : c < 0x21 ∨ c > 0x7E
    · rw [if_pos h1]
      exact Or.inr ⟨_, rfl⟩
    · rw [if_neg h1]
      by_cases h2 : c = 0x3E
      · rw [if_pos h2]
        exact Or.inr ⟨_, rfl⟩
      · rw [if_neg h2]
        exact ih

theorem content_eq (s : List UInt8) : (s.drop 1).take (s.length - 2) = s.tail.dropLast := by
  rw [List.dropLast_eq_take, List.drop_one, List.length_tail]
  rfl

theorem MessageId_ctor_cases (s : List UInt8) :
    (spec_MessageId_valid s ∧ MessageId.ctor s = Except.ok { m_value := s }) ∨
    (¬ spec_MessageId_valid s ∧
      ∃ what, MessageId.ctor s = Except.error (exception.invalid_argument what)) := by
  unfold MessageId.ctor spec_MessageId_valid
  simp only []
  by_cases hemp : s.isEmpty = true
  · right
    rw [if_pos hemp]
    refine ⟨?_, _, rfl⟩
    rintro ⟨h3, _⟩
    have : s = [] := List.isEmpty_iff.mp hemp
    subst this
    simp at h3
  rw [if_neg hemp]
  by_cases hlen : s.length < 3
  · right
    rw [if_pos hlen]
    refine ⟨?_, _, rfl⟩
    rintro ⟨h3, _⟩
    omega
  rw [if_neg hlen]
  by_cases hbr : s.head? ≠ some 0x3C ∨ s.getLast? ≠ some 0x3E
  · right
    rw [if_pos hbr]
    refine ⟨?_, _, rfl⟩
    rintro ⟨_, hh, hl, _⟩
    rcases hbr with hbr | hbr
    · exact hbr hh
    · exact hbr hl
  rw [if_neg hbr]
  have hh : s.head? = some 0x3C := by
    by_contra hc
    exact hbr (Or.inl hc)
  have hl : s.getLast? = some 0x3E := by
    by_contra hc
    exact hbr (Or.inr hc)
  rw [content_eq]
  have hclen : s.tail.dropLast.length = s.length - 2 := by
    rw [List.length_dropLast, List.length_tail]
    rfl
  by_cases hbig : s.tail.dropLast.length > 248
  · right
    rw [if_pos hbig]
    refine ⟨?_, _, rfl⟩
    rintro ⟨_, _, _, _, h248, _⟩
    omega
  rw [if_neg hbig]
  rcases validate_content_throws s.tail.dropLast with hok | ⟨what, herr⟩
  · left
    rw [hok]
    refine ⟨⟨by omega, hh, hl, by omega, by omega, ?_⟩, rfl⟩
    exact (validate_content_ok_iff _).mp hok
  · right
    rw [herr]
    refine ⟨?_, what, rfl⟩
    rintro ⟨_, _, _, _, _, hall⟩
    have hok := (validate_content_ok_iff _).mpr hall
    rw [herr] at hok
    cases hok

/-- Claim C10. For every byte string `s`, the constructor `MessageId(s)` succeeds
exactly when `s` has at least 3 bytes, starts with `<`, ends with `>`, and the
content between the brackets has 1 to 248 bytes, each in `0x21..0x7E` and other
than `>`; it then stores `s`. In every other case it throws
`std::invalid_argument`. -/
theorem C10_MessageId_ctor_accepts_iff (s : List UInt8) :
    ((∃ m, MessageId.ctor s = Except.ok m) ↔ spec_MessageId_valid s) ∧
    (spec_MessageId_valid s → MessageId.ctor s = Except.ok { m_value := s }) ∧
    (¬ spec_MessageId_valid s →
      ∃ what, MessageId.ctor s = Except.error (exception.invalid_argument what)) := by
  rcases MessageId_ctor_cases s with ⟨hv, hok⟩ | ⟨hnv, what, herr⟩
  · refine ⟨⟨fun _ => hv, fun _ => ⟨_, hok⟩⟩, fun _ => hok, fun h => absurd hv h⟩
  · refine ⟨⟨?_, fun h => absurd h hnv⟩, fun h => absurd h hnv, fun _ => ⟨what, herr⟩⟩
    rintro ⟨m, hm⟩
    rw [herr] at hm
    cases hm

/-- Witness for C10: the three-byte string `<a>` is accepted and stored, and the
two-byte string `<>` is rejected with `std::invalid_argument`. -/
theorem C10_MessageId_ctor_accepts_iff_witness :
    MessageId.ctor [0x3C, 0x61, 0x3E] = Except.ok { m_value := [0x3C, 0x61, 0x3E] } ∧
    ∃ what, MessageId.ctor [0x3C, 0x3E] = Except.error (exception.invalid_argument what) :=
  ⟨(C10_MessageId_ctor_accepts_iff [0x3C, 0x61, 0x3E]).2.1
      (by unfold spec_MessageId_valid; decide),
   (C10_MessageId_ctor_accepts_iff [0x3C, 0x3E]).2.2
      (by unfold spec_MessageId_valid; decide)⟩

set_option maxRecDepth 8192 in
/-- The boundary cases the tests exercise, evaluated on the constructor: the empty
string, a missing bracket, a space, a control byte, a high byte, an inner `>`, and
content of 248 and of 249 bytes. -/
theorem MessageId_ctor_examples :
    MessageId.ctor [] = Except.error (exception.invalid_argument "MessageId cannot be empty") ∧
    MessageId.ctor [0x61, 0x62, 0x3E]
      = Except.error (exception.invalid_argument
          "MessageId must be enclosed in angle brackets") ∧
    MessageId.ctor [0x3C, 0x61, 0x20, 0x62, 0x3E]
      = Except.error (exception.invalid_argument "MessageId contains invalid character") ∧
    MessageId.ctor [0x3C, 0x61, 0x01, 0x3E]
      = Except.error (exception.invalid_argument "MessageId contains invalid character") ∧
    MessageId.ctor [0x3C, 0x61, 0xFF, 0x3E]
      = Except.error (exception.invalid_argument "MessageId contains invalid character") ∧
    MessageId.ctor [0x3C, 0x61, 0x3E, 0x62, 0x3E]
      = Except.error (exception.invalid_argument
          "MessageId content cannot contain \x27>\x27") ∧
    MessageId.ctor (0x3C :: List.replicate 248 0x61 ++ [0x3E])
      = Except.ok { m_value := 0x3C :: List.replicate 248 0x61 ++ [0x3E] } ∧
    MessageId.ctor (0x3C :: List.replicate 249 0x61 ++ [0x3E])
      = Except.error (exception.invalid_argument
          "MessageId content exceeds maximum length of 248 characters") := by
  refine ⟨rfl, rfl, rfl, rfl, rfl, rfl, ?_, ?_⟩ <;> rfl

/-! ## Strings: comparison lemmas -/

theorem uint8_eq_of_not_lt {a b : UInt8} (h1 : ¬ a < b) (h2 : ¬ b < a) : a = b := by
  have h3 : b ≤ a := UInt8.not_lt.mp h1
  have h4 : a ≤ b := UInt8.not_lt.mp h2
  rw [UInt8.le_def, BitVec.le_def] at h3 h4
  apply UInt8.toNat.inj
  exact Nat.le_antisymm h4 h3

theorem traits_compare_zero (a b : List UInt8) : basic_string.traits_compare a b 0 = 0 := by
  cases a <;> cases b <;> rfl

theorem traits_compare_nil_left (b : List UInt8) (n : Nat) :
    basic_string.traits_compare [] b n = 0 := by
  cases b <;> cases n <;> rfl

theorem traits_compare_nil_right (a : List UInt8) (n : Nat) :
    basic_string.traits_compare a [] n = 0 := by
  cases a <;> cases n <;> rfl

theorem traits_compare_cons (x y : UInt8) (a b : List UInt8) (n : Nat) :
    basic_string.traits_compare (x :: a) (y :: b) (n + 1)
      = if x < y then -1 else if y < x then 1 else basic_string.traits_compare a b n := rfl

theorem traits_compare_eq_zero_iff (a b : List UInt8) (n : Nat)
    (ha : n ≤ a.length) (hb : n ≤ b.length) :
    basic_string.traits_compare a b n = 0 ↔ a.take n = b.take n := by
  induction n generalizing a b with
  | zero => simp [traits_compare_zero]
  | succ n ih =>
    cases a with
    | nil => simp at ha
    | cons x a =>
      cases b with
      | nil => simp at hb
      | cons y b =>
        rw [traits_compare_cons]
        simp only [List.length_cons, Nat.add_le_add_iff_right] at ha hb
        by_cases h1 : x < y
        · have hne : x ≠ y := UInt8.ne_of_lt h1
          simp [h1, hne]
        · by_cases h2 : y < x
          · have hne : x ≠ y := fun e => UInt8.ne_of_lt h2 e.symm
            simp [h1, h2, hne]
          · have he : x = y := uint8_eq_of_not_lt h1 h2
            simp [h1, h2, he, ih a b ha hb]

theorem traits_compare_neg_iff (a b : List UInt8) (n : Nat) :
    basic_string.traits_compare a b n < 0 ↔
      ∃ p x y ra rb, a = p ++ x :: ra ∧ b = p ++ y :: rb ∧ x < y ∧ p.length < n := by
  induction n generalizing a b with
  | zero =>
    rw [traits_compare_zero]
    simp
  | succ n ih =>
    cases a with
    | nil =>
      rw [traits_compare_nil_left]
      simp
    | cons x0 a =>
      cases b with
      | nil =>
        rw [traits_compare_nil_right]
        simp
      | cons y0 b =>
        rw [traits_compare_cons]
        by_cases h1 : x0 < y0
        · rw [if_pos h1]
          constructor
          · intro _
            exact ⟨[], x0, y0, a, b, rfl, rfl, h1, Nat.succ_pos n⟩
          · intro _
            decide
        · rw [if_neg h1]
          by_cases h2 : y0 < x0
          · rw [if_pos h2]
            constructor
            · intro h
              exact absurd h (by decide)
            · rintro ⟨p, x, y, ra, rb, hea, heb, hxy, _⟩
              cases p with
              | nil =>
                simp only [List.nil_append, List.cons.injEq] at hea heb
                rw [← hea.1, ← heb.1] at hxy
                exact absurd hxy h1
              | cons z p =>
                simp only [List.cons_append, List.cons.injEq] at hea heb
                rw [hea.1, heb.1] at h2
                exact absurd h2 (UInt8.lt_irrefl z)
          · rw [if_neg h2, ih a b]
            constructor
            · rintro ⟨p, x, y, ra, rb, hea, heb, hxy, hlen⟩
              refine ⟨x0 :: p, x, y, ra, rb, ?_, ?_, hxy, ?_⟩
              · rw [hea]
                rfl
              · rw [heb, uint8_eq_of_not_lt h1 h2]
                rfl
              · simp only [List.length_cons]
                omega
            · rintro ⟨p, x, y, ra, rb, hea, heb, hxy, hlen⟩
              cases p with
              | nil =>
                simp only [List.nil_append, List.cons.injEq] at hea heb
                rw [← hea.1, ← heb.1] at hxy
                exact absurd hxy h1
              | cons z p =>
                simp only [List.cons_append, List.cons.injEq] at hea heb
                simp only [List.length_cons] at hlen
                exact ⟨p, x, y, ra, rb, hea.2, heb.2, hxy, by omega⟩

theorem traits_compare_swap (a b : List UInt8) (n : Nat) :
    basic_string.traits_compare b a n = -basic_string.traits_compare a b n := by
  induction n generalizing a b with
  | zero => simp [traits_compare_zero]
  | succ n ih =>
    cases a with
    | nil => simp [traits_compare_nil_left, traits_compare_nil_right]
    | cons x a =>
      cases b with
      | nil => simp [traits_compare_nil_left, traits_compare_nil_right]
      | cons y b =>
        rw [traits_compare_cons, traits_compare_cons]
        by_cases h1 : x < y
        · have h2 : ¬ y < x := UInt8.lt_asymm h1
          simp [h1, h2]
        · by_cases h2 : y < x
          · simp [h1, h2]
          · simp [h1, h2, ih a b]

theorem string_compare_swap (a b : List UInt8) :
    basic_string.compare b a = -basic_string.compare a b := by
  unfold basic_string.compare
  simp only [Nat.min_comm b.length a.length, traits_compare_swap a b]
  by_cases hr : basic_string.traits_compare a b (min a.length b.length) = 0
  · simp only [hr, neg_zero, ne_eq, not_true_eq_false, if_false]
    rcases Nat.lt_trichotomy a.length b.length with h | h | h
    · have h1 : ¬ b.length < a.length := by omega
      have h2 : ¬ b.length = a.length := by omega
      simp [h, h1, h2]
    · simp [h]
    · have h1 : ¬ a.length < b.length := by omega
      have h2 : ¬ a.length = b.length := by omega
      simp [h, h1, h2]
  · have hr2 : ¬ -basic_string.traits_compare a b (min a.length b.length) = 0 := by omega
    simp [hr, hr2]

theorem string_compare_eq_zero_iff (a b : List UInt8) :
    basic_string.compare a b = 0 ↔ a = b := by
  unfold basic_string.compare
  have hz := traits_compare_eq_zero_iff a b (min a.length b.length)
    (Nat.min_le_left _ _) (Nat.min_le_right _ _)
  by_cases hr : basic_string.traits_compare a b (min a.length b.length) = 0
  · have ht := hz.mp hr
    simp only [hr, ne_eq, not_true_eq_false, if_false]
    rcases Nat.lt_trichotomy a.length b.length with h | h | h
    · have hne : a ≠ b := fun e => by rw [e] at h; omega
      simp [h, hne]
    · have hab : a = b := by
        have h3 : min a.length b.length = a.length := by omega
        have h4 : min a.length b.length = b.length := by omega
        have ht2 := ht
        rw [h3, List.take_length] at ht
        rw [h4, List.take_length] at ht2
        rw [ht]
        conv_rhs => rw [← List.take_length b]
        rw [h]
      simp [hab]
    · have hne : a ≠ b := fun e => by rw [e] at h; omega
      have h1 : ¬ a.length < b.length := by omega
      have h2 : ¬ a.length = b.length := by omega
      simp [h1, h2, hne]
  · have hne : a ≠ b := by
      intro e
      apply hr
      rw [hz, e]
    simp [hr, hne]

theorem string_compare_neg_iff (a b : List UInt8) :
    basic_string.compare a b < 0 ↔ spec_bytewise_lt a b := by
  unfold basic_string.compare spec_bytewise_lt
  have hz := traits_compare_eq_zero_iff a b (min a.length b.length)
    (Nat.min_le_left _ _) (Nat.min_le_right _ _)
  have hn := traits_compare_neg_iff a b (min a.length b.length)
  by_cases hr : basic_string.traits_compare a b (min a.length b.length) = 0
  · have ht := hz.mp hr
    have hnot : ¬ ∃ p x y ra rb, a = p ++ x :: ra ∧ b = p ++ y :: rb ∧ x < y := by
      rintro ⟨p, x, y, ra, rb, hea, heb, hxy⟩
      have hlt : basic_string.traits_compare a b (min a.length b.length) < 0 := by
        rw [hn]
        refine ⟨p, x, y, ra, rb, hea, heb, hxy, ?_⟩
        rw [hea, heb]
        simp
      omega
    simp only [hr, ne_eq, not_true_eq_false, if_false]
    by_cases hl : a.length < b.length
    · simp only [hl, if_true]
      constructor
      · intro _
        left
        rw [Nat.min_eq_left (le_of_lt hl), List.take_length] at ht
        have hb : b = a ++ b.drop a.length := by
          conv_lhs => rw [← List.take_append_drop a.length b, ← ht]
        have hd : b.drop a.length ≠ [] := by
          intro e
          have := congrArg List.length e
          simp at this
          omega
        obtain ⟨c, rest, hcr⟩ := List.exists_cons_of_ne_nil hd
        exact ⟨c, rest, by rw [← hcr]; exact hb⟩
      · intro _
        decide
    · simp only [hl, if_false]
      constructor
      · intro h
        split at h <;> omega
      · rintro (⟨c, rest, hb⟩ | h)
        · have := congrArg List.length hb
          simp at this
          omega
        · exact absurd h hnot
  · simp only [hr, ne_eq, not_false_eq_true, if_true]
    rw [hn]
    constructor
    · rintro ⟨p, x, y, ra, rb, hea, heb, hxy, _⟩
      exact Or.inr ⟨p, x, y, ra, rb, hea, heb, hxy⟩
    · rintro (⟨c, rest, hb⟩ | ⟨p, x, y, ra, rb, hea, heb, hxy⟩)
      · exfalso
        apply hr
        rw [hz, hb]
        have hm : min a.length (a ++ c :: rest).length = a.length := by
          simp
        rw [hm, List.take_length, List.take_left]
      · refine ⟨p, x, y, ra, rb, hea, heb, hxy, ?_⟩
        rw [hea, heb]
        simp

/-! ## Message identifiers: value and equality -/

/-- Claim C11. For every string `s` the `MessageId` constructor accepts, `value()` of
the constructed object is `s` itself, byte for byte; and two `MessageId` objects
compare equal with `==` (and not unequal with `!=`) exactly when their strings are
equal. -/
theorem C11_MessageId_value_and_equality (s : List UInt8) (m a b : MessageId)
    (hs : MessageId.ctor s = Except.ok m) :
    m.value = s ∧
    (MessageId.op_eq a b = true ↔ a.value = b.value) ∧
    (MessageId.op_ne a b = false ↔ a.value = b.value) := by
  refine ⟨?_, ?_, ?_⟩
  · rcases MessageId_ctor_cases s with ⟨_, hok⟩ | ⟨_, what, herr⟩
    · rw [hok] at hs
      cases hs
      rfl
    · rw [herr] at hs
      cases hs
  · simp [MessageId.op_eq, basic_string.op_eq, MessageId.value, string_compare_eq_zero_iff]
  · simp [MessageId.op_ne, basic_string.op_ne, MessageId.op_eq, basic_string.op_eq,
      MessageId.value, string_compare_eq_zero_iff]

/-- Witness for C11: the string `<a@b>` is accepted and `value()` returns it
unchanged. -/
theorem C11_MessageId_value_and_equality_witness :
    MessageId.value { m_value := [0x3C, 0x61, 0x40, 0x62, 0x3E] }
      = [0x3C, 0x61, 0x40, 0x62, 0x3E] :=
  (C11_MessageId_value_and_equality [0x3C, 0x61, 0x40, 0x62, 0x3E]
    { m_value := [0x3C, 0x61, 0x40, 0x62, 0x3E] }
    { m_value := [0x3C, 0x61, 0x3E] } { m_value := [0x3C, 0x62, 0x3E] } rfl).1

/-! ## Article numbers -/

/-- Claim C12. For every 64-bit unsigned `v`, the constructor `Article(v)` throws
`std::invalid_argument` exactly when `v = 0`, and for `v >= 1` it yields an object
whose `value()` is `v`; the default-constructed `Article` has value 1. Hence every
object either constructor yields has value at least 1. -/
theorem C12_Article_positive (v : Nat) (hv : v < 2 ^ 64) :
    ((∃ what, Article.ctor v = Except.error (exception.invalid_argument what)) ↔ v = 0) ∧
    (1 ≤ v → Article.ctor v = Except.ok { m_value := v } ∧
        Article.value { m_value := v } = v) ∧
    Article.default_ctor.value = 1 ∧
    (∀ a, Article.ctor v = Except.ok a → 1 ≤ a.value) ∧
    1 ≤ Article.default_ctor.value := by
  have hm : v % 2 ^ 64 = v := Nat.mod_eq_of_lt hv
  refine ⟨?_, ?_, rfl, ?_, by decide⟩
  · by_cases h0 : v = 0
    · subst h0
      simp [Article.ctor]
    · have h1 : ¬ v < 1 := by omega
      simp only [Article.ctor, hm, if_neg h1, h0, iff_false]
      rintro ⟨what, h⟩
      cases h
  · intro h1
    have h2 : ¬ v < 1 := by omega
    simp only [Article.ctor, hm, if_neg h2, Article.value, and_self]
  · intro a ha
    by_cases h1 : v < 1
    · simp only [Article.ctor, hm, if_pos h1] at ha
      cases ha
    · simp only [Article.ctor, hm, if_neg h1] at ha
      cases ha
      simp only [Article.value]
      omega

/-- Witness for C12: `Article(0)` throws, `Article(2^64 - 1)` keeps its value. -/
theorem C12_Article_positive_witness :
    ((∃ what, Article.ctor 0 = Except.error (exception.invalid_argument what)) ↔ (0 : Nat) = 0) ∧
    Article.ctor (2 ^ 64 - 1) = Except.ok { m_value := 2 ^ 64 - 1 } :=
  ⟨(C12_Article_positive 0 (by decide)).1,
   ((C12_Article_positive (2 ^ 64 - 1) (by decide)).2.1 (by decide)).1⟩

/-! ## Article selectors -/

/-- Claim C13. For every `ArticleSpec` exactly one of `is_article()` and
`is_message_id()` is true. A spec built from an `Article` answers `as_article()`
with that `Article` and throws `std::bad_variant_access` from `as_message_id()`;
a spec built from a `MessageId` answers `as_message_id()` with that `MessageId`
and throws `std::bad_variant_access` from `as_article()`. Every spec is of one of
the two kinds, so `as_article()` succeeds exactly when `is_article()` holds and
`as_message_id()` exactly when `is_message_id()` holds. -/
theorem C13_ArticleSpec_kind (s : ArticleSpec) (a : Article) (m : MessageId) :
    (s.is_article = !s.is_message_id) ∧
    ((ArticleSpec.of_article a).is_article = true ∧
     (ArticleSpec.of_article a).as_article = Except.ok a ∧
     (ArticleSpec.of_article a).as_message_id = Except.error exception.bad_variant_access) ∧
    ((ArticleSpec.of_message_id m).is_message_id = true ∧
     (ArticleSpec.of_message_id m).as_message_id = Except.ok m ∧
     (ArticleSpec.of_message_id m).as_article = Except.error exception.bad_variant_access) ∧
    ((∃ x, s = ArticleSpec.of_article x) ∨ (∃ y, s = ArticleSpec.of_message_id y)) ∧
    (s.is_article = true ↔ ∃ x, s.as_article = Except.ok x) ∧
    (s.is_article = false ↔ s.as_article = Except.error exception.bad_variant_access) ∧
    (s.is_message_id = true ↔ ∃ y, s.as_message_id = Except.ok y) ∧
    (s.is_message_id = false ↔
      s.as_message_id = Except.error exception.bad_variant_access) := by
  refine ⟨?_, ⟨rfl, rfl, rfl⟩, ⟨rfl, rfl, rfl⟩, ?_, ?_, ?_, ?_, ?_⟩
  all_goals
    rcases s with ⟨x | y⟩ <;>
      simp [ArticleSpec.is_article, ArticleSpec.is_message_id, ArticleSpec.as_article,
        ArticleSpec.as_message_id, ArticleSpec.of_article, ArticleSpec.of_message_id,
        variant.holds_article, variant.holds_message_id, variant.get_article,
        variant.get_message_id]

/-! ## Decimal text of article numbers -/

theorem to_string_digits_append (fuel v : Nat) (acc : List UInt8) :
    to_string_digits fuel v acc = to_string_digits fuel v [] ++ acc := by
  induction fuel generalizing v acc with
  | zero => rfl
  | succ fuel ih =>
    unfold to_string_digits
    by_cases h : v / 10 = 0
    · simp [h]
    · simp only [h, if_false]
      rw [ih (v / 10) (UInt8.ofNat (48 + v % 10) :: acc), ih (v / 10) [UInt8.ofNat (48 + v % 10)]]
      simp

theorem to_string_digits_succ (fuel v : Nat) :
    to_string_digits (fuel + 1) v []
      = if v / 10 = 0 then [UInt8.ofNat (48 + v % 10)]
        else to_string_digits fuel (v / 10) [] ++ [UInt8.ofNat (48 + v % 10)] := by
  conv_lhs => unfold to_string_digits
  by_cases h : v / 10 = 0
  · simp [h]
  · simp only [h, if_false]
    exact to_string_digits_append fuel (v / 10) _

theorem digit_toNat (v : Nat) : (UInt8.ofNat (48 + v % 10)).toNat = 48 + v % 10 := by
  apply UInt8.toNat_ofNat_of_lt
  have : v % 10 < 10 := Nat.mod_lt _ (by decide)
  have hs : UInt8.size = 256 := rfl
  omega

theorem spec_decimal_value_append (l : List UInt8) (c : UInt8) :
    spec_decimal_value (l ++ [c]) = 10 * spec_decimal_value l + (c.toNat - 48) := by
  simp [spec_decimal_value, List.foldl_append]

theorem to_string_digits_spec (fuel v : Nat) (hv : v < 10 ^ (fuel + 1)) :
    to_string_digits (fuel + 1) v [] ≠ [] ∧
    (∀ c ∈ to_string_digits (fuel + 1) v [], 48 ≤ c.toNat ∧ c.toNat ≤ 57) ∧
    (List.head? (to_string_digits (fuel + 1) v []) = some 48 →
      v = 0 ∧ to_string_digits (fuel + 1) v [] = [48]) ∧
    spec_decimal_value (to_string_digits (fuel + 1) v []) = v := by
  have hd := digit_toNat v
  have hm : v % 10 < 10 := Nat.mod_lt _ (by decide)
  rw [to_string_digits_succ]
  induction fuel generalizing v with
  | zero =>
    have hlt : v < 10 := by simpa using hv
    have h : v / 10 = 0 := by omega
    have hvm : v % 10 = v := Nat.mod_eq_of_lt hlt
    simp only [h, if_true]
    refine ⟨by simp, ?_, ?_, ?_⟩
    · intro c hc
      rw [List.mem_singleton] at hc
      rw [hc, hd]
      omega
    · intro hh
      simp only [List.head?_cons, Option.some.injEq] at hh
      have h48 : (UInt8.ofNat (48 + v % 10)).toNat = (48 : UInt8).toNat := by rw [hh]
      rw [hd] at h48
      have h0 : v = 0 := by
        have : (48 : UInt8).toNat = 48 := rfl
        omega
      refine ⟨h0, ?_⟩
      rw [h0]
      rfl
    · simp only [spec_decimal_value, List.foldl_cons, List.foldl_nil, hd]
      omega
  | succ fuel ih =>
    by_cases h : v / 10 = 0
    · have hlt : v < 10 := by omega
      have hvm : v % 10 = v := Nat.mod_eq_of_lt hlt
      simp only [h, if_true]
      refine ⟨by simp, ?_, ?_, ?_⟩
      · intro c hc
        rw [List.mem_singleton] at hc
        rw [hc, hd]
        omega
      · intro hh
        simp only [List.head?_cons, Option.some.injEq] at hh
        have h48 : (UInt8.ofNat (48 + v % 10)).toNat = (48 : UInt8).toNat := by rw [hh]
        rw [hd] at h48
        have h0 : v = 0 := by
          have : (48 : UInt8).toNat = 48 := rfl
          omega
        refine ⟨h0, ?_⟩
        rw [h0]
        rfl
      · simp only [spec_decimal_value, List.foldl_cons, List.foldl_nil, hd]
        omega
    · simp only [h, if_false]
      have hq : v / 10 < 10 ^ (fuel + 1) := by
        rw [Nat.div_lt_iff_lt_mul (by decide)]
        rw [pow_succ] at hv
        exact hv
      have hih := ih (v / 10) hq (digit_toNat (v / 10)) (Nat.mod_lt _ (by decide))
      rw [← to_string_digits_succ] at hih
      obtain ⟨hne, hdig, hhead, hval⟩ := hih
      refine ⟨by simp, ?_, ?_, ?_⟩
      · intro c hc
        rw [List.mem_append, List.mem_singleton] at hc
        rcases hc with hc | hc
        · exact hdig c hc
        · rw [hc, hd]
          omega
      · intro hh
        exfalso
        obtain ⟨x, xs, hx⟩ := List.exists_cons_of_ne_nil hne
        rw [hx] at hh hhead
        simp only [List.cons_append, List.head?_cons] at hh hhead
        exact h (hhead hh).1
      · rw [spec_decimal_value_append, hval, hd]
        omega

theorem to_string_is_base10 (v : Nat) (hv : v < 2 ^ 64) : spec_is_base10 (to_string v) v := by
  unfold to_string spec_is_base10
  rw [Nat.mod_eq_of_lt hv]
  have h20 : v < 10 ^ 20 := lt_trans hv (by norm_num)
  obtain ⟨hne, hdig, hhead, hval⟩ := to_string_digits_spec 19 v h20
  exact ⟨hne, hdig, fun hh => (hhead hh).2, hval⟩

/-- Claim C14. For every `Article` `a` (its number a 64-bit value), `value()` of
`ArticleSpec(a)` is the base-10 representation of `a.value()`: a non-empty string of
decimal digits, with no sign and no leading zero, that denotes `a.value()` over the
whole 64-bit range. For every `MessageId` `m`, `value()` of `ArticleSpec(m)` is
`m.value()`. -/
theorem C14_ArticleSpec_value (a : Article) (m : MessageId) (ha : a.value < 2 ^ 64) :
    (∃ s, (ArticleSpec.of_article a).value = Except.ok s ∧ spec_is_base10 s a.value ∧
      (1 ≤ a.value → s.head? ≠ some 48)) ∧
    (ArticleSpec.of_message_id m).value = Except.ok m.value := by
  refine ⟨⟨to_string a.value, rfl, to_string_is_base10 a.value ha, ?_⟩, rfl⟩
  intro h1 hh
  have hb := to_string_is_base10 a.value ha
  have hs := hb.2.2.1 hh
  have hv := hb.2.2.2
  rw [hs] at hv
  have : spec_decimal_value [48] = 0 := rfl
  omega

set_option maxRecDepth 8192 in
/-- Witness for C14: the article numbers `2^32` and `2^64 - 1` are rendered as
`4294967296` and `18446744073709551615`. -/
theorem C14_ArticleSpec_value_witness :
    (ArticleSpec.of_article { m_value := 2 ^ 32 }).value
      = Except.ok [52, 50, 57, 52, 57, 54, 55, 50, 57, 54] ∧
    (ArticleSpec.of_article { m_value := 2 ^ 64 - 1 }).value
      = Except.ok [49, 56, 52, 52, 54, 55, 52, 52, 48, 55, 51, 55, 48, 57, 53, 53, 49, 54, 49, 53] ∧
    ∃ s, (ArticleSpec.of_article { m_value := 2 ^ 64 - 1 }).value = Except.ok s ∧
      spec_is_base10 s (2 ^ 64 - 1) ∧ ((1 : Nat) ≤ 2 ^ 64 - 1 → s.head? ≠ some 48) :=
  ⟨rfl, rfl,
   (C14_ArticleSpec_value { m_value := 2 ^ 64 - 1 } { m_value := [0x3C, 0x61, 0x3E] }
      (by decide)).1⟩

/-! ## Ordering of article selectors -/

theorem string_op_gt_iff (a b : List UInt8) :
    basic_string.op_gt a b = true ↔ spec_bytewise_lt b a := by
  rw [← string_compare_neg_iff, string_compare_swap a b]
  simp [basic_string.op_gt]

theorem string_op_lt_iff (a b : List UInt8) :
    basic_string.op_lt a b = true ↔ spec_bytewise_lt a b := by
  rw [← string_compare_neg_iff]
  simp [basic_string.op_lt]

theorem variant_trichotomy (x y : variant) :
    (variant.op_lt x y = true ∧ variant.op_eq x y = false ∧ variant.op_gt x y = false) ∨
    (variant.op_lt x y = false ∧ variant.op_eq x y = true ∧ variant.op_gt x y = false) ∨
    (variant.op_lt x y = false ∧ variant.op_eq x y = false ∧ variant.op_gt x y = true) := by
  rcases x with a | m <;> rcases y with b | n
  · simp only [variant.op_lt, variant.op_eq, variant.op_gt, Article.op_lt, Article.op_eq,
      Article.op_gt, decide_eq_true_eq, decide_eq_false_iff_not, beq_iff_eq, beq_eq_false_iff_ne]
    omega
  · simp [variant.op_lt, variant.op_eq, variant.op_gt, variant.index]
  · simp [variant.op_lt, variant.op_eq, variant.op_gt, variant.index]
  · simp only [variant.op_lt, variant.op_eq, variant.op_gt, MessageId.op_lt, MessageId.op_eq,
      MessageId.op_gt, basic_string.op_lt, basic_string.op_eq, basic_string.op_gt,
      decide_eq_true_eq, decide_eq_false_iff_not, beq_iff_eq, beq_eq_false_iff_ne]
    omega

theorem variant_consistent (x y : variant) :
    variant.op_ne x y = !variant.op_eq x y ∧
    variant.op_le x y = (variant.op_lt x y || variant.op_eq x y) ∧
    variant.op_ge x y = (variant.op_gt x y || variant.op_eq x y) ∧
    variant.op_gt x y = variant.op_lt y x := by
  rcases x with a | m <;> rcases y with b | n
  · refine ⟨?_, ?_, ?_, ?_⟩
    · simp [variant.op_ne, variant.op_eq, Article.op_ne, Article.op_eq, bne]
    · rw [Bool.eq_iff_iff]
      simp only [variant.op_le, variant.op_lt, variant.op_eq, Article.op_le, Article.op_lt,
        Article.op_eq, decide_eq_true_eq, Bool.or_eq_true, beq_iff_eq]
      omega
    · rw [Bool.eq_iff_iff]
      simp only [variant.op_ge, variant.op_gt, variant.op_eq, Article.op_ge, Article.op_gt,
        Article.op_eq, decide_eq_true_eq, Bool.or_eq_true, beq_iff_eq]
      omega
    · rfl
  · simp [variant.op_ne, variant.op_eq, variant.op_le, variant.op_lt, variant.op_ge,
      variant.op_gt, variant.index]
  · simp [variant.op_ne, variant.op_eq, variant.op_le, variant.op_lt, variant.op_ge,
      variant.op_gt, variant.index]
  · refine ⟨rfl, ?_, ?_, ?_⟩
    · rw [Bool.eq_iff_iff]
      simp only [variant.op_le, variant.op_lt, variant.op_eq, MessageId.op_le, MessageId.op_lt,
        MessageId.op_eq, basic_string.op_le, basic_string.op_lt, basic_string.op_eq,
        decide_eq_true_eq, Bool.or_eq_true, beq_iff_eq]
      omega
    · rw [Bool.eq_iff_iff]
      simp only [variant.op_ge, variant.op_gt, variant.op_eq, MessageId.op_ge, MessageId.op_gt,
        MessageId.op_eq, basic_string.op_ge, basic_string.op_gt, basic_string.op_eq,
        decide_eq_true_eq, Bool.or_eq_true, beq_iff_eq]
      omega
    · rw [Bool.eq_iff_iff]
      simp only [variant.op_gt, variant.op_lt, MessageId.op_gt, MessageId.op_lt,
        basic_string.op_gt, basic_string.op_lt, decide_eq_true_eq,
        string_compare_swap m.m_value n.m_value]
      omega

/-- Claim C15. The comparison operators of `ArticleSpec` order specs by kind and then
by payload, article numbers first: every article-number spec is unequal to and
strictly less than every message-id spec; two article-number specs compare as
their numbers; two message-id specs compare as their strings compare bytewise.
The six operators agree with one another: for all `x`, `y` exactly one of
`x < y`, `x == y`, `x > y` holds, `!=` is the negation of `==`, `<=` is `<` or
`==`, `>=` is `>` or `==`, and `x > y` is `y < x`. -/
theorem C15_ArticleSpec_order (x y : ArticleSpec) (a b : Article) (m n : MessageId) :
    ((ArticleSpec.of_article a).op_eq (ArticleSpec.of_message_id m) = false ∧
     (ArticleSpec.of_article a).op_ne (ArticleSpec.of_message_id m) = true ∧
     (ArticleSpec.of_article a).op_lt (ArticleSpec.of_message_id m) = true ∧
     (ArticleSpec.of_article a).op_le (ArticleSpec.of_message_id m) = true ∧
     (ArticleSpec.of_article a).op_gt (ArticleSpec.of_message_id m) = false ∧
     (ArticleSpec.of_article a).op_ge (ArticleSpec.of_message_id m) = false ∧
     (ArticleSpec.of_message_id m).op_eq (ArticleSpec.of_article a) = false ∧
     (ArticleSpec.of_message_id m).op_lt (ArticleSpec.of_article a) = false ∧
     (ArticleSpec.of_message_id m).op_gt (ArticleSpec.of_article a) = true) ∧
    (((ArticleSpec.of_article a).op_eq (ArticleSpec.of_article b) = true
        ↔ a.value = b.value) ∧
     ((ArticleSpec.of_article a).op_ne (ArticleSpec.of_article b) = true
        ↔ a.value ≠ b.value) ∧
     ((ArticleSpec.of_article a).op_lt (ArticleSpec.of_article b) = true
        ↔ a.value < b.value) ∧
     ((ArticleSpec.of_article a).op_le (ArticleSpec.of_article b) = true
        ↔ a.value ≤ b.value) ∧
     ((ArticleSpec.of_article a).op_gt (ArticleSpec.of_article b) = true
        ↔ a.value > b.value) ∧
     ((ArticleSpec.of_article a).op_ge (ArticleSpec.of_article b) = true
        ↔ a.value ≥ b.value)) ∧
    (((ArticleSpec.of_message_id m).op_eq (ArticleSpec.of_message_id n) = true
        ↔ m.value = n.value) ∧
     ((ArticleSpec.of_message_id m).op_ne (ArticleSpec.of_message_id n) = true
        ↔ m.value ≠ n.value) ∧
     ((ArticleSpec.of_message_id m).op_lt (ArticleSpec.of_message_id n) = true
        ↔ spec_bytewise_lt m.value n.value) ∧
     ((ArticleSpec.of_message_id m).op_le (ArticleSpec.of_message_id n) = true
        ↔ spec_bytewise_lt m.value n.value ∨ m.value = n.value) ∧
     ((ArticleSpec.of_message_id m).op_gt (ArticleSpec.of_message_id n) = true
        ↔ spec_bytewise_lt n.value m.value) ∧
     ((ArticleSpec.of_message_id m).op_ge (ArticleSpec.of_message_id n) = true
        ↔ spec_bytewise_lt n.value m.value ∨ m.value = n.value)) ∧
    ((x.op_lt y = true ∧ x.op_eq y = false ∧ x.op_gt y = false) ∨
     (x.op_lt y = false ∧ x.op_eq y = true ∧ x.op_gt y = false) ∨
     (x.op_lt y = false ∧ x.op_eq y = false ∧ x.op_gt y = true)) ∧
    (x.op_ne y = !x.op_eq y ∧
     x.op_le y = (x.op_lt y || x.op_eq y) ∧
     x.op_ge y = (x.op_gt y || x.op_eq y) ∧
     x.op_gt y = y.op_lt x) := by
  have hc := variant_consistent (variant.message_id m) (variant.message_id n)
  have hlt := string_op_lt_iff m.m_value n.m_value
  have hgt := string_op_gt_iff m.m_value n.m_value
  have heq : basic_string.op_eq m.m_value n.m_value = true ↔ m.m_value = n.m_value := by
    simp [basic_string.op_eq, string_compare_eq_zero_iff]
  refine ⟨⟨rfl, rfl, rfl, rfl, rfl, rfl, rfl, rfl, rfl⟩, ⟨?_, ?_, ?_, ?_, ?_, ?_⟩,
    ⟨?_, ?_, ?_, ?_, ?_, ?_⟩, variant_trichotomy x.m_value y.m_value,
    variant_consistent x.m_value y.m_value⟩
  · simp [ArticleSpec.op_eq, ArticleSpec.of_article, variant.op_eq, Article.op_eq, Article.value]
  · simp [ArticleSpec.op_ne, ArticleSpec.of_article, variant.op_ne, Article.op_ne, Article.value]
  · simp [ArticleSpec.op_lt, ArticleSpec.of_article, variant.op_lt, Article.op_lt, Article.value]
  · simp [ArticleSpec.op_le, ArticleSpec.of_article, variant.op_le, Article.op_le, Article.value]
  · simp [ArticleSpec.op_gt, ArticleSpec.of_article, variant.op_gt, Article.op_gt, Article.value]
  · simp [ArticleSpec.op_ge, ArticleSpec.of_article, variant.op_ge, Article.op_ge, Article.value]
  · exact heq
  · show variant.op_ne (variant.message_id m) (variant.message_id n) = true ↔ _
    rw [hc.1]
    simp only [variant.op_eq, MessageId.op_eq, MessageId.value, Bool.not_eq_true',
      ← Bool.not_eq_true, heq, ne_eq]
  · exact hlt
  · show variant.op_le (variant.message_id m) (variant.message_id n) = true ↔ _
    rw [hc.2.1, Bool.or_eq_true]
    exact or_congr hlt heq
  · exact hgt
  · show variant.op_ge (variant.message_id m) (variant.message_id n) = true ↔ _
    rw [hc.2.2.1, Bool.or_eq_true]
    exact or_congr hgt heq

/-! ## The test mock: reads -/

theorem list_ne_nil_isEmpty {l : List UInt8} (h : l ≠ []) : l.isEmpty = false := by
  cases l with
  | nil => exact absurd rfl h
  | cons _ _ => rfl

/-- Claim C16, as amended. For every `mock_file_stream` whose provide buffer `P` is
non-empty and every destination of capacity `c`, `read_some` returns success with
`n = min(c, |P|, max_read_size)`, stores the first `n` bytes of `P` in the first `n`
bytes of the destination, removes exactly those `n` bytes from the front of `P`,
and leaves the expect buffer, the fuse and the open flag as they were. The value of
`tell()` afterwards is the old one plus `n` reduced modulo `2^64`, hence advanced
by exactly `n` whenever the sum is below `2^64`. -/
theorem C16_mock_read_some (m : test.mock_file_stream) (buffers : List UInt8)
    (hP : m.provide_ ≠ []) :
    (m.read_some buffers).2.2.1 = error_code.success ∧
    (m.read_some buffers).2.2.2
      = min (min buffers.length m.provide_.length) m.max_read_size_ ∧
    (m.read_some buffers).2.1
      = m.provide_.take (m.read_some buffers).2.2.2
        ++ buffers.drop (m.read_some buffers).2.2.2 ∧
    (m.read_some buffers).2.1.take (m.read_some buffers).2.2.2
      = m.provide_.take (m.read_some buffers).2.2.2 ∧
    (m.read_some buffers).1.provide_ = m.provide_.drop (m.read_some buffers).2.2.2 ∧
    (m.read_some buffers).1.tell = (m.tell + (m.read_some buffers).2.2.2) % 2 ^ 64 ∧
    (m.tell + (m.read_some buffers).2.2.2 < 2 ^ 64 →
      (m.read_some buffers).1.tell = m.tell + (m.read_some buffers).2.2.2) ∧
    (m.read_some buffers).1.expect_ = m.expect_ ∧
    (m.read_some buffers).1.fuse_ = m.fuse_ ∧
    (m.read_some buffers).1.is_open = m.is_open := by
  have he := list_ne_nil_isEmpty hP
  have hr : m.read_some buffers
      = ({ m with
            provide_ := m.provide_.drop
              (min (min buffers.length m.provide_.length) m.max_read_size_),
            position_ := (m.position_
              + min (min buffers.length m.provide_.length) m.max_read_size_) % 2 ^ 64 },
         m.provide_.take (min (min buffers.length m.provide_.length) m.max_read_size_)
           ++ buffers.drop (min (min buffers.length m.provide_.length) m.max_read_size_),
         error_code.success,
         min (min buffers.length m.provide_.length) m.max_read_size_) := by
    simp only [test.mock_file_stream.read_some, he, Bool.not_false, if_true,
      test.mock_file_stream.consume_provide, buffer_copy]
  rw [hr]
  refine ⟨rfl, rfl, rfl, ?_, rfl, rfl, ?_, rfl, rfl, rfl⟩
  · show List.take (min (min buffers.length m.provide_.length) m.max_read_size_)
        (m.provide_.take (min (min buffers.length m.provide_.length) m.max_read_size_)
          ++ buffers.drop (min (min buffers.length m.provide_.length) m.max_read_size_))
      = m.provide_.take (min (min buffers.length m.provide_.length) m.max_read_size_)
    apply List.take_left'
    rw [List.length_take]
    omega
  · intro hlt
    exact Nat.mod_eq_of_lt hlt

/-- Witness for C16: with `Hello` staged, a read into a 20-byte destination returns
5 bytes and moves `tell()` from 0 to 5. -/
theorem C16_mock_read_some_witness :
    (test.mock_file_stream.read_some { provide_ := [72, 101, 108, 108, 111] }
        (List.replicate 20 0)).2.2.1 = error_code.success ∧
    (test.mock_file_stream.read_some { provide_ := [72, 101, 108, 108, 111] }
        (List.replicate 20 0)).2.2.2 = 5 ∧
    (test.mock_file_stream.read_some { provide_ := [72, 101, 108, 108, 111] }
        (List.replicate 20 0)).1.tell = 5 :=
  ⟨(C16_mock_read_some { provide_ := [72, 101, 108, 108, 111] } (List.replicate 20 0)
      (by decide)).1,
   (C16_mock_read_some { provide_ := [72, 101, 108, 108, 111] } (List.replicate 20 0)
      (by decide)).2.1,
   (C16_mock_read_some { provide_ := [72, 101, 108, 108, 111] } (List.replicate 20 0)
      (by decide)).2.2.2.2.2.2.1 (by decide)⟩

/-- Counterexample to C16 as stated: after `seek(2^64 - 1)`, with `Hello` staged, a
read into a 20-byte destination returns 5 bytes and leaves `tell()` at 4, which is
not the old value advanced by 5. -/
theorem C16_counterexample :
    (test.mock_file_stream.read_some
        (test.mock_file_stream.seek { provide_ := [72, 101, 108, 108, 111] } (2 ^ 64 - 1))
        (List.replicate 20 0)).2.2.2 = 5 ∧
    (test.mock_file_stream.read_some
        (test.mock_file_stream.seek { provide_ := [72, 101, 108, 108, 111] } (2 ^ 64 - 1))
        (List.replicate 20 0)).1.tell = 4 ∧
    (test.mock_file_stream.read_some
        (test.mock_file_stream.seek { provide_ := [72, 101, 108, 108, 111] } (2 ^ 64 - 1))
        (List.replicate 20 0)).1.tell
      ≠ (test.mock_file_stream.seek { provide_ := [72, 101, 108, 108, 111] }
          (2 ^ 64 - 1)).tell + 5 := by
  decide

/-- Claim C17. For every `mock_file_stream`, `read_some` returns the status eof exactly
when the provide buffer is empty at the time of the call; in that case it returns
0 bytes and leaves the whole state (position, expect buffer, open flag) and the
destination unchanged. -/
theorem C17_mock_read_eof (m : test.mock_file_stream) (buffers : List UInt8) :
    ((m.read_some buffers).2.2.1 = error_code.eof ↔ m.provide_ = []) ∧
    (m.provide_ = [] →
      (m.read_some buffers).2.2.2 = 0 ∧
      (m.read_some buffers).1 = m ∧
      (m.read_some buffers).1.tell = m.tell ∧
      (m.read_some buffers).1.expect_ = m.expect_ ∧
      (m.read_some buffers).1.is_open = m.is_open ∧
      (m.read_some buffers).2.1 = buffers) := by
  by_cases hP : m.provide_ = []
  · have hr : m.read_some buffers = (m, buffers, error_code.eof, 0) := by
      simp [test.mock_file_stream.read_some, hP]
    rw [hr]
    exact ⟨⟨fun _ => hP, fun _ => rfl⟩, fun _ => ⟨rfl, rfl, rfl, rfl, rfl, rfl⟩⟩
  · have he := list_ne_nil_isEmpty hP
    refine ⟨⟨?_, fun h => absurd h hP⟩, fun h => absurd h hP⟩
    intro h
    simp [test.mock_file_stream.read_some, he, test.mock_file_stream.consume_provide,
      buffer_copy] at h

/-- Witness for C17: a mock with nothing staged, at position 7 and open, answers a
read with 0 bytes and keeps its state. -/
theorem C17_mock_read_eof_witness :
    (test.mock_file_stream.read_some { position_ := 7, is_open_ := true, expect_ := [1] }
        (List.replicate 4 0)).2.2.2 = 0 ∧
    (test.mock_file_stream.read_some { position_ := 7, is_open_ := true, expect_ := [1] }
        (List.replicate 4 0)).1 = { position_ := 7, is_open_ := true, expect_ := [1] } :=
  ⟨((C17_mock_read_eof { position_ := 7, is_open_ := true, expect_ := [1] }
      (List.replicate 4 0)).2 rfl).1,
   ((C17_mock_read_eof { position_ := 7, is_open_ := true, expect_ := [1] }
      (List.replicate 4 0)).2 rfl).2.1⟩

/-! ## The test mock: writes and close -/

theorem mock_written_eq (buffers : List UInt8) (mx : Nat) :
    (buffer_copy
        (List.replicate (if buffers.length > mx then mx else buffers.length) (0 : UInt8))
        buffers mx).1 = buffers.take mx := by
  unfold buffer_copy
  by_cases h : buffers.length > mx
  · have hn : min (min mx buffers.length) mx = mx := by omega
    simp only [h, if_true, List.length_replicate, hn, List.drop_replicate, Nat.sub_self,
      List.replicate_zero, List.append_nil]
  · have hn : min (min buffers.length buffers.length) mx = buffers.length := by omega
    simp only [h, if_false, List.length_replicate, hn, List.drop_replicate, Nat.sub_self,
      List.replicate_zero, List.append_nil, List.take_length]
    rw [List.take_of_length_le (by omega)]

theorem mock_validate_expect (m : test.mock_file_stream) (buffers : List UInt8) (n0 : Nat)
    (hE : m.expect_ ≠ []) :
    m.validate_expect buffers n0
      = if (buffers.take m.max_write_size_).take
              (min (buffers.take m.max_write_size_).length m.expect_.length)
            = m.expect_.take (min (buffers.take m.max_write_size_).length m.expect_.length)
        then ({ m with expect_ := (m.expect_.drop
                  (min (buffers.take m.max_write_size_).length m.expect_.length)) },
              true, (buffers.take m.max_write_size_).length)
        else ({ m with fuse_ := m.fuse_ + 1 }, false, 0) := by
  have he := list_ne_nil_isEmpty hE
  have hz := traits_compare_eq_zero_iff (buffers.take m.max_write_size_) m.expect_
    (min (buffers.take m.max_write_size_).length m.expect_.length)
    (Nat.min_le_left _ _) (Nat.min_le_right _ _)
  simp only [test.mock_file_stream.validate_expect, he, Bool.false_eq_true, if_false,
    mock_written_eq, ne_eq]
  by_cases hm : (buffers.take m.max_write_size_).take
      (min (buffers.take m.max_write_size_).length m.expect_.length)
    = m.expect_.take (min (buffers.take m.max_write_size_).length m.expect_.length)
  · rw [if_pos hm, if_neg (not_not.mpr (hz.mpr hm))]
  · rw [if_neg hm, if_pos (fun h => hm (hz.mp h))]

/-- Claim C18, as amended. For every `mock_file_stream` whose expect buffer `E` is
non-empty and every write whose data, truncated to `max_write_size`, is `W`:
`write_some` succeeds exactly when `W` and `E` agree on their first
`min(|W|, |E|)` bytes, and otherwise returns test_failure. On success it reports
`|W|` bytes written, removes exactly the first `min(|W|, |E|)` bytes from `E`, does
not notify the fuse, and leaves the provide buffer alone; `tell()` afterwards is
the old value plus `|W|` reduced modulo `2^64`, hence advanced by exactly `|W|`
whenever the sum is below `2^64`. -/
theorem C18_mock_write_some (m : test.mock_file_stream) (buffers : List UInt8)
    (hE : m.expect_ ≠ []) :
    ((m.write_some buffers).2.1 = error_code.success ↔
      (buffers.take m.max_write_size_).take
          (min (buffers.take m.max_write_size_).length m.expect_.length)
        = m.expect_.take (min (buffers.take m.max_write_size_).length m.expect_.length)) ∧
    ((m.write_some buffers).2.1 = error_code.success ∨
      (m.write_some buffers).2.1 = error_code.test_failure) ∧
    ((m.write_some buffers).2.1 = error_code.success →
      (m.write_some buffers).2.2 = (buffers.take m.max_write_size_).length ∧
      (m.write_some buffers).1.expect_
        = m.expect_.drop (min (buffers.take m.max_write_size_).length m.expect_.length) ∧
      (m.write_some buffers).1.tell
        = (m.tell + (buffers.take m.max_write_size_).length) % 2 ^ 64 ∧
      (m.tell + (buffers.take m.max_write_size_).length < 2 ^ 64 →
        (m.write_some buffers).1.tell = m.tell + (buffers.take m.max_write_size_).length) ∧
      (m.write_some buffers).1.fuse_ = m.fuse_ ∧
      (m.write_some buffers).1.provide_ = m.provide_) := by
  have hv := mock_validate_expect m buffers 0 hE
  by_cases hm : (buffers.take m.max_write_size_).take
      (min (buffers.take m.max_write_size_).length m.expect_.length)
    = m.expect_.take (min (buffers.take m.max_write_size_).length m.expect_.length)
  · rw [if_pos hm] at hv
    have hw : m.write_some buffers
        = ({ m with
              expect_ := (m.expect_.drop
                (min (buffers.take m.max_write_size_).length m.expect_.length)),
              position_ := (m.position_ + (buffers.take m.max_write_size_).length) % 2 ^ 64 },
           error_code.success, (buffers.take m.max_write_size_).length) := by
      simp only [test.mock_file_stream.write_some, hv, Bool.not_true, Bool.false_eq_true,
        if_false]
    rw [hw]
    refine ⟨⟨fun _ => hm, fun _ => rfl⟩, Or.inl rfl, fun _ => ⟨rfl, rfl, rfl, ?_, rfl, rfl⟩⟩
    intro hlt
    exact Nat.mod_eq_of_lt hlt
  · rw [if_neg hm] at hv
    have hw : m.write_some buffers
        = ({ m with fuse_ := m.fuse_ + 1 }, error_code.test_failure, 0) := by
      simp only [test.mock_file_stream.write_some, hv, Bool.not_false, if_true]
    rw [hw]
    refine ⟨⟨fun h => ?_, fun h => absurd h hm⟩, Or.inr rfl, fun h => ?_⟩
    · cases h
    · cases h

/-- Witness for C18: with `data` expected, writing `data` succeeds with 4 bytes and
empties the expect buffer. -/
theorem C18_mock_write_some_witness :
    (test.mock_file_stream.write_some { expect_ := [100, 97, 116, 97] }
        [100, 97, 116, 97]).2.2 = 4 ∧
    (test.mock_file_stream.write_some { expect_ := [100, 97, 116, 97] }
        [100, 97, 116, 97]).1.expect_ = [] :=
  ⟨((C18_mock_write_some { expect_ := [100, 97, 116, 97] } [100, 97, 116, 97]
      (by decide)).2.2 (by decide)).1,
   ((C18_mock_write_some { expect_ := [100, 97, 116, 97] } [100, 97, 116, 97]
      (by decide)).2.2 (by decide)).2.1⟩

/-- Counterexample to C18 as stated: after `seek(2^64 - 1)`, with `data` expected,
writing `data` succeeds with 4 bytes and leaves `tell()` at 3, which is not the old
value advanced by 4. -/
theorem C18_counterexample :
    (test.mock_file_stream.write_some
        (test.mock_file_stream.seek { expect_ := [100, 97, 116, 97] } (2 ^ 64 - 1))
        [100, 97, 116, 97]).2.1 = error_code.success ∧
    (test.mock_file_stream.write_some
        (test.mock_file_stream.seek { expect_ := [100, 97, 116, 97] } (2 ^ 64 - 1))
        [100, 97, 116, 97]).2.2 = 4 ∧
    (test.mock_file_stream.write_some
        (test.mock_file_stream.seek { expect_ := [100, 97, 116, 97] } (2 ^ 64 - 1))
        [100, 97, 116, 97]).1.tell = 3 ∧
    (test.mock_file_stream.write_some
        (test.mock_file_stream.seek { expect_ := [100, 97, 116, 97] } (2 ^ 64 - 1))
        [100, 97, 116, 97]).1.tell
      ≠ (test.mock_file_stream.seek { expect_ := [100, 97, 116, 97] } (2 ^ 64 - 1)).tell + 4 := by
  decide

/-- Claim C19. For every `mock_file_stream` and every write whose data, truncated to
`max_write_size`, disagrees with the non-empty expect buffer within their first
`min(|W|, |E|)` bytes, `write_some` returns test_failure with 0 bytes written,
notifies the fuse exactly once, and leaves the expect buffer, the provide buffer,
the position and every other field as they were. -/
theorem C19_mock_write_mismatch (m : test.mock_file_stream) (buffers : List UInt8)
    (hE : m.expect_ ≠ [])
    (hm : (buffers.take m.max_write_size_).take
            (min (buffers.take m.max_write_size_).length m.expect_.length)
          ≠ m.expect_.take (min (buffers.take m.max_write_size_).length m.expect_.length)) :
    (m.write_some buffers).2.1 = error_code.test_failure ∧
    (m.write_some buffers).2.2 = 0 ∧
    (m.write_some buffers).1 = { m with fuse_ := m.fuse_ + 1 } ∧
    (m.write_some buffers).1.fuse_ = m.fuse_ + 1 ∧
    (m.write_some buffers).1.expect_ = m.expect_ ∧
    (m.write_some buffers).1.provide_ = m.provide_ ∧
    (m.write_some buffers).1.tell = m.tell := by
  have hv := mock_validate_expect m buffers 0 hE
  rw [if_neg hm] at hv
  have hw : m.write_some buffers
      = ({ m with fuse_ := m.fuse_ + 1 }, error_code.test_failure, 0) := by
    simp only [test.mock_file_stream.write_some, hv, Bool.not_false, if_true]
  rw [hw]
  exact ⟨rfl, rfl, rfl, rfl, rfl, rfl, rfl⟩

/-- Witness for C19: with `data` expected at position 9, writing `DATA` returns
test_failure with 0 bytes, notifies the fuse once and keeps the expect buffer and
the position. -/
theorem C19_mock_write_mismatch_witness :
    (test.mock_file_stream.write_some { expect_ := [100, 97, 116, 97], position_ := 9 }
        [68, 65, 84, 65]).2.1 = error_code.test_failure ∧
    (test.mock_file_stream.write_some { expect_ := [100, 97, 116, 97], position_ := 9 }
        [68, 65, 84, 65]).2.2 = 0 ∧
    (test.mock_file_stream.write_some { expect_ := [100, 97, 116, 97], position_ := 9 }
        [68, 65, 84, 65]).1
      = { expect_ := [100, 97, 116, 97], position_ := 9, fuse_ := 1 } :=
  ⟨(C19_mock_write_mismatch { expect_ := [100, 97, 116, 97], position_ := 9 }
      [68, 65, 84, 65] (by decide) (by decide)).1,
   (C19_mock_write_mismatch { expect_ := [100, 97, 116, 97], position_ := 9 }
      [68, 65, 84, 65] (by decide) (by decide)).2.1,
   (C19_mock_write_mismatch { expect_ := [100, 97, 116, 97], position_ := 9 }
      [68, 65, 84, 65] (by decide) (by decide)).2.2.1⟩

/-- Claim C20, what the code does. `close()` on a `mock_file_stream` verifies when the
mock is open: for every open mock in which the provide buffer or the expect buffer
is non-empty, `close()` returns test_failure, notifies the fuse once and marks the
mock closed without touching the buffers; on an open mock it returns success
exactly when both buffers are empty. On a mock that is not open `close()` returns
success without verifying, whatever the buffers hold: the state and the fuse are
left as they were, which is not what the claim and the documentation of `close()`
say. -/
theorem C20_mock_close (m : test.mock_file_stream) :
    (m.is_open = true → m.provide_ ≠ [] ∨ m.expect_ ≠ [] →
      m.close.2 = error_code.test_failure ∧
      m.close.1 = { m with is_open_ := false, fuse_ := m.fuse_ + 1 }) ∧
    (m.is_open = true →
      (m.close.2 = error_code.success ↔ m.provide_ = [] ∧ m.expect_ = [])) ∧
    (m.is_open = true → m.provide_ = [] → m.expect_ = [] →
      m.close = ({ m with is_open_ := false }, error_code.success)) ∧
    (m.is_open = false → m.close = (m, error_code.success)) := by
  refine ⟨?_, ?_, ?_, ?_⟩
  · intro ho hne
    have ho2 : m.is_open_ = true := ho
    by_cases hE : m.expect_ = []
    · have hP : m.provide_ ≠ [] := by
        rcases hne with h | h
        · exact h
        · exact absurd hE h
      have hp := list_ne_nil_isEmpty hP
      simp [test.mock_file_stream.close, ho2, hE, hp]
    · have he := list_ne_nil_isEmpty hE
      simp [test.mock_file_stream.close, ho2, he]
  · intro ho
    have ho2 : m.is_open_ = true := ho
    by_cases hE : m.expect_ = []
    · by_cases hP : m.provide_ = []
      · simp [test.mock_file_stream.close, ho2, hE, hP]
      · have hp := list_ne_nil_isEmpty hP
        simp [test.mock_file_stream.close, ho2, hE, hp, hP]
    · have he := list_ne_nil_isEmpty hE
      simp [test.mock_file_stream.close, ho2, he, hE]
  · intro ho hP hE
    have ho2 : m.is_open_ = true := ho
    simp [test.mock_file_stream.close, ho2, hE, hP]
  · intro ho
    have ho2 : m.is_open_ = false := ho
    simp [test.mock_file_stream.close, ho2]

/-- Witness for C20: an open mock with an unmet expectation fails `close()` and
notifies the fuse; the same mock when not open closes with success. -/
theorem C20_mock_close_witness :
    (test.mock_file_stream.close { expect_ := [120], is_open_ := true }).2
      = error_code.test_failure ∧
    (test.mock_file_stream.close { expect_ := [120], is_open_ := true }).1
      = { expect_ := [120], is_open_ := false, fuse_ := 1 } ∧
    test.mock_file_stream.close { expect_ := [120], is_open_ := false }
      = ({ expect_ := [120], is_open_ := false }, error_code.success) :=
  ⟨((C20_mock_close { expect_ := [120], is_open_ := true }).1 rfl
      (Or.inr (by decide))).1,
   ((C20_mock_close { expect_ := [120], is_open_ := true }).1 rfl
      (Or.inr (by decide))).2,
   (C20_mock_close { expect_ := [120], is_open_ := false }).2.2.2 rfl⟩

/-- The failing input of C20: a mock that was never opened, with one byte staged in
the provide buffer, returns success from `close()` and does not notify the
fuse. -/
theorem C20_failing_input :
    (test.mock_file_stream.provide {} [120]).provide_ ≠ [] ∧
    (test.mock_file_stream.close (test.mock_file_stream.provide {} [120])).2
      = error_code.success ∧
    (test.mock_file_stream.close (test.mock_file_stream.provide {} [120])).1.fuse_ = 0 := by
  decide

/-! ## The test mock: chunked reads, destruction, writes without expectation -/

theorem mock_read_some_nonempty (m : test.mock_file_stream) (buffers : List UInt8)
    (hP : m.provide_ ≠ []) :
    m.read_some buffers
      = ({ m with
            provide_ := m.provide_.drop
              (min (min buffers.length m.provide_.length) m.max_read_size_),
            position_ := (m.position_
              + min (min buffers.length m.provide_.length) m.max_read_size_) % 2 ^ 64 },
         m.provide_.take (min (min buffers.length m.provide_.length) m.max_read_size_)
           ++ buffers.drop (min (min buffers.length m.provide_.length) m.max_read_size_),
         error_code.success,
         min (min buffers.length m.provide_.length) m.max_read_size_) := by
  have he := list_ne_nil_isEmpty hP
  simp only [test.mock_file_stream.read_some, he, Bool.not_false, if_true,
    test.mock_file_stream.consume_provide, buffer_copy]

theorem ceil_div_step (p q n : Nat) (hq : 1 ≤ q) (hp : 1 ≤ p) (hn : n = min q p) :
    (p - n + q - 1) / q + 1 = (p + q - 1) / q := by
  have h1 : (p + q - 1) / q = (p - 1) / q + 1 := by
    have : p + q - 1 = (p - 1) + q := by omega
    rw [this, Nat.add_div_right _ (by omega)]
  rw [h1]
  congr 1
  by_cases hle : q ≤ p
  · have : n = q := by rw [hn]; exact Nat.min_eq_left hle
    have : p - n + q - 1 = p - 1 := by omega
    rw [this]
  · have hnp : n = p := by rw [hn]; exact Nat.min_eq_right (by omega)
    rw [Nat.div_eq_of_lt (by omega), Nat.div_eq_of_lt (by omega)]

theorem read_until_eof_spec (q : Nat) (hq : 1 ≤ q) :
    ∀ (fuel : Nat) (m : test.mock_file_stream) (buffer : List UInt8),
      m.provide_.length < fuel → min m.max_read_size_ buffer.length = q →
      ∃ m2 reads, test.mock_file_stream.read_until_eof fuel m buffer = some (m2, reads) ∧
        reads.flatten = m.provide_ ∧
        reads.length = (m.provide_.length + q - 1) / q ∧
        (∀ r ∈ reads, 1 ≤ r.length ∧ r.length ≤ q) ∧
        m2.provide_ = [] := by
  intro fuel
  induction fuel with
  | zero => intro m buffer h; omega
  | succ fuel ih =>
    intro m buffer hfuel hmin
    by_cases hP : m.provide_ = []
    · have hr : m.read_some buffer = (m, buffer, error_code.eof, 0) := by
        simp [test.mock_file_stream.read_some, hP]
      refine ⟨m, [], ?_, ?_, ?_, ?_, hP⟩
      · simp only [test.mock_file_stream.read_until_eof, hr, if_true]
      · simp [hP]
      · rw [hP]
        simp only [List.length_nil, Nat.zero_add, List.length_nil]
        exact (Nat.div_eq_of_lt (by omega)).symm
      · intro r hr; cases hr
    · have hr := mock_read_some_nonempty m buffer hP
      have hlen : 1 ≤ m.provide_.length := by
        cases hm : m.provide_ with
        | nil => exact absurd hm hP
        | cons _ _ => simp
      generalize hn : min (min buffer.length m.provide_.length) m.max_read_size_ = n at hr
      have hnq : n = min q m.provide_.length := by
        rw [← hn, ← hmin]; omega
      have hn1 : 1 ≤ n := by omega
      have hnc : n ≤ buffer.length := by omega
      have hnp : n ≤ m.provide_.length := by omega
      obtain ⟨m2, reads, hloop, hjoin, hcount, hsize, hempty⟩ :=
        ih { m with provide_ := m.provide_.drop n,
                    position_ := (m.position_ + n) % 2 ^ 64 }
          (m.provide_.take n ++ buffer.drop n)
          (by simp only [List.length_drop]; omega)
          (by
            simp only [List.length_append, List.length_take, List.length_drop]
            rw [← hmin]; omega)
      have htake : (m.provide_.take n ++ buffer.drop n).take n = m.provide_.take n := by
        apply List.take_left'
        rw [List.length_take]
        omega
      refine ⟨m2, m.provide_.take n :: reads, ?_, ?_, ?_, ?_, hempty⟩
      · simp only [test.mock_file_stream.read_until_eof, hr, hloop, htake]
        simp
      · simp only [List.flatten_cons, hjoin]
        exact List.take_append_drop n m.provide_
      · simp only [List.length_cons, hcount, List.length_drop]
        exact ceil_div_step m.provide_.length q n hq hlen (by rw [hnq])
      · intro r hr
        rcases List.mem_cons.mp hr with h | h
        · subst h
          rw [List.length_take]
          omega
        · exact hsize r h

/-- Claim C21. For every byte string `D`, every `max_read_size` `k ≥ 1` (a `std::size_t`)
and every destination of capacity `c ≥ 1`: on a freshly constructed mock, after
`provide(D)`, the loop that calls `read_some` until it returns eof terminates (any
fuel above `|D|` suffices), after exactly `ceil(|D| / min(k, c))` successful reads;
every one of them returns at least 1 and at most `min(k, c)` bytes, and the bytes
returned, concatenated in order, are `D`. -/
theorem C21_mock_chunked_reads (D : List UInt8) (k w : Nat) (buffer : List UInt8)
    (hk : 1 ≤ k) (hk64 : k < 2 ^ 64) (hc : 1 ≤ buffer.length) (fuel : Nat)
    (hfuel : D.length < fuel) :
    ∃ m reads,
      test.mock_file_stream.read_until_eof fuel
          ((test.mock_file_stream.ctor k w).provide D) buffer = some (m, reads) ∧
      reads.length = (D.length + min k buffer.length - 1) / min k buffer.length ∧
      (∀ r ∈ reads, 1 ≤ r.length ∧ r.length ≤ min k buffer.length) ∧
      reads.flatten = D ∧
      m.provide_ = [] := by
  have hprov : ((test.mock_file_stream.ctor k w).provide D).provide_ = D := by
    simp [test.mock_file_stream.ctor, test.mock_file_stream.provide]
  have hmax : ((test.mock_file_stream.ctor k w).provide D).max_read_size_ = k := by
    simp only [test.mock_file_stream.ctor, test.mock_file_stream.provide]
    exact Nat.mod_eq_of_lt hk64
  obtain ⟨m2, reads, hloop, hjoin, hcount, hsize, hempty⟩ :=
    read_until_eof_spec (min k buffer.length) (by omega) fuel
      ((test.mock_file_stream.ctor k w).provide D) buffer
      (by rw [hprov]; exact hfuel) (by rw [hmax])
  rw [hprov] at hjoin hcount
  exact ⟨m2, reads, hloop, hcount, hsize, hjoin, hempty⟩

/-- Witness for C21: the test `ChunkedReads`. With `Hello, World!` staged, a limit of
5 bytes per read and a destination of 20 bytes, the loop ends after 3 reads. -/
theorem C21_mock_chunked_reads_witness :
    ∃ m reads,
      test.mock_file_stream.read_until_eof 14
          ((test.mock_file_stream.ctor 5 (2 ^ 64 - 1)).provide
            [72, 101, 108, 108, 111, 44, 32, 87, 111, 114, 108, 100, 33])
          (List.replicate 20 0) = some (m, reads) ∧
      reads.length = (13 + min 5 20 - 1) / min 5 20 ∧
      (∀ r ∈ reads, 1 ≤ r.length ∧ r.length ≤ min 5 20) ∧
      reads.flatten = [72, 101, 108, 108, 111, 44, 32, 87, 111, 114, 108, 100, 33] ∧
      m.provide_ = [] :=
  C21_mock_chunked_reads [72, 101, 108, 108, 111, 44, 32, 87, 111, 114, 108, 100, 33]
    5 (2 ^ 64 - 1) (List.replicate 20 0) (by decide) (by decide) (by decide) 14 (by decide)

/-- Claim C22. Destroying a `mock_file_stream` notifies the fuse, once, if and only if
the mock is still open and its provide buffer or its expect buffer is non-empty;
otherwise the fuse is left as it was. A mock that is not open, whatever is staged,
a mock on which `close()` has returned, and a mock that was constructed and staged
but never opened, do not notify the fuse on destruction. -/
theorem C22_mock_destructor (m : test.mock_file_stream) (k w : Nat) (P X : List UInt8) :
    (m.destructor = m.fuse_ + 1 ↔
      m.is_open = true ∧ (m.provide_ ≠ [] ∨ m.expect_ ≠ [])) ∧
    (m.destructor = m.fuse_ ↔
      ¬ (m.is_open = true ∧ (m.provide_ ≠ [] ∨ m.expect_ ≠ []))) ∧
    test.mock_file_stream.destructor { m with is_open_ := false } = m.fuse_ ∧
    m.close.1.destructor = m.close.1.fuse_ ∧
    (((test.mock_file_stream.ctor k w).provide P).expect X).destructor = 0 := by
  refine ⟨?_, ?_, ?_, ?_, ?_⟩
  · cases ho : m.is_open_ <;> cases hp : m.provide_ <;> cases he : m.expect_ <;>
      simp [test.mock_file_stream.destructor, test.mock_file_stream.is_open, ho, hp, he]
  · cases ho : m.is_open_ <;> cases hp : m.provide_ <;> cases he : m.expect_ <;>
      simp [test.mock_file_stream.destructor, test.mock_file_stream.is_open, ho, hp, he]
  · simp [test.mock_file_stream.destructor]
  · cases ho : m.is_open_ <;> cases hp : m.provide_ <;> cases he : m.expect_ <;>
      simp [test.mock_file_stream.destructor, test.mock_file_stream.close, ho, hp, he]
  · simp [test.mock_file_stream.destructor, test.mock_file_stream.ctor,
      test.mock_file_stream.provide, test.mock_file_stream.expect]

/-- Claim C28. For every `mock_file_stream` whose expect buffer is empty and for every
data written, of any length, `write_some` returns the status success with a
reported byte count of 0 and leaves the mock as it was: the fuse is not notified,
the position and both staged buffers are unchanged. The position is a
`std::size_t`, hence below `2^64`. -/
theorem C28_mock_write_empty_expect (m : test.mock_file_stream) (buffers : List UInt8)
    (hX : m.expect_ = []) (hpos : m.position_ < 2 ^ 64) :
    (m.write_some buffers).2.1 = error_code.success ∧
    (m.write_some buffers).2.2 = 0 ∧
    (m.write_some buffers).1.fuse_ = m.fuse_ ∧
    (m.write_some buffers).1.tell = m.tell ∧
    (m.write_some buffers).1.provide_ = m.provide_ ∧
    (m.write_some buffers).1.expect_ = m.expect_ ∧
    (m.write_some buffers).1 = m := by
  have hr : m.write_some buffers
      = ({ m with position_ := (m.position_ + 0) % 2 ^ 64 }, error_code.success, 0) := by
    simp [test.mock_file_stream.write_some, test.mock_file_stream.validate_expect, hX]
  have hm : (m.position_ + 0) % 2 ^ 64 = m.position_ := Nat.mod_eq_of_lt hpos
  rw [hr, hm]
  exact ⟨rfl, rfl, rfl, rfl, rfl, rfl, rfl⟩

/-- Witness for C28: a mock at position 7 with `Hi` staged for reads and nothing
expected takes a 3-byte write, reports 0 bytes and stays as it was. -/
theorem C28_mock_write_empty_expect_witness :
    ((test.mock_file_stream.write_some { position_ := 7, provide_ := [72, 105] }
        [1, 2, 3]).2.1 = error_code.success) ∧
    ((test.mock_file_stream.write_some { position_ := 7, provide_ := [72, 105] }
        [1, 2, 3]).2.2 = 0) ∧
    ((test.mock_file_stream.write_some { position_ := 7, provide_ := [72, 105] }
        [1, 2, 3]).1 = { position_ := 7, provide_ := [72, 105] }) :=
  ⟨(C28_mock_write_empty_expect { position_ := 7, provide_ := [72, 105] } [1, 2, 3]
      rfl (by decide)).1,
   (C28_mock_write_empty_expect { position_ := 7, provide_ := [72, 105] } [1, 2, 3]
      rfl (by decide)).2.1,
   (C28_mock_write_empty_expect { position_ := 7, provide_ := [72, 105] } [1, 2, 3]
      rfl (by decide)).2.2.2.2.2.2⟩

/-! ## The Windows offset words -/

/-- Claim C26. For every 64-bit position `pos`, the Windows `read_some` and
`write_some` store `Offset = pos mod 2^32` and `OffsetHigh = floor(pos / 2^32)` in
the `OVERLAPPED` block of the record, so that `OffsetHigh * 2^32 + Offset = pos`,
and the `file_offset` of the record equals `pos`. The stores are those of the
submission path, which a call with a buffer takes. -/
theorem C26_win_overlapped_words (s : iocp.win_file_impl_internal) (h : Nat)
    (b : mutable_buffer) (rest : io_buffer_param) (ec : Option error_code)
    (bt : Option Nat) (hp : s.position < 2 ^ 64) :
    ((s.read_some h (b :: rest) ec bt).1.rd_.Offset = s.position % 2 ^ 32 ∧
     (s.read_some h (b :: rest) ec bt).1.rd_.OffsetHigh = s.position / 2 ^ 32 ∧
     (s.read_some h (b :: rest) ec bt).1.rd_.OffsetHigh * 2 ^ 32
       + (s.read_some h (b :: rest) ec bt).1.rd_.Offset = s.position ∧
     (s.read_some h (b :: rest) ec bt).1.rd_.file_offset = s.position) ∧
    ((s.write_some h (b :: rest) ec bt).1.wr_.Offset = s.position % 2 ^ 32 ∧
     (s.write_some h (b :: rest) ec bt).1.wr_.OffsetHigh = s.position / 2 ^ 32 ∧
     (s.write_some h (b :: rest) ec bt).1.wr_.OffsetHigh * 2 ^ 32
       + (s.write_some h (b :: rest) ec bt).1.wr_.Offset = s.position ∧
     (s.write_some h (b :: rest) ec bt).1.wr_.file_offset = s.position) := by
  have hp2 : s.position_ < 2 ^ 64 := hp
  have hhi : (s.position_ / 2 ^ 32) % 2 ^ 32 = s.position_ / 2 ^ 32 := by
    apply Nat.mod_eq_of_lt
    omega
  have hw := overlapped_words hp2
  exact ⟨⟨rfl, hhi, hw, rfl⟩, ⟨rfl, hhi, hw, rfl⟩⟩

/-- Witness for C26: at position `2^32 + 5` the words are `Offset = 5` and
`OffsetHigh = 1`. -/
theorem C26_win_overlapped_words_witness :
    (iocp.win_file_impl_internal.read_some { position_ := 2 ^ 32 + 5 } 1
        [{ data := 0, size := 16 }] none none).1.rd_.Offset = (2 ^ 32 + 5) % 2 ^ 32 ∧
    (iocp.win_file_impl_internal.read_some { position_ := 2 ^ 32 + 5 } 1
        [{ data := 0, size := 16 }] none none).1.rd_.OffsetHigh = (2 ^ 32 + 5) / 2 ^ 32 :=
  ⟨(C26_win_overlapped_words { position_ := 2 ^ 32 + 5 } 1 { data := 0, size := 16 } []
      none none (by decide)).1.1,
   (C26_win_overlapped_words { position_ := 2 ^ 32 + 5 } 1 { data := 0, size := 16 } []
      none none (by decide)).1.2.1⟩

/-! ## The completion callbacks and the owning reference -/

/-- Claim C27. A read or write completion callback invoked with a null owner clears the
owning reference of its record and does nothing else: the resulting state is the
old one with only `internal_ptr` of that record cleared, so the cells behind
`ec_out` and `bytes_out` are not written and the position is unchanged, and the
trace is empty, so the coroutine is not resumed. On the normal path the record
does not hold the reference once the callback has returned (on Windows the
reference is moved out before the handler of the base class runs, and that
handler does not touch the field of the derived class). -/
theorem C27_completion_releases_reference (E : errno_h)
    (su : uring.uring_file_impl_internal) (sw : iocp.win_file_impl_internal)
    (sg : gcd.gcd_file_impl_internal) (handler : iocp.file_op → iocp.file_op)
    (res bytes error : Nat)
    (hh : ∀ op, (handler op).internal_ptr = op.internal_ptr) :
    (uring.file_read_op.do_complete E false su res
        = ({ su with rd_ := { su.rd_ with internal_ptr := false } }, []) ∧
     uring.file_write_op.do_complete E false su res
        = ({ su with wr_ := { su.wr_ with internal_ptr := false } }, []) ∧
     iocp.file_read_op.do_complete handler false sw bytes error
        = ({ sw with rd_ := { sw.rd_ with internal_ptr := false } }, []) ∧
     iocp.file_write_op.do_complete handler false sw bytes error
        = ({ sw with wr_ := { sw.wr_ with internal_ptr := false } }, []) ∧
     gcd.file_read_op.do_complete E false sg res
        = ({ sg with rd_ := { sg.rd_ with internal_ptr := false } }, []) ∧
     gcd.file_write_op.do_complete E false sg res
        = ({ sg with wr_ := { sg.wr_ with internal_ptr := false } }, [])) ∧
    ((uring.file_read_op.do_complete E false su res).1.rd_.ec_out = su.rd_.ec_out ∧
     (uring.file_read_op.do_complete E false su res).1.rd_.bytes_out = su.rd_.bytes_out ∧
     (uring.file_read_op.do_complete E false su res).1.position = su.position ∧
     (uring.file_read_op.do_complete E false su res).1.rd_.internal_ptr = false ∧
     (uring.file_write_op.do_complete E false su res).1.wr_.ec_out = su.wr_.ec_out ∧
     (uring.file_write_op.do_complete E false su res).1.wr_.bytes_out = su.wr_.bytes_out ∧
     (uring.file_write_op.do_complete E false su res).1.position = su.position ∧
     (uring.file_write_op.do_complete E false su res).1.wr_.internal_ptr = false ∧
     (iocp.file_read_op.do_complete handler false sw bytes error).1.rd_.ec_out
        = sw.rd_.ec_out ∧
     (iocp.file_read_op.do_complete handler false sw bytes error).1.rd_.bytes_out
        = sw.rd_.bytes_out ∧
     (iocp.file_read_op.do_complete handler false sw bytes error).1.position
        = sw.position ∧
     (iocp.file_read_op.do_complete handler false sw bytes error).1.rd_.internal_ptr
        = false ∧
     (iocp.file_write_op.do_complete handler false sw bytes error).1.wr_.ec_out
        = sw.wr_.ec_out ∧
     (iocp.file_write_op.do_complete handler false sw bytes error).1.wr_.bytes_out
        = sw.wr_.bytes_out ∧
     (iocp.file_write_op.do_complete handler false sw bytes error).1.position
        = sw.position ∧
     (iocp.file_write_op.do_complete handler false sw bytes error).1.wr_.internal_ptr
        = false ∧
     (gcd.file_read_op.do_complete E false sg res).1.rd_.ec_out = sg.rd_.ec_out ∧
     (gcd.file_read_op.do_complete E false sg res).1.rd_.bytes_out = sg.rd_.bytes_out ∧
     (gcd.file_read_op.do_complete E false sg res).1.position = sg.position ∧
     (gcd.file_read_op.do_complete E false sg res).1.rd_.internal_ptr = false ∧
     (gcd.file_write_op.do_complete E false sg res).1.wr_.ec_out = sg.wr_.ec_out ∧
     (gcd.file_write_op.do_complete E false sg res).1.wr_.bytes_out = sg.wr_.bytes_out ∧
     (gcd.file_write_op.do_complete E false sg res).1.position = sg.position ∧
     (gcd.file_write_op.do_complete E false sg res).1.wr_.internal_ptr = false) ∧
    ((uring.file_read_op.do_complete E true su res).1.rd_.internal_ptr = false ∧
     (uring.file_write_op.do_complete E true su res).1.wr_.internal_ptr = false ∧
     (iocp.file_read_op.do_complete handler true sw bytes error).1.rd_.internal_ptr
        = false ∧
     (iocp.file_write_op.do_complete handler true sw bytes error).1.wr_.internal_ptr
        = false ∧
     (gcd.file_read_op.do_complete E true sg res).1.rd_.internal_ptr = false ∧
     (gcd.file_write_op.do_complete E true sg res).1.wr_.internal_ptr = false) := by
  refine ⟨⟨rfl, rfl, rfl, rfl, rfl, rfl⟩,
    ⟨rfl, rfl, rfl, rfl, rfl, rfl, rfl, rfl, rfl, rfl, rfl, rfl, rfl, rfl, rfl, rfl,
     rfl, rfl, rfl, rfl, rfl, rfl, rfl, rfl⟩, ?_, ?_, ?_, ?_, ?_, ?_⟩
  · simp only [uring.file_read_op.do_complete, Bool.not_true, Bool.false_eq_true, if_false]
    split_ifs <;> rfl
  · simp only [uring.file_write_op.do_complete, Bool.not_true, Bool.false_eq_true, if_false]
    split_ifs <;> rfl
  · simp only [iocp.file_read_op.do_complete, Bool.not_true, Bool.false_eq_true, if_false]
    rw [hh]
  · simp only [iocp.file_write_op.do_complete, Bool.not_true, Bool.false_eq_true, if_false]
    rw [hh]
  · simp only [gcd.file_read_op.do_complete, Bool.not_true, Bool.false_eq_true, if_false]
    split_ifs <;> rfl
  · simp only [gcd.file_write_op.do_complete, Bool.not_true, Bool.false_eq_true, if_false]
    split_ifs <;> rfl

/-- Witness for C27: records that hold the reference and whose out-parameters point
at cells holding `success` and `7`, with a handler that leaves the record alone. -/
theorem C27_completion_releases_reference_witness :
    (uring.file_read_op.do_complete linux_errno false
        { position_ := 3,
          rd_ := { internal_ptr := true, h := some 1, ec_out := some error_code.success,
                   bytes_out := some 7 } } 5
      = ({ position_ := 3,
           rd_ := { internal_ptr := false, h := some 1, ec_out := some error_code.success,
                    bytes_out := some 7 } }, [])) ∧
    ((iocp.file_read_op.do_complete id true
        { rd_ := { internal_ptr := true } } 0 0).1.rd_.internal_ptr = false) :=
  ⟨(C27_completion_releases_reference linux_errno
      { position_ := 3,
        rd_ := { internal_ptr := true, h := some 1, ec_out := some error_code.success,
                 bytes_out := some 7 } }
      { rd_ := { internal_ptr := true } } {} id 5 0 0 (fun _ => rfl)).1.1,
   (C27_completion_releases_reference linux_errno
      { position_ := 3,
        rd_ := { internal_ptr := true, h := some 1, ec_out := some error_code.success,
                 bytes_out := some 7 } }
      { rd_ := { internal_ptr := true } } {} id 5 0 0 (fun _ => rfl)).2.2.2.2.1⟩

/-! ## Injectivity of the text of an article selector -/

theorem Article_ctor_range (v : Nat) (a : Article) (h : Article.ctor v = Except.ok a) :
    1 ≤ a.m_value ∧ a.m_value < 2 ^ 64 := by
  unfold Article.ctor at h
  simp only at h
  split at h
  · cases h
  · rename_i hlt
    cases h
    refine ⟨?_, Nat.mod_lt _ (by decide)⟩
    show 1 ≤ v % 2 ^ 64
    omega

theorem Article_constructed_range (a : Article)
    (h : a = Article.default_ctor ∨ ∃ v, Article.ctor v = Except.ok a) :
    1 ≤ a.m_value ∧ a.m_value < 2 ^ 64 := by
  rcases h with h | ⟨v, h⟩
  · subst h
    exact ⟨by decide, by decide⟩
  · exact Article_ctor_range v a h

theorem MessageId_constructed_head (m : MessageId)
    (h : ∃ str, MessageId.ctor str = Except.ok m) : m.m_value.head? = some 0x3C := by
  obtain ⟨str, h⟩ := h
  rcases MessageId_ctor_cases str with ⟨hv, hok⟩ | ⟨_, what, herr⟩
  · rw [hok] at h
    cases h
    exact hv.2.1
  · rw [herr] at h
    cases h

theorem to_string_injective (v w : Nat) (hv : v < 2 ^ 64) (hw : w < 2 ^ 64)
    (h : to_string v = to_string w) : v = w := by
  have h1 := (to_string_is_base10 v hv).2.2.2
  have h2 := (to_string_is_base10 w hw).2.2.2
  rw [h] at h1
  omega

theorem to_string_head_ne_lt (v : Nat) (hv : v < 2 ^ 64) :
    (to_string v).head? ≠ some 0x3C := by
  have hb := to_string_is_base10 v hv
  intro hh
  cases hs : to_string v with
  | nil => exact hb.1 hs
  | cons c rest =>
    rw [hs] at hh
    simp only [List.head?_cons, Option.some.injEq] at hh
    have := hb.2.1 c (by rw [hs]; exact List.mem_cons_self _ _)
    rw [hh] at this
    revert this
    decide

/-- Claim C29. On the `ArticleSpec` objects the constructors produce, `value()` is
injective: `a.value() == b.value()` if and only if `a == b`, and `a == b` holds
exactly when the two objects are the same. In particular the text of an
article-number selector never equals the text of a message-id selector. -/
theorem C29_ArticleSpec_value_injective (a b : ArticleSpec)
    (ha : a.constructed) (hb : b.constructed) :
    (a.value = b.value ↔ a.op_eq b = true) ∧
    (a.op_eq b = true ↔ a = b) ∧
    (a.is_article = true → b.is_message_id = true → a.value ≠ b.value) := by
  obtain ⟨va⟩ := a
  obtain ⟨vb⟩ := b
  cases va with
  | article x =>
    have hx := Article_constructed_range x ha
    have hvx : ArticleSpec.value { m_value := variant.article x }
        = Except.ok (to_string x.m_value) := rfl
    cases vb with
    | article y =>
      have hy := Article_constructed_range y hb
      have hvy : ArticleSpec.value { m_value := variant.article y }
          = Except.ok (to_string y.m_value) := rfl
      have hop : ArticleSpec.op_eq { m_value := variant.article x }
          { m_value := variant.article y } = (x.m_value == y.m_value) := rfl
      rw [hvx, hvy, hop]
      refine ⟨?_, ?_, ?_⟩
      · constructor
        · intro h
          have h1 : to_string x.m_value = to_string y.m_value := by
            injection h
          have := to_string_injective _ _ hx.2 hy.2 h1
          simp [this]
        · intro h
          have : x.m_value = y.m_value := by simpa using h
          rw [this]
      · constructor
        · intro h
          have : x.m_value = y.m_value := by simpa using h
          cases x; cases y
          simp only at this
          rw [this]
        · intro h
          cases h
          simp
      · intro _ h
        cases h
    | message_id n =>
      have hn := MessageId_constructed_head n hb
      have hvn : ArticleSpec.value { m_value := variant.message_id n }
          = Except.ok n.m_value := rfl
      have hop : ArticleSpec.op_eq { m_value := variant.article x }
          { m_value := variant.message_id n } = false := rfl
      have hne : to_string x.m_value ≠ n.m_value := by
        intro h
        have := to_string_head_ne_lt x.m_value hx.2
        rw [h] at this
        exact this hn
      rw [hvx, hvn, hop]
      refine ⟨?_, ?_, ?_⟩
      · constructor
        · intro h
          injection h with h1
          exact absurd h1 hne
        · intro h; cases h
      · constructor
        · intro h; cases h
        · intro h; cases h
      · intro _ _ h
        injection h with h1
        exact hne h1
  | message_id m =>
    have hm := MessageId_constructed_head m ha
    have hvm : ArticleSpec.value { m_value := variant.message_id m }
        = Except.ok m.m_value := rfl
    cases vb with
    | article y =>
      have hy := Article_constructed_range y hb
      have hvy : ArticleSpec.value { m_value := variant.article y }
          = Except.ok (to_string y.m_value) := rfl
      have hop : ArticleSpec.op_eq { m_value := variant.message_id m }
          { m_value := variant.article y } = false := rfl
      have hne : m.m_value ≠ to_string y.m_value := by
        intro h
        have := to_string_head_ne_lt y.m_value hy.2
        rw [← h] at this
        exact this hm
      rw [hvm, hvy, hop]
      refine ⟨?_, ?_, ?_⟩
      · constructor
        · intro h
          injection h with h1
          exact absurd h1 hne
        · intro h; cases h
      · constructor
        · intro h; cases h
        · intro h; cases h
      · intro h
        cases h
    | message_id n =>
      have hvn : ArticleSpec.value { m_value := variant.message_id n }
          = Except.ok n.m_value := rfl
      have hop : ArticleSpec.op_eq { m_value := variant.message_id m }
          { m_value := variant.message_id n }
          = (basic_string.compare m.m_value n.m_value == 0) := rfl
      rw [hvm, hvn, hop]
      refine ⟨?_, ?_, ?_⟩
      · constructor
        · intro h
          injection h with h1
          have := (string_compare_eq_zero_iff m.m_value n.m_value).mpr h1
          simp [this]
        · intro h
          have h0 : basic_string.compare m.m_value n.m_value = 0 := by simpa using h
          rw [(string_compare_eq_zero_iff _ _).mp h0]
      · constructor
        · intro h
          have h0 : basic_string.compare m.m_value n.m_value = 0 := by simpa using h
          have := (string_compare_eq_zero_iff _ _).mp h0
          cases m; cases n
          simp only at this
          rw [this]
        · intro h
          cases h
          have := (string_compare_eq_zero_iff m.m_value m.m_value).mpr rfl
          simp [this]
      · intro h
        cases h

/-- Witness for C29: the selector of article 12 and the selector of the message id
`<a>`, both built by the constructors; their texts `12` and `<a>` differ. -/
theorem C29_ArticleSpec_value_injective_witness :
    ArticleSpec.value (ArticleSpec.of_article { m_value := 12 })
      ≠ ArticleSpec.value (ArticleSpec.of_message_id { m_value := [0x3C, 0x61, 0x3E] }) :=
  (C29_ArticleSpec_value_injective (ArticleSpec.of_article { m_value := 12 })
    (ArticleSpec.of_message_id { m_value := [0x3C, 0x61, 0x3E] })
    (Or.inr ⟨12, rfl⟩) ⟨[0x3C, 0x61, 0x3E], rfl⟩).2.2 rfl rfl

/-! ## One completion per call -/

theorem poll_loop_posts (cq : List uring.io_uring_cqe) :
    (uring.uring_file_service.poll_loop cq).filter Effect.isPost
      = (cq.filterMap (fun e => e.user_data)).map Effect.post := by
  induction cq with
  | nil => rfl
  | cons e rest ih =>
    cases hu : e.user_data <;>
      simp [uring.uring_file_service.poll_loop, hu, Effect.isPost, ih]

theorem poll_loop_seen (cq : List uring.io_uring_cqe) :
    (uring.uring_file_service.poll_loop cq).count Effect.cqe_seen = cq.length := by
  induction cq with
  | nil => rfl
  | cons e rest ih =>
    cases hu : e.user_data <;>
      simp [uring.uring_file_service.poll_loop, hu, ih, List.count_cons]

theorem poll_loop_res (cq : List uring.io_uring_cqe) :
    uring.uring_file_service.poll_loop cq
      = uring.uring_file_service.poll_loop (cq.map (fun e => { e with res := 0 })) := by
  induction cq with
  | nil => rfl
  | cons e rest ih =>
    cases hu : e.user_data <;>
      simp [uring.uring_file_service.poll_loop, hu, ← ih]

theorem poll_loop_no_result (cq : List uring.io_uring_cqe) (d : Dir) (r : Int) :
    Effect.post_result d r ∉ uring.uring_file_service.poll_loop cq := by
  induction cq with
  | nil => simp [uring.uring_file_service.poll_loop]
  | cons e rest ih =>
    cases hu : e.user_data <;>
      simp [uring.uring_file_service.poll_loop, hu, ih]

/-- Claim C24, what the code does. `poll_completions` marks every drained entry seen
and posts the record of every entry with a non-null `user_data` exactly once, in
queue order; entries with a null `user_data` are not posted. But the posts carry
no result: no effect of the call hands a `res` to the scheduler, and the whole
trace is the same when every `res` is replaced by 0. So an entry with `res = 5`
and one with `res = -5` for the read record lead to the same post, and the state
in which the completion callback later runs does not depend on `res`. -/
theorem C24_poll_completions_drops_res (E : errno_h) (init : Bool)
    (cq : List uring.io_uring_cqe) (s : uring.uring_file_impl_internal) (ret res : Int) :
    (uring.uring_file_service.poll_completions true cq).filter Effect.isPost
      = (cq.filterMap (fun e => e.user_data)).map Effect.post ∧
    (uring.uring_file_service.poll_completions true cq).count Effect.cqe_seen
      = cq.length ∧
    uring.uring_file_service.poll_completions false cq = [] ∧
    (∀ d r, Effect.post_result d r ∉ uring.uring_file_service.poll_completions init cq) ∧
    uring.uring_file_service.poll_completions init cq
      = uring.uring_file_service.poll_completions init
          (cq.map (fun e => { e with res := 0 })) ∧
    uring.uring_file_service.poll_completions true [{ user_data := some Dir.read, res := 5 }]
      = [Effect.cqe_seen, Effect.post Dir.read] ∧
    uring.uring_file_service.poll_completions true [{ user_data := some Dir.read, res := -5 }]
      = [Effect.cqe_seen, Effect.post Dir.read] ∧
    uring.read_delivery E s true ret res = uring.read_delivery E s true ret 0 ∧
    uring.write_delivery E s true ret res = uring.write_delivery E s true ret 0 := by
  refine ⟨?_, ?_, rfl, ?_, ?_, rfl, rfl, ?_, ?_⟩
  · exact poll_loop_posts cq
  · exact poll_loop_seen cq
  · intro d r
    cases init
    · simp [uring.uring_file_service.poll_completions]
    · exact poll_loop_no_result cq d r
  · cases init
    · rfl
    · exact poll_loop_res cq
  · simp only [uring.read_delivery]
    split_ifs <;> rfl
  · simp only [uring.write_delivery]
    split_ifs <;> rfl

/-! ## The GCD handler blocks -/

theorem gcd_read_handler_not_done (buffer : List UInt8) (a : gcd.io_handler_args) :
    gcd.read_handler buffer { a with done := false } = (buffer, []) := by
  simp [gcd.read_handler]

theorem gcd_read_handler_seq_frags (buffer : List UInt8) (frags : List gcd.io_handler_args)
    (rest : List gcd.io_handler_args) :
    gcd.read_handler_seq buffer (frags.map (fun a => { a with done := false }) ++ rest)
      = gcd.read_handler_seq buffer rest := by
  induction frags with
  | nil => rfl
  | cons a frags ih =>
    simp only [List.map_cons, List.cons_append, gcd.read_handler_seq,
      gcd_read_handler_not_done, List.nil_append]
    exact ih

theorem gcd_read_handler_seq_single (buffer : List UInt8) (a : gcd.io_handler_args) :
    gcd.read_handler_seq buffer [a] = gcd.read_handler buffer a := by
  simp [gcd.read_handler_seq]

theorem gcd_write_handler_seq_frags (n : Nat) (frags : List gcd.io_handler_args)
    (rest : List gcd.io_handler_args) :
    gcd.write_handler_seq n (frags.map (fun a => { a with done := false }) ++ rest)
      = gcd.write_handler_seq n rest := by
  induction frags with
  | nil => rfl
  | cons a frags ih =>
    simp only [List.map_cons, List.cons_append, gcd.write_handler_seq, gcd.write_handler,
      Bool.false_eq_true, if_false, List.nil_append]
    exact ih

theorem gcd_memcpy_at_length (buffer : List UInt8) (offset : Nat) (region : List UInt8)
    (h : offset + region.length ≤ buffer.length) :
    (gcd.memcpy_at buffer offset region).length = buffer.length := by
  simp only [gcd.memcpy_at, List.length_append, List.length_take, List.length_drop]
  omega

theorem gcd_dispatch_data_apply_from (regions : List (List UInt8)) :
    ∀ (buffer : List UInt8) (offset : Nat),
      offset + gcd.dispatch_data_get_size regions ≤ buffer.length →
      regions.foldl
          (fun acc region => (gcd.memcpy_at acc.1 acc.2 region, acc.2 + region.length))
          (buffer, offset)
        = (buffer.take offset ++ regions.flatten
            ++ buffer.drop (offset + gcd.dispatch_data_get_size regions),
           offset + gcd.dispatch_data_get_size regions) := by
  induction regions with
  | nil =>
    intro buffer offset _
    simp [gcd.dispatch_data_get_size]
  | cons r rest ih =>
    intro buffer offset h
    have hsz : gcd.dispatch_data_get_size (r :: rest)
        = r.length + gcd.dispatch_data_get_size rest := by
      simp [gcd.dispatch_data_get_size]
    rw [hsz] at h
    have hlen : (gcd.memcpy_at buffer offset r).length = buffer.length :=
      gcd_memcpy_at_length buffer offset r (by omega)
    rw [List.foldl_cons, ih (gcd.memcpy_at buffer offset r) (offset + r.length)
      (by rw [hlen]; omega), hsz]
    have htake : (gcd.memcpy_at buffer offset r).take (offset + r.length)
        = buffer.take offset ++ r := by
      simp only [gcd.memcpy_at]
      apply List.take_left'
      simp only [List.length_append, List.length_take]
      omega
    have hdrop : (gcd.memcpy_at buffer offset r).drop
          (offset + r.length + gcd.dispatch_data_get_size rest)
        = buffer.drop (offset + (r.length + gcd.dispatch_data_get_size rest)) := by
      simp only [gcd.memcpy_at]
      have h1 : (buffer.take offset ++ r).length = offset + r.length := by
        simp only [List.length_append, List.length_take]
        omega
      rw [show offset + r.length + gcd.dispatch_data_get_size rest
            = (buffer.take offset ++ r).length + gcd.dispatch_data_get_size rest by
          rw [h1], List.drop_append, List.drop_drop]
      congr 1
      omega
    rw [htake, hdrop]
    simp [List.append_assoc, Nat.add_assoc]

/-- The final invocation alone: when the whole data of a read arrives with `done` set,
without error, and fits the caller's buffer, the handler block stores the regions
in order at the start of the buffer and posts their total size. -/
theorem gcd_read_handler_final (buffer : List UInt8) (regions : List (List UInt8))
    (hfit : gcd.dispatch_data_get_size regions ≤ buffer.length)
    (hs : gcd.dispatch_data_get_size regions < 2 ^ 63) :
    gcd.read_handler buffer { done := true, data := some regions, error := 0 }
      = (regions.flatten ++ buffer.drop (gcd.dispatch_data_get_size regions),
         [Effect.work_finished,
          Effect.post_result Dir.read (gcd.dispatch_data_get_size regions : Nat)]) := by
  have h := gcd_dispatch_data_apply_from regions buffer 0 (by omega)
  have hss : toSSizeT (gcd.dispatch_data_get_size regions)
      = ((gcd.dispatch_data_get_size regions : Nat) : Int) := by
    have hm : gcd.dispatch_data_get_size regions % 2 ^ 64
        = gcd.dispatch_data_get_size regions := Nat.mod_eq_of_lt (by omega)
    simp only [toSSizeT, hm]
    rw [if_pos hs]
  simp only [gcd.read_handler, if_true, gcd.dispatch_data_apply, h, hss]
  simp

/-- Claim C25, what the code does. The handler block of the GCD read acts only when
`done` is set: an invocation with `done = false` leaves the caller's buffer alone
and posts nothing, whatever data it carries. So for every sequence of fragments
followed by a final invocation the outcome is that of the final invocation alone.
With the fragment `AB` followed by the final fragment `CD`, a 4-byte buffer ends
up holding `CD` in its first two bytes and the byte count posted is 2, not 4; with
`AB` followed by a final invocation without data the result posted is 0, and the
caller is told `eof` with 0 bytes although 2 bytes were delivered. -/
theorem C25_gcd_read_ignores_fragments (E : errno_h) (buffer : List UInt8)
    (frags : List gcd.io_handler_args) (last a : gcd.io_handler_args) :
    gcd.read_handler buffer { a with done := false } = (buffer, []) ∧
    gcd.read_handler_seq buffer (frags.map (fun a => { a with done := false }) ++ [last])
      = gcd.read_handler buffer last ∧
    gcd.read_handler_seq [0, 0, 0, 0]
        [{ done := false, data := some [[65, 66]], error := 0 },
         { done := true, data := some [[67, 68]], error := 0 }]
      = ([67, 68, 0, 0], [Effect.work_finished, Effect.post_result Dir.read 2]) ∧
    gcd.read_handler_seq [0, 0, 0, 0]
        [{ done := false, data := some [[65, 66]], error := 0 },
         { done := true, data := none, error := 0 }]
      = ([0, 0, 0, 0], [Effect.work_finished, Effect.post_result Dir.read 0]) ∧
    (gcd.run_posted E
        { channel_ := true,
          rd_ := { buffer_size := 4, h := some 1, ec_out := some error_code.success,
                   bytes_out := some 9 } }
        (gcd.read_handler_seq [0, 0, 0, 0]
          [{ done := false, data := some [[65, 66]], error := 0 },
           { done := true, data := none, error := 0 }]).2).1.rd_.ec_out
      = some error_code.eof ∧
    (gcd.run_posted E
        { channel_ := true,
          rd_ := { buffer_size := 4, h := some 1, ec_out := some error_code.success,
                   bytes_out := some 9 } }
        (gcd.read_handler_seq [0, 0, 0, 0]
          [{ done := false, data := some [[65, 66]], error := 0 },
           { done := true, data := none, error := 0 }]).2).1.rd_.bytes_out
      = some 0 := by
  refine ⟨gcd_read_handler_not_done buffer a, ?_, ?_, ?_, ?_, ?_⟩
  · rw [gcd_read_handler_seq_frags, gcd_read_handler_seq_single]
  · decide
  · decide
  · rfl
  · rfl
/-! ## Outstanding-work accounting -/

theorem uring_invoke_handler_no_work (op : uring.file_op) (d : Dir) :
    spec_work_started (op.invoke_handler d) = 0 ∧
    spec_work_finished (op.invoke_handler d) = 0 := by
  cases hh : op.h <;>
    simp [uring.file_op.invoke_handler, hh, spec_work_started, spec_work_finished]

theorem uring_write_invoke_handler_no_work (op : uring.file_op) :
    spec_work_started (uring.file_write_op.invoke_handler op) = 0 ∧
    spec_work_finished (uring.file_write_op.invoke_handler op) = 0 := by
  cases hh : op.handler_ <;>
    simp [uring.file_write_op.invoke_handler, hh, spec_work_started, spec_work_finished]

theorem gcd_invoke_handler_no_work (op : gcd.file_op) (d : Dir) :
    spec_work_started (op.invoke_handler d) = 0 ∧
    spec_work_finished (op.invoke_handler d) = 0 := by
  cases hh : op.handler_ <;>
    simp [gcd.file_op.invoke_handler, hh, spec_work_started, spec_work_finished]

theorem uring_complete_no_work (E : errno_h) (owner : Bool)
    (s : uring.uring_file_impl_internal) (word : Nat) :
    (spec_work_started (uring.file_read_op.do_complete E owner s word).2 = 0 ∧
     spec_work_finished (uring.file_read_op.do_complete E owner s word).2 = 0) ∧
    (spec_work_started (uring.file_write_op.do_complete E owner s word).2 = 0 ∧
     spec_work_finished (uring.file_write_op.do_complete E owner s word).2 = 0) := by
  cases owner
  · exact ⟨⟨rfl, rfl⟩, ⟨rfl, rfl⟩⟩
  · simp only [uring.file_read_op.do_complete, uring.file_write_op.do_complete,
      Bool.not_true, Bool.false_eq_true, if_false]
    refine ⟨⟨?_, ?_⟩, ⟨?_, ?_⟩⟩ <;> split_ifs <;>
      first
      | exact (uring_invoke_handler_no_work _ _).1
      | exact (uring_invoke_handler_no_work _ _).2
      | exact (uring_write_invoke_handler_no_work _).1
      | exact (uring_write_invoke_handler_no_work _).2

theorem gcd_complete_no_work (E : errno_h) (owner : Bool)
    (s : gcd.gcd_file_impl_internal) (word : Nat) :
    (spec_work_started (gcd.file_read_op.do_complete E owner s word).2 = 0 ∧
     spec_work_finished (gcd.file_read_op.do_complete E owner s word).2 = 0) ∧
    (spec_work_started (gcd.file_write_op.do_complete E owner s word).2 = 0 ∧
     spec_work_finished (gcd.file_write_op.do_complete E owner s word).2 = 0) := by
  cases owner
  · exact ⟨⟨rfl, rfl⟩, ⟨rfl, rfl⟩⟩
  · simp only [gcd.file_read_op.do_complete, gcd.file_write_op.do_complete,
      Bool.not_true, Bool.false_eq_true, if_false]
    refine ⟨⟨?_, ?_⟩, ⟨?_, ?_⟩⟩ <;> split_ifs <;>
      first
      | exact (gcd_invoke_handler_no_work _ _).1
      | exact (gcd_invoke_handler_no_work _ _).2

theorem uring_delivery_work (E : errno_h) (s : uring.uring_file_impl_internal)
    (sqe : Bool) (ret res : Int) :
    (spec_work_started (uring.read_delivery E s sqe ret res).2 = 1 ∧
     spec_work_finished (uring.read_delivery E s sqe ret res).2
       = (if sqe && decide (0 ≤ ret) then 0 else 1)) ∧
    (spec_work_started (uring.write_delivery E s sqe ret res).2 = 1 ∧
     spec_work_finished (uring.write_delivery E s sqe ret res).2
       = (if sqe && decide (0 ≤ ret) then 0 else 1)) := by
  cases sqe <;> by_cases hr : ret < 0 <;>
    simp [uring.read_delivery, uring.write_delivery,
      uring.uring_file_impl_internal.do_read_io,
      uring.uring_file_impl_internal.do_write_io,
      uring.uring_file_service.poll_completions, uring.uring_file_service.poll_loop,
      spec_work_started, spec_work_finished, hr, Int.not_le.mpr, Int.not_lt.mp]

theorem gcd_read_handler_done_work (buffer : List UInt8) (a : gcd.io_handler_args) :
    spec_work_started (gcd.read_handler buffer { a with done := true }).2 = 0 ∧
    spec_work_finished (gcd.read_handler buffer { a with done := true }).2 = 1 := by
  simp only [gcd.read_handler, if_true]
  split_ifs
  · exact ⟨rfl, rfl⟩
  · cases a.data <;> exact ⟨rfl, rfl⟩

theorem gcd_write_handler_done_work (n : Nat) (a : gcd.io_handler_args) :
    spec_work_started (gcd.write_handler n { a with done := true }) = 0 ∧
    spec_work_finished (gcd.write_handler n { a with done := true }) = 1 := by
  simp only [gcd.write_handler, if_true]
  split_ifs <;> exact ⟨rfl, rfl⟩

theorem spec_work_append (t u : List Effect) :
    spec_work_started (t ++ u) = spec_work_started t + spec_work_started u ∧
    spec_work_finished (t ++ u) = spec_work_finished t + spec_work_finished u := by
  simp [spec_work_started, spec_work_finished, List.count_append]

theorem gcd_delivery_work (E : errno_h) (s : gcd.gcd_file_impl_internal)
    (buffer : List UInt8) (frags : List gcd.io_handler_args) (last : gcd.io_handler_args) :
    (spec_work_started (gcd.read_delivery E s buffer
        (frags.map (fun a => { a with done := false }) ++ [{ last with done := true }])).2.2
       = 1 ∧
     spec_work_finished (gcd.read_delivery E s buffer
        (frags.map (fun a => { a with done := false }) ++ [{ last with done := true }])).2.2
       = 1) ∧
    (spec_work_started (gcd.write_delivery E s
        (frags.map (fun a => { a with done := false }) ++ [{ last with done := true }])).2
       = 1 ∧
     spec_work_finished (gcd.write_delivery E s
        (frags.map (fun a => { a with done := false }) ++ [{ last with done := true }])).2
       = 1) := by
  cases hc : s.channel_
  · simp [gcd.read_delivery, gcd.write_delivery, gcd.gcd_file_impl_internal.do_read_io,
      gcd.gcd_file_impl_internal.do_write_io, hc, spec_work_started, spec_work_finished]
  · have hr := gcd_read_handler_done_work buffer last
    have hw := gcd_write_handler_done_work s.wr_.buffer_size last
    have hws : gcd.write_handler_seq s.wr_.buffer_size [{ last with done := true }]
        = gcd.write_handler s.wr_.buffer_size { last with done := true } := by
      simp [gcd.write_handler_seq]
    simp only [gcd.read_delivery, gcd.write_delivery,
      gcd.gcd_file_impl_internal.do_read_io, gcd.gcd_file_impl_internal.do_write_io, hc,
      Bool.not_true, Bool.false_eq_true, if_false, if_true,
      gcd_read_handler_seq_frags, gcd_read_handler_seq_single,
      gcd_write_handler_seq_frags, hws, spec_work_append, hr, hw]
    exact ⟨⟨rfl, rfl⟩, ⟨rfl, rfl⟩⟩

/-- Claim C30, what the code does. Every `do_read_io` / `do_write_io` makes exactly one
`work_started` call. On the GCD backend it is matched by exactly one
`work_finished` call by the time the record has been posted, on the
missing-channel path and on the path where the handler block is invoked with any
fragments followed by the final invocation. On the io_uring backend it is matched
on the two submission-failure paths only: when the submission succeeds and the
kernel's entry is drained by `poll_completions`, no `work_finished` call has been
made, and the completion callbacks, on either backend, make none. -/
theorem C30_work_accounting (E : errno_h) (su : uring.uring_file_impl_internal)
    (sg : gcd.gcd_file_impl_internal) (sqe owner : Bool) (ret res : Int) (word : Nat)
    (buffer : List UInt8) (frags : List gcd.io_handler_args) (last : gcd.io_handler_args) :
    ((spec_work_started (uring.read_delivery E su sqe ret res).2 = 1 ∧
      spec_work_finished (uring.read_delivery E su sqe ret res).2
        = (if sqe && decide (0 ≤ ret) then 0 else 1)) ∧
     (spec_work_started (uring.write_delivery E su sqe ret res).2 = 1 ∧
      spec_work_finished (uring.write_delivery E su sqe ret res).2
        = (if sqe && decide (0 ≤ ret) then 0 else 1))) ∧
    ((spec_work_started (uring.file_read_op.do_complete E owner su word).2 = 0 ∧
      spec_work_finished (uring.file_read_op.do_complete E owner su word).2 = 0) ∧
     (spec_work_started (uring.file_write_op.do_complete E owner su word).2 = 0 ∧
      spec_work_finished (uring.file_write_op.do_complete E owner su word).2 = 0)) ∧
    ((spec_work_started (gcd.read_delivery E sg buffer
        (frags.map (fun a => { a with done := false }) ++ [{ last with done := true }])).2.2
        = 1 ∧
      spec_work_finished (gcd.read_delivery E sg buffer
        (frags.map (fun a => { a with done := false }) ++ [{ last with done := true }])).2.2
        = 1) ∧
     (spec_work_started (gcd.write_delivery E sg
        (frags.map (fun a => { a with done := false }) ++ [{ last with done := true }])).2
        = 1 ∧
      spec_work_finished (gcd.write_delivery E sg
        (frags.map (fun a => { a with done := false }) ++ [{ last with done := true }])).2
        = 1)) ∧
    ((spec_work_started (gcd.file_read_op.do_complete E owner sg word).2 = 0 ∧
      spec_work_finished (gcd.file_read_op.do_complete E owner sg word).2 = 0) ∧
     (spec_work_started (gcd.file_write_op.do_complete E owner sg word).2 = 0 ∧
      spec_work_finished (gcd.file_write_op.do_complete E owner sg word).2 = 0)) ∧
    (uring.read_delivery E { fd_ := 3, rd_ := { buffer_size := 4, h := some 1 } }
        true 1 4).2
      = [Effect.work_started, Effect.uring_prep Dir.read 3 4 0, Effect.uring_submit,
         Effect.cqe_seen, Effect.post Dir.read] ∧
    (uring.file_read_op.do_complete E true
        (uring.read_delivery E { fd_ := 3, rd_ := { buffer_size := 4, h := some 1 } }
          true 1 4).1 4).2
      = [Effect.resume Dir.read] :=
  ⟨uring_delivery_work E su sqe ret res, uring_complete_no_work E owner su word,
   gcd_delivery_work E sg buffer frags last, gcd_complete_no_work E owner sg word,
   rfl, rfl⟩

end nntp
